import Mathlib

/-!
# Control-plane task and procedure core

Shallow embedding of the eager coroutine task
(`include/srsgnb/support/async/async_task.h`) and of the collaborators of the
NGAP handover preparation procedure
(`lib/ngap/procedures/ngap_handover_preparation_procedure.h`), of the PUCCH resource
generator of the DU
(`lib/du/du_high/du_manager/ran_resource_management/pucch_resource_generator.cpp`), and
of the PDU session resource release routine as its test uses it.
-/

namespace srsgnb

/-! ## Coroutine handles and awaiters -/

/-- Type-erased coroutine handle `coro_handle<>`: a default-constructed (empty)
handle, the handle returned by `noop_coroutine()`, or a handle to the frame of a
suspended coroutine, identified by a number. -/
inductive coro_handle where
  | null
  | noop
  | frame (id : Nat)
  deriving DecidableEq

/-- The test `coro_handle::empty()`: only the default-constructed handle is empty. -/
def coro_handle.empty : coro_handle → Bool
  | .null => true
  | .noop => false
  | .frame _ => false

/-- The handle `noop_coroutine()`: resuming it resumes no coroutine. -/
def noop_coroutine : coro_handle := .noop

/-- The coroutine frame that a symmetric transfer to `h` resumes, if any. -/
def coro_handle.resumed : coro_handle → Option Nat
  | .frame id => some id
  | .null => none
  | .noop => none

/-- Modelled from the spec: the assertion `srsran_sanity_check`, whose definition is
not among the sources. A failed check is a fatal precondition violation that carries
the message of the check; a passed check has no effect. -/
def srsran_sanity_check (cond : Bool) (msg : String) : Except String Unit :=
  if cond then .ok () else .error msg

/-- The awaiter `suspend_never` returned by `initial_suspend()`. -/
structure suspend_never where
  deriving DecidableEq

/-- A `suspend_never` awaiter is always ready, so awaiting it does not suspend. -/
def suspend_never.await_ready (_a : suspend_never) : Bool := true

/-! ## Promise, coroutine frame and task -/

/-- State of `async_task<R>::promise_type`: the continuation stored by
`task_promise_base` and the result slot of `promise_data`. -/
structure promise_type (R : Type) where
  continuation : coro_handle
  result : Option R

/-- The check `promise.ready()`: the result slot holds a value. -/
def promise_type.ready {R : Type} (p : promise_type R) : Bool := p.result.isSome

/-- The awaiter `final_awaiter`, which points to its promise `me`. -/
structure final_awaiter (R : Type) where
  me : promise_type R

/-- The method `final_awaiter::await_ready`: the final awaiter always suspends. -/
def final_awaiter.await_ready {R : Type} (_a : final_awaiter R) : Bool := false

/-- The method `final_awaiter::await_suspend`: tail-resumes the continuation, if it
was previously stored via an AWAIT call. -/
def final_awaiter.await_suspend {R : Type} (a : final_awaiter R) : coro_handle :=
  if not a.me.continuation.empty then a.me.continuation else noop_coroutine

/-- The method `promise_type::initial_suspend`. -/
def promise_type.initial_suspend {R : Type} (_p : promise_type R) : suspend_never := {}

/-- The method `promise_type::final_suspend`: returns `{this}`. -/
def promise_type.final_suspend {R : Type} (p : promise_type R) : final_awaiter R := ⟨p⟩

/-- Logic of a coroutine that outputs an `R`: a sequence of await expressions, each
on an awaitable that is either ready (no suspension) or not (a suspension point),
closed by the return of the result. -/
inductive coro_body (R : Type) where
  | coro_return (r : R)
  | coro_await (ready : Bool) (rest : coro_body R)

/-- Program point at which a coroutine frame stands. -/
inductive coro_point (R : Type) where
  | start (body : coro_body R)
  | initial_suspended (body : coro_body R)
  | suspended (rest : coro_body R)
  | final_suspended
  | finished

/-- Coroutine frame: the promise and the point at which the coroutine stands. -/
structure coro_frame (R : Type) where
  promise : promise_type R
  point : coro_point R

/-- Runs the logic of a coroutine from the current point until it returns or
reaches an await on an awaitable that is not ready. Gives the frame left behind and
the handle that control is transferred to. -/
def coro_frame.run_body {R : Type} (promise : promise_type R) :
    coro_body R → coro_frame R × coro_handle
  | .coro_return r =>
      let p : promise_type R := { promise with result := some r }
      if (p.final_suspend).await_ready then
        ({ promise := p, point := .finished }, noop_coroutine)
      else
        ({ promise := p, point := .final_suspended }, (p.final_suspend).await_suspend)
  | .coro_await ready rest =>
      if ready then coro_frame.run_body promise rest
      else ({ promise := promise, point := .suspended rest }, noop_coroutine)

/-- The call `coro_handle<promise_type>::resume()`: continues the coroutine from the
point at which it stands. Resuming a coroutine that is at its final suspension point
has no effect. -/
def coro_frame.resume {R : Type} (f : coro_frame R) : coro_frame R × coro_handle :=
  match f.point with
  | .start body =>
      if (f.promise.initial_suspend).await_ready then coro_frame.run_body f.promise body
      else ({ f with point := .initial_suspended body }, noop_coroutine)
  | .initial_suspended body => coro_frame.run_body f.promise body
  | .suspended rest => coro_frame.run_body f.promise rest
  | .final_suspended => (f, noop_coroutine)
  | .finished => (f, noop_coroutine)

/-- Eager coroutine type `async_task<R>`: a `unique_coroutine` handle that is either
empty or owns a coroutine frame. -/
structure async_task (R : Type) where
  handle : Option (coro_frame R)

/-- The default constructor `async_task() = default`: wraps no coroutine. -/
def async_task.default {R : Type} : async_task R := { handle := none }

/-- The check `empty()`: the task wraps no coroutine. -/
def async_task.empty {R : Type} (t : async_task R) : Bool := t.handle.isNone

/-- Modelled from the spec: the poll `ready()` of `detail::task_crtp`, which is not
among the sources: the task is non-empty and its result slot holds the value. -/
def async_task.ready {R : Type} (t : async_task R) : Bool :=
  match t.handle with
  | none => false
  | some f => f.promise.ready

/-- Modelled from the spec: the accessor `get()` of `detail::task_crtp`, which is not
among the sources: the value in the result slot of a completed task. -/
def async_task.get {R : Type} (t : async_task R) : Option R :=
  match t.handle with
  | none => none
  | some f => f.promise.result

/-- The method `promise_type::get_return_object`: takes the handle of the new
coroutine, resumes it, and wraps the handle in the returned task. The logic that the
frame of the new coroutine runs is the argument. -/
def promise_type.get_return_object {R : Type} (logic : coro_body R) : async_task R :=
  let corohandle : coro_frame R :=
    { promise := { continuation := .null, result := none }, point := .start logic }
  { handle := some (corohandle.resume).1 }

/-- The method `async_task::await_suspend`: registers the suspending coroutine `h` as
continuation of the task, after checking that the task is not empty and has no
continuation yet. -/
def async_task.await_suspend {R : Type} (t : async_task R) (h : coro_handle) :
    Except String (async_task R) :=
  match srsran_sanity_check (not t.empty) "Awaiting an empty async_task" with
  | .error e => .error e
  | .ok _ =>
    match t.handle with
    | none => .error "promise() of an empty handle"
    | some f =>
      match srsran_sanity_check f.promise.continuation.empty
          "Async task can only be awaited once." with
      | .error e => .error e
      | .ok _ =>
        .ok { handle := some { f with promise := { f.promise with continuation := h } } }

/-- The continuation registered in the task, when it wraps a coroutine. -/
def async_task.continuation {R : Type} (t : async_task R) : Option coro_handle :=
  t.handle.map (fun f => f.promise.continuation)

/-- The task wraps a coroutine whose promise holds a non-empty continuation. -/
def async_task.has_continuation {R : Type} (t : async_task R) : Bool :=
  match t.handle with
  | none => false
  | some f => not f.promise.continuation.empty

/-! ## Reference description of a coroutine logic -/

/-- The logic contains a suspension point: an await on an awaitable that is not
ready. -/
def coro_body.has_suspension_point {R : Type} : coro_body R → Bool
  | .coro_return _ => false
  | .coro_await ready rest => not ready || rest.has_suspension_point

/-- The value the logic returns once all its awaits are over. -/
def coro_body.returned {R : Type} : coro_body R → R
  | .coro_return r => r
  | .coro_await _ rest => rest.returned

/-- The code that remains after the first suspension point of the logic. -/
def coro_body.after_first_suspension {R : Type} : coro_body R → Option (coro_body R)
  | .coro_return _ => none
  | .coro_await ready rest => if ready then rest.after_first_suspension else some rest

/-! ## Example tasks -/

/-- A task awaited once by the coroutine with frame 1, still suspended in its logic. -/
def awaited_task : async_task Nat :=
  { handle := some { promise := { continuation := .frame 1, result := none },
                     point := .suspended (.coro_return 7) } }

/-- A logic with one ready await, one suspension point, and a return after it. -/
def suspending_logic : coro_body Nat :=
  .coro_await true (.coro_await false (.coro_return 5))

/-- The final awaiter of a promise whose continuation is the coroutine with frame 4. -/
def awaited_final : final_awaiter Nat :=
  ⟨{ continuation := .frame 4, result := some 9 }⟩

end srsgnb

namespace srsran

/-! ## Transaction correlator -/

/-- Buffer of bytes `byte_buffer`. -/
abbrev byte_buffer := List Nat

/-- Modelled from the spec: the expected response shapes of a transaction (the ASN.1
message types are not among the sources): the NGAP messages
`ho_cmd_s`, `ho_prep_fail_s` and `ho_cancel_ack_s` named by the transaction sinks of
the handover preparation procedure, and any other message. -/
inductive response_shape where
  | ho_cmd
  | ho_prep_fail
  | ho_cancel_ack
  | other (tag : Nat)
  deriving DecidableEq

/-- Modelled from the spec: a response message (the ASN.1 message types are not among
the sources): its shape and the container it carries. -/
structure response_message where
  shape : response_shape
  payload : byte_buffer
  deriving DecidableEq

/-- Modelled from the spec: the outcome with which a transaction is resolved (the
transaction manager is not among the sources): a matching response, an explicit
failure, or a cancellation. -/
inductive transaction_outcome where
  | response (msg : response_message)
  | failure (reason : Nat)
  | canceled
  deriving DecidableEq

/-- Modelled from the spec: a pending transaction (the declaration of
`protocol_transaction_outcome_observer` in `ngap_transaction_manager.h` is not among
the sources): the identifier, the accepted response shapes and the resumption
target. -/
structure transaction where
  transaction_id : Nat
  expected : List response_shape
  target : Nat
  deriving DecidableEq

/-- Modelled from the spec: what the correlator does on a call (the transaction
manager is not among the sources): it wakes the task waiting on a transaction with
the outcome, or it drops the call with a logged diagnostic. -/
inductive correlator_effect where
  | resume (target : Nat) (transaction_id : Nat) (outcome : transaction_outcome)
  | dropped (transaction_id : Nat)
  deriving DecidableEq

/-- Modelled from the spec: the transaction correlator (`ngap_transaction_manager`
is not among the sources): the next identifier to allocate and the pending
transactions of the owning entity. -/
structure transaction_correlator where
  next_id : Nat
  pending : List transaction
  deriving DecidableEq

/-- Modelled from the spec: the correlator of a new entity, with no transaction. -/
def transaction_correlator.init : transaction_correlator := { next_id := 0, pending := [] }

/-- Modelled from the spec: the pending transaction that bears the identifier. -/
def transaction_correlator.find (c : transaction_correlator) (id : Nat) : Option transaction :=
  c.pending.find? (fun t => t.transaction_id == id)

/-- Modelled from the spec: the transaction with this identifier is pending. -/
def transaction_correlator.is_pending (c : transaction_correlator) (id : Nat) : Bool :=
  (c.find id).isSome

/-- Modelled from the spec: removal of a resolved transaction from the correlator. -/
def transaction_correlator.remove (c : transaction_correlator) (id : Nat) :
    transaction_correlator :=
  { c with pending := c.pending.filter (fun t => t.transaction_id != id) }

/-- Modelled from the spec: `open(expected_shape) -> TransactionId` allocates and
registers a new pending transaction and returns its identifier. -/
def transaction_correlator.open_transaction (c : transaction_correlator)
    (expected : List response_shape) (target : Nat) : transaction_correlator × Nat :=
  ({ next_id := c.next_id + 1,
     pending := { transaction_id := c.next_id, expected := expected, target := target }
       :: c.pending },
   c.next_id)

/-- Modelled from the spec: `complete(TransactionId, response)` resolves a pending
transaction if the response shape matches what was expected; a mismatched shape is
dropped with a diagnostic and the transaction remains pending; an identifier that is
not pending is a no-op with a logged anomaly. -/
def transaction_correlator.complete (c : transaction_correlator) (id : Nat)
    (msg : response_message) : transaction_correlator × List correlator_effect :=
  match c.find id with
  | none => (c, [.dropped id])
  | some t =>
    if msg.shape ∈ t.expected then (c.remove id, [.resume t.target id (.response msg)])
    else (c, [.dropped id])

/-- Modelled from the spec: `fail(TransactionId, reason)` resolves a pending
transaction with an explicit failure; an identifier that is not pending is a no-op
with a logged anomaly. -/
def transaction_correlator.fail (c : transaction_correlator) (id : Nat) (reason : Nat) :
    transaction_correlator × List correlator_effect :=
  match c.find id with
  | none => (c, [.dropped id])
  | some t => (c.remove id, [.resume t.target id (.failure reason)])

/-- Modelled from the spec: `cancel(TransactionId)` resolves a pending transaction as
canceled without requiring a response; an identifier that is not pending is a no-op
with a logged anomaly. -/
def transaction_correlator.cancel (c : transaction_correlator) (id : Nat) :
    transaction_correlator × List correlator_effect :=
  match c.find id with
  | none => (c, [.dropped id])
  | some t => (c.remove id, [.resume t.target id .canceled])

/-- A call on the correlator. -/
inductive correlator_op where
  | open_transaction (expected : List response_shape) (target : Nat)
  | complete (id : Nat) (msg : response_message)
  | fail (id : Nat) (reason : Nat)
  | cancel (id : Nat)
  deriving DecidableEq

/-- The call is a resolution attempt (`complete`, `fail` or `cancel`) on the
identifier. -/
def correlator_op.attempts (id : Nat) : correlator_op → Bool
  | .open_transaction _ _ => false
  | .complete i _ => i == id
  | .fail i _ => i == id
  | .cancel i => i == id

/-- Effect of one call on the correlator. -/
def transaction_correlator.step (c : transaction_correlator) :
    correlator_op → transaction_correlator × List correlator_effect
  | .open_transaction expected target => ((c.open_transaction expected target).1, [])
  | .complete id msg => c.complete id msg
  | .fail id reason => c.fail id reason
  | .cancel id => c.cancel id

/-- Effect of a sequence of calls on the correlator, with all the effects in order. -/
def transaction_correlator.run (c : transaction_correlator) :
    List correlator_op → transaction_correlator × List correlator_effect
  | [] => (c, [])
  | op :: ops =>
    let r := c.step op
    let r2 := transaction_correlator.run r.1 ops
    (r2.1, r.2 ++ r2.2)

/-- The effect wakes the task waiting on the transaction with this identifier. -/
def correlator_effect.resumes (id : Nat) : correlator_effect → Bool
  | .resume _ i _ => i == id
  | .dropped _ => false

/-- Number of times the task waiting on the transaction is resumed. -/
def resumptions (id : Nat) (effects : List correlator_effect) : Nat :=
  effects.countP (correlator_effect.resumes id)

/-- All pending identifiers were allocated by the correlator. -/
def transaction_correlator.wf (c : transaction_correlator) : Prop :=
  ∀ t ∈ c.pending, t.transaction_id < c.next_id

instance (c : transaction_correlator) : Decidable c.wf := by
  unfold transaction_correlator.wf
  infer_instance

/-- The identifier was allocated and its transaction is no longer pending. -/
def transaction_correlator.settled (c : transaction_correlator) (id : Nat) : Prop :=
  id < c.next_id ∧ c.find id = none

/-! ## Timer service -/

/-- Modelled from the spec: the state of a timer (the declaration of `unique_timer`
is not among the sources): armed, fired or canceled. -/
inductive timer_state where
  | armed
  | fired
  | canceled
  deriving DecidableEq

/-- Modelled from the spec: a single-shot timer (the declaration of `unique_timer`
is not among the sources): its handle, the time at which its duration has elapsed,
its expiry target and its state. -/
structure timer where
  handle : Nat
  deadline : Nat
  target : Nat
  state : timer_state
  deriving DecidableEq

/-- Modelled from the spec: one invocation of the expiry callback of a timer (the
timer service is not among the sources). -/
structure timer_expiry where
  handle : Nat
  target : Nat
  deriving DecidableEq

/-- Modelled from the spec: the timer service (`timer_factory` is not among the
sources): the monotonic clock, the next handle, and the timers in arming order. -/
structure timer_service where
  now : Nat
  next_handle : Nat
  timers : List timer
  deriving DecidableEq

/-- Modelled from the spec: the timer service at start, with no timer. -/
def timer_service.init : timer_service := { now := 0, next_handle := 0, timers := [] }

/-- Modelled from the spec: `arm(duration) -> TimerHandle` schedules exactly one
firing after `duration` elapses from the call. -/
def timer_service.arm (s : timer_service) (duration : Nat) (target : Nat) :
    timer_service × Nat :=
  ({ s with
     next_handle := s.next_handle + 1,
     timers := s.timers ++
       [{ handle := s.next_handle, deadline := s.now + duration, target := target,
          state := .armed }] },
   s.next_handle)

/-- Modelled from the spec: the state of a timer after `cancel` of the handle. -/
def timer.cancel (h : Nat) (t : timer) : timer :=
  if t.handle = h ∧ t.state = .armed then { t with state := .canceled } else t

/-- Modelled from the spec: `cancel(TimerHandle)` prevents a not-yet-fired timer from
firing; canceling an already-fired timer is a no-op. -/
def timer_service.cancel (s : timer_service) (h : Nat) : timer_service :=
  { s with timers := s.timers.map (timer.cancel h) }

/-- Modelled from the spec: the timer is armed and its deadline has elapsed at the
given time (the timer service is not among the sources). -/
def timer.due (now : Nat) (t : timer) : Bool :=
  decide (t.state = .armed) && decide (t.deadline ≤ now)

/-- Modelled from the spec: the state of a timer once the timers due at the given
time have fired (the timer service is not among the sources). -/
def timer.fire (now : Nat) (t : timer) : timer :=
  if t.due now then { t with state := .fired } else t

/-- Modelled from the spec: the clock advances by `dt` and every armed timer whose
deadline has elapsed fires once; the firing order follows the expiry order and ties
are broken by arming order. -/
def timer_service.advance (s : timer_service) (dt : Nat) :
    timer_service × List timer_expiry :=
  let now := s.now + dt
  let due := s.timers.filter (timer.due now)
  let order := due.insertionSort (fun a b => a.deadline ≤ b.deadline)
  ({ s with now := now, timers := s.timers.map (timer.fire now) },
   order.map (fun t => { handle := t.handle, target := t.target }))

/-- A call on the timer service. -/
inductive timer_op where
  | arm (duration : Nat) (target : Nat)
  | cancel (h : Nat)
  | advance (dt : Nat)
  deriving DecidableEq

/-- Effect of one call on the timer service. -/
def timer_service.step (s : timer_service) : timer_op → timer_service × List timer_expiry
  | .arm duration target => ((s.arm duration target).1, [])
  | .cancel h => (s.cancel h, [])
  | .advance dt => s.advance dt

/-- Effect of a sequence of calls on the timer service, with all expiries in order. -/
def timer_service.run (s : timer_service) :
    List timer_op → timer_service × List timer_expiry
  | [] => (s, [])
  | op :: ops =>
    let r := s.step op
    let r2 := timer_service.run r.1 ops
    (r2.1, r.2 ++ r2.2)

/-- Number of invocations of the expiry callback of the timer with this handle. -/
def expiries (h : Nat) (events : List timer_expiry) : Nat :=
  events.countP (fun e => e.handle == h)

/-- All handles were given out by the service. -/
def timer_service.bounded (s : timer_service) : Prop :=
  ∀ t ∈ s.timers, t.handle < s.next_handle

/-- All handles were given out by the service and no two timers share a handle. -/
def timer_service.wf (s : timer_service) : Prop :=
  s.bounded ∧ (s.timers.map (fun t => t.handle)).Nodup

instance (s : timer_service) : Decidable s.bounded := by
  unfold timer_service.bounded
  infer_instance

instance (s : timer_service) : Decidable s.wf := by
  unfold timer_service.wf
  infer_instance

/-- The handle was given out and its timer is not armed. -/
def timer_service.disarmed (s : timer_service) (h : Nat) : Prop :=
  h < s.next_handle ∧ ∀ t ∈ s.timers, t.handle = h → t.state ≠ .armed

/-! ## Handover preparation procedure -/

/-- The bound `tng_reloc_prep_ms{1000}` of the preparation timer, in milliseconds. -/
def tng_reloc_prep_ms : Nat := 1000

/-- Modelled from the spec: the terminal result `ngap_handover_preparation_response`
(its declaration is not among the sources): success carrying the forwarded
container, or failure. -/
inductive ngap_handover_preparation_response where
  | success (container : byte_buffer)
  | failure
  deriving DecidableEq

/-- Modelled from the spec: the phases of a procedure (the body of `operator()` is
not among the sources): `Idle`, `AwaitingContext`, `AwaitingPeerResponse`,
`Completing`, `Cancelling` and `Terminal` with its result. -/
inductive procedure_phase where
  | idle
  | awaiting_context
  | awaiting_peer_response
  | completing
  | cancelling
  | terminal (result : ngap_handover_preparation_response)
  deriving DecidableEq

/-- Modelled from the spec: the calls of the procedure on its notifiers (their
definitions are not among the sources): the helpers
`get_required_handover_context`, `send_handover_required` and `send_handover_cancel`
of the procedure, the forwarding of the handover command to the RRC UE notifier, and
the logger. -/
inductive procedure_action where
  | get_required_handover_context
  | send_handover_required
  | send_handover_cancel
  | on_new_rrc_handover_command (container : byte_buffer)
  | log_anomaly
  deriving DecidableEq

/-- Modelled from the spec: the events delivered to the strand of the procedure (the
body of `operator()` is not among the sources): its launch, the gathered context, an
inbound response, the passing of time, and the acknowledgment of the RRC subsystem. -/
inductive procedure_event where
  | launch
  | context_gathered
  | deliver (transaction_id : Nat) (msg : response_message)
  | elapse (dt : Nat)
  | rrc_reconfig_result (success : Bool)
  deriving DecidableEq

/-- Modelled from the spec: the state of a procedure instance (the body of
`operator()` is not among the sources). It holds the members of
`ngap_handover_preparation_procedure` that its steps use: the
transaction manager `ev_mng`, the timers, the timer `tng_reloc_prep_timer`, the sinks
`transaction_sink` and `ho_cancel_transaction_sink` (as transaction identifiers),
`rrc_ho_cmd_pdu` and `rrc_reconfig_success`; with the phase, the task that runs the
procedure, and the bound and timer of the cancellation handshake. -/
structure ngap_handover_preparation_procedure where
  task : Nat
  ho_cancel_ms : Nat
  phase : procedure_phase
  ev_mng : transaction_correlator
  timers : timer_service
  tng_reloc_prep_timer : Option Nat
  ho_cancel_timer : Option Nat
  transaction_sink : Option Nat
  ho_cancel_transaction_sink : Option Nat
  rrc_ho_cmd_pdu : byte_buffer
  rrc_reconfig_success : Bool
  deriving DecidableEq

namespace ngap_handover_preparation_procedure

/-- Modelled from the spec: the constructor of the procedure (its definition is not
among the sources): an idle procedure over the given transaction manager and
timers. -/
def create (task ho_cancel_ms : Nat) (ev_mng : transaction_correlator)
    (timers : timer_service) : ngap_handover_preparation_procedure :=
  { task := task, ho_cancel_ms := ho_cancel_ms, phase := .idle, ev_mng := ev_mng,
    timers := timers, tng_reloc_prep_timer := none, ho_cancel_timer := none,
    transaction_sink := none, ho_cancel_transaction_sink := none, rrc_ho_cmd_pdu := [],
    rrc_reconfig_success := false }

/-- Modelled from the spec: a timer is canceled when the awaited outcome arrives
before expiry (the body of `operator()` is not among the sources). -/
def cancel_timer (p : ngap_handover_preparation_procedure) (h : Option Nat) : timer_service :=
  match h with
  | some h => p.timers.cancel h
  | none => p.timers

/-- Modelled from the spec: `AwaitingPeerResponse` sends a "handover required"
message upstream, opens a transaction expecting either an acceptance or an explicit
rejection, and arms a bounded deadline. -/
def send_request (p : ngap_handover_preparation_procedure) :
    ngap_handover_preparation_procedure × List procedure_action :=
  let o := p.ev_mng.open_transaction [.ho_cmd, .ho_prep_fail] p.task
  let a := p.timers.arm tng_reloc_prep_ms p.task
  ({ p with phase := .awaiting_peer_response, ev_mng := o.1, timers := a.1,
            transaction_sink := some o.2, tng_reloc_prep_timer := some a.2 },
   [.send_handover_required])

/-- Modelled from the spec: `Cancelling` sends a handover-cancel message, opens a new
transaction awaiting its acknowledgment, and arms the bounded cancel-timeout. -/
def enter_cancelling (p : ngap_handover_preparation_procedure) :
    ngap_handover_preparation_procedure × List procedure_action :=
  let o := p.ev_mng.open_transaction [.ho_cancel_ack] p.task
  let a := p.timers.arm p.ho_cancel_ms p.task
  ({ p with phase := .cancelling, ev_mng := o.1, timers := a.1,
            ho_cancel_transaction_sink := some o.2, ho_cancel_timer := some a.2 },
   [.send_handover_cancel])

/-- Modelled from the spec: the outcome of the awaited peer response. On acceptance
the container is handed to the local RRC subsystem and its acknowledgment awaited; on
rejection the procedure completes with failure, no cancellation needed; on an
explicit abort it enters `Cancelling`. The deadline timer is canceled, as the awaited
outcome arrived before expiry. -/
def on_peer_outcome (p : ngap_handover_preparation_procedure) (outcome : transaction_outcome) :
    ngap_handover_preparation_procedure × List procedure_action :=
  let q := { p with timers := p.cancel_timer p.tng_reloc_prep_timer }
  match outcome with
  | .response msg =>
    if msg.shape = .ho_cmd then
      ({ q with phase := .completing, rrc_ho_cmd_pdu := msg.payload },
       [.on_new_rrc_handover_command msg.payload])
    else ({ q with phase := .terminal .failure }, [])
  | .failure _ => ({ q with phase := .terminal .failure }, [])
  | .canceled => q.enter_cancelling

/-- Modelled from the spec: the procedure is woken by the correlator. It reacts to
the resolution of the transaction it awaits in its phase; any other effect is not
for it. -/
def on_effect (p : ngap_handover_preparation_procedure) (e : correlator_effect) :
    ngap_handover_preparation_procedure × List procedure_action :=
  match e with
  | .dropped _ => (p, [])
  | .resume _ id outcome =>
    match p.phase with
    | .awaiting_peer_response =>
      if p.transaction_sink = some id then p.on_peer_outcome outcome else (p, [])
    | .cancelling =>
      if p.ho_cancel_transaction_sink = some id then
        ({ p with phase := .terminal .failure, timers := p.cancel_timer p.ho_cancel_timer }, [])
      else (p, [])
    | _ => (p, [])

/-- Modelled from the spec: the effects of one call on the correlator are handled in
order (the body of `operator()` is not among the sources). -/
def on_effects (p : ngap_handover_preparation_procedure) :
    List correlator_effect → ngap_handover_preparation_procedure × List procedure_action
  | [] => (p, [])
  | e :: es =>
    let r := p.on_effect e
    let r2 := on_effects r.1 es
    (r2.1, r.2 ++ r2.2)

/-- Modelled from the spec: on timeout the original transaction is resolved as
canceled, and the procedure enters `Cancelling`. -/
def on_prep_timeout (p : ngap_handover_preparation_procedure) :
    ngap_handover_preparation_procedure × List procedure_action :=
  match p.transaction_sink with
  | some id => enter_cancelling { p with ev_mng := (p.ev_mng.cancel id).1 }
  | none => p.enter_cancelling

/-- Modelled from the spec: the bounded cancel-timeout elapsed; the awaited
acknowledgment is abandoned and the procedure terminates with failure, logged as a
non-fatal anomaly. -/
def on_cancel_timeout (p : ngap_handover_preparation_procedure) :
    ngap_handover_preparation_procedure × List procedure_action :=
  match p.ho_cancel_transaction_sink with
  | some id =>
    ({ p with phase := .terminal .failure, ev_mng := (p.ev_mng.cancel id).1 }, [.log_anomaly])
  | none => ({ p with phase := .terminal .failure }, [.log_anomaly])

/-- Modelled from the spec: the procedure reacts to the expiry of the timer it armed
for its phase; any other expiry is not for it. -/
def on_expiry (p : ngap_handover_preparation_procedure) (e : timer_expiry) :
    ngap_handover_preparation_procedure × List procedure_action :=
  match p.phase with
  | .awaiting_peer_response =>
    if p.tng_reloc_prep_timer = some e.handle then p.on_prep_timeout else (p, [])
  | .cancelling =>
    if p.ho_cancel_timer = some e.handle then p.on_cancel_timeout else (p, [])
  | _ => (p, [])

/-- Modelled from the spec: the expiries of one advance of the clock are handled in
firing order (the body of `operator()` is not among the sources). -/
def on_expiries (p : ngap_handover_preparation_procedure) :
    List timer_expiry → ngap_handover_preparation_procedure × List procedure_action
  | [] => (p, [])
  | e :: es =>
    let r := p.on_expiry e
    let r2 := on_expiries r.1 es
    (r2.1, r.2 ++ r2.2)

/-- Modelled from the spec: one millisecond passes: the clock advances and the
expiries are handled (the body of `operator()` is not among the sources). -/
def tick (p : ngap_handover_preparation_procedure) :
    ngap_handover_preparation_procedure × List procedure_action :=
  let a := p.timers.advance 1
  on_expiries { p with timers := a.1 } a.2

/-- Modelled from the spec: the given number of milliseconds pass, one by one (the
body of `operator()` is not among the sources). -/
def elapse (p : ngap_handover_preparation_procedure) :
    Nat → ngap_handover_preparation_procedure × List procedure_action
  | 0 => (p, [])
  | n + 1 =>
    let r := p.tick
    let r2 := elapse r.1 n
    (r2.1, r.2 ++ r2.2)

/-- Modelled from the spec: one step of the procedure (the body of `operator()` is
not among the sources): the phases `Idle`, `AwaitingContext`,
`AwaitingPeerResponse`, `Completing`, `Cancelling` and `Terminal` with their
transitions. -/
def step (p : ngap_handover_preparation_procedure) :
    procedure_event → ngap_handover_preparation_procedure × List procedure_action
  | .launch =>
    match p.phase with
    | .idle => ({ p with phase := .awaiting_context }, [.get_required_handover_context])
    | _ => (p, [])
  | .context_gathered =>
    match p.phase with
    | .awaiting_context => p.send_request
    | _ => (p, [])
  | .deliver id msg =>
    let r := p.ev_mng.complete id msg
    on_effects { p with ev_mng := r.1 } r.2
  | .elapse dt => p.elapse dt
  | .rrc_reconfig_result success =>
    match p.phase with
    | .completing =>
      if success then
        ({ p with phase := .terminal (.success p.rrc_ho_cmd_pdu), rrc_reconfig_success := true },
         [])
      else ({ p with phase := .terminal .failure }, [])
    | _ => (p, [])

/-- Modelled from the spec: the procedure handles a sequence of events in order (the
body of `operator()` is not among the sources); gives all its calls in order. -/
def run (p : ngap_handover_preparation_procedure) :
    List procedure_event → ngap_handover_preparation_procedure × List procedure_action
  | [] => (p, [])
  | e :: es =>
    let r := p.step e
    let r2 := run r.1 es
    (r2.1, r.2 ++ r2.2)

end ngap_handover_preparation_procedure

/-! ## Invariants of a waiting procedure -/

/-- The timer with handle `h` was given out by the service, is armed, and expires at
time `D`. -/
def timer_service.armed_at (s : timer_service) (h D : Nat) : Prop :=
  s.bounded ∧
  (∃ t ∈ s.timers, t.handle = h ∧ t.state = .armed ∧ t.deadline = D) ∧
  (∀ t ∈ s.timers, t.handle = h → t.state = .armed → t.deadline = D)

/-- The procedure awaits the peer response on transaction `tid`, with the timer `h`
armed until time `D`. -/
structure ngap_handover_preparation_procedure.awaiting
    (p : ngap_handover_preparation_procedure) (h tid D : Nat) : Prop where
  phase : p.phase = .awaiting_peer_response
  timer : p.tng_reloc_prep_timer = some h
  sink : p.transaction_sink = some tid
  armed : p.timers.armed_at h D
  pending : p.ev_mng.find tid =
    some { transaction_id := tid, expected := [.ho_cmd, .ho_prep_fail], target := p.task }

/-- The procedure awaits the handover-cancel acknowledgment on transaction `cid`,
with the timer `ch` armed until time `D`. -/
structure ngap_handover_preparation_procedure.cancelling
    (p : ngap_handover_preparation_procedure) (ch cid D : Nat) : Prop where
  phase : p.phase = .cancelling
  timer : p.ho_cancel_timer = some ch
  sink : p.ho_cancel_transaction_sink = some cid
  armed : p.timers.armed_at ch D
  pending : p.ev_mng.find cid =
    some { transaction_id := cid, expected := [.ho_cancel_ack], target := p.task }

/-- The procedure awaits neither a transaction nor a timer. -/
def ngap_handover_preparation_procedure.inert (p : ngap_handover_preparation_procedure) :
    Prop :=
  p.phase ≠ .awaiting_peer_response ∧ p.phase ≠ .cancelling

/-- The event is the acknowledgment of the local RRC subsystem. -/
def procedure_event.is_rrc_result : procedure_event → Bool
  | .rrc_reconfig_result _ => true
  | _ => false

end srsran

namespace srsran

namespace srs_du

/-! ## PUCCH resource generation
(`lib/du/du_high/du_manager/ran_resource_management/pucch_resource_generator.cpp`) -/

/-- Subtraction of `unsigned` values, which are below 2^32: the result wraps around
modulo 2^32. -/
def usub (a b : Nat) : Nat := (4294967296 + a - b) % 4294967296

/-- Multiplication of `unsigned` values: the result wraps around modulo 2^32. -/
def umul (a b : Nat) : Nat := (a * b) % 4294967296

/-- Addition of `unsigned` values: the result wraps around modulo 2^32. -/
def uadd (a b : Nat) : Nat := (a + b) % 4294967296

/-- The enumeration `pucch_format`. -/
inductive pucch_format where
  | FORMAT_0
  | FORMAT_1
  | FORMAT_2
  | FORMAT_3
  | FORMAT_4
  deriving DecidableEq

/-- The intervals `prb_interval` and `ofdm_symbol_range`: a start and a stop. -/
structure interval where
  start : Nat
  stop : Nat
  deriving DecidableEq

/-- The method `length()` of an interval, `stop - start`, for an interval whose start
is not above its stop. -/
def interval.length (i : interval) : Nat := i.stop - i.start

/-- The structure `pucch_grant`. -/
structure pucch_grant where
  format : pucch_format
  symbols : interval
  prbs : interval
  freq_hop_grant : Option interval
  occ_cs_idx : Option Nat
  deriving DecidableEq

/-- The parameters `pucch_f0_params`, as far as the generator reads them:
`nof_symbols` is a `bounded_integer<unsigned, 1, 2>`. -/
structure pucch_f0_params where
  nof_symbols : Nat
  intraslot_freq_hopping : Bool
  deriving DecidableEq

/-- The parameters `pucch_f1_params`, as far as the generator reads them:
`nof_symbols` is a `bounded_integer<unsigned, 4, 14>`, and `nof_cyc_shifts` is held as
the number `format1_cp_step_to_uint(nof_cyc_shifts)`, a divisor of 12. -/
structure pucch_f1_params where
  occ_supported : Bool
  nof_cyc_shifts : Nat
  intraslot_freq_hopping : Bool
  nof_symbols : Nat
  deriving DecidableEq

/-- The parameters `pucch_f2_params`, as far as the generator reads them:
`nof_symbols` is a `bounded_integer<unsigned, 1, 2>`, and `max_code_rate` is held as
the index of the enumerator. -/
structure pucch_f2_params where
  nof_symbols : Nat
  max_nof_rbs : Nat
  max_payload_bits : Option Nat
  max_code_rate : Nat
  intraslot_freq_hopping : Bool
  deriving DecidableEq

/-- The variant `std::variant<pucch_f1_params, pucch_f0_params>`. -/
inductive pucch_f0_f1_params where
  | f1 (p : pucch_f1_params)
  | f0 (p : pucch_f0_params)
  deriving DecidableEq

/-- The test `std::holds_alternative<pucch_f0_params>`. -/
def pucch_f0_f1_params.has_f0 : pucch_f0_f1_params → Bool
  | .f0 _ => true
  | .f1 _ => false

/-- The constant `pucch_constants::FORMAT2_MAX_NPRB`: the limit of 16 PRBs that the
validator reports. -/
def FORMAT2_MAX_NPRB : Nat := 16

/-- The constant `NOF_OFDM_SYM_PER_SLOT_NORMAL_CP`. -/
def NOF_OFDM_SYM_PER_SLOT_NORMAL_CP : Nat := 14

/-- The function `format1_symb_to_spreading_factor`: the number of possible spreading
factors for the number of symbols. -/
def format1_symb_to_spreading_factor (f1_symbols : Nat) : Nat := f1_symbols / 2

/-- The function `occ_cs_index_to_cyclic_shift`, with
`format1_cp_step_to_uint(nof_cyclic_shifts::twelve)` equal to 12. -/
def occ_cs_index_to_cyclic_shift (occ_cs_idx nof_css : Nat) : Nat :=
  let max_nof_css := 12
  let cs_step := max_nof_css / nof_css
  (umul occ_cs_idx cs_step) % max_nof_css

/-- The function `occ_cs_index_to_occ`. -/
def occ_cs_index_to_occ (occ_cs_idx nof_css : Nat) : Nat := occ_cs_idx / nof_css

/-! ### Loops of the generator -/

/-- The loop `for (i = start; i < start + count; ++i) { body(i); if (res_list.size()
== nof_res) break; }` on the list `res_list` under construction. -/
def for_break {β : Type} (nof_res : Nat) (body : Nat → List β → List β) :
    Nat → Nat → List β → List β
  | _, 0, res_list => res_list
  | i, count + 1, res_list =>
    let r := body i res_list
    if r.length = nof_res then r else for_break nof_res body (i + 1) count r

/-- Two statements in sequence with the check `if (res_list.size() == nof_res) break;`
between them. -/
def seq_break {β : Type} (nof_res : Nat) (first second : List β → List β)
    (res_list : List β) : List β :=
  let r := first res_list
  if r.length = nof_res then r else second r

/-- Number of iterations of `for (x = 0; x < bound; x += step)`, for a step of at
least 1. -/
def stride_count (bound step : Nat) : Nat := (bound + step - 1) / step

/-- The loop `for (sym_idx = 0; sym_idx + nof_symbols <= max_nof_symbols; sym_idx +=
nof_symbols)` with the break check after its body, for `nof_symbols` of at least 1:
its iteration `i` has `sym_idx = i * nof_symbols`. -/
def sym_loop {β : Type} (nof_res nof_symbols max_nof_symbols : Nat)
    (body : interval → List β → List β) (res_list : List β) : List β :=
  for_break nof_res
    (fun i => body { start := i * nof_symbols, stop := i * nof_symbols + nof_symbols })
    0 (max_nof_symbols / nof_symbols) res_list

/-- The statement `res_list.emplace_back(grant)`. -/
def emplace_back {β : Type} (x : β) (res_list : List β) : List β := res_list ++ [x]

/-- The function `compute_f0_res`. -/
def compute_f0_res (nof_res_f0 : Nat) (params : pucch_f0_params) (bwp_size_rbs : Nat)
    (max_nof_symbols : Nat) : List pucch_grant :=
  let nof_f0_symbols := params.nof_symbols
  if params.intraslot_freq_hopping then
    for_break nof_res_f0
      (fun rb_idx =>
        let prbs : interval := { start := rb_idx, stop := rb_idx + 1 }
        let freq_hop_prbs : interval :=
          { start := usub (usub bwp_size_rbs 1) rb_idx, stop := usub bwp_size_rbs rb_idx }
        sym_loop nof_res_f0 nof_f0_symbols max_nof_symbols
          (fun symbols =>
            seq_break nof_res_f0
              (emplace_back { format := .FORMAT_0, symbols := symbols, prbs := prbs,
                              freq_hop_grant := some freq_hop_prbs, occ_cs_idx := none })
              (emplace_back { format := .FORMAT_2, symbols := symbols,
                              prbs := freq_hop_prbs, freq_hop_grant := some prbs,
                              occ_cs_idx := none })))
      0 (usub (bwp_size_rbs / 2) 1) []
  else
    for_break nof_res_f0
      (fun rb_idx =>
        let prbs_low_spectrum : interval := { start := rb_idx, stop := rb_idx + 1 }
        let prbs_hi_spectrum : interval :=
          { start := usub (usub bwp_size_rbs 1) rb_idx, stop := usub bwp_size_rbs rb_idx }
        seq_break nof_res_f0
          (sym_loop nof_res_f0 nof_f0_symbols max_nof_symbols
            (fun symbols =>
              emplace_back { format := .FORMAT_0, symbols := symbols,
                             prbs := prbs_low_spectrum, freq_hop_grant := none,
                             occ_cs_idx := none }))
          (sym_loop nof_res_f0 nof_f0_symbols 14
            (fun symbols =>
              emplace_back { format := .FORMAT_0, symbols := symbols,
                             prbs := prbs_hi_spectrum, freq_hop_grant := none,
                             occ_cs_idx := none })))
      0 (usub (bwp_size_rbs / 2) 1) []

/-- The loop over `occ_cs_idx` of `compute_f1_res`, which emplaces one Format 1 grant
per index. -/
def occ_cs_loop (nof_res_f1 nof_occ_css : Nat) (symbols prbs : interval)
    (freq_hop_grant : Option interval) (res_list : List pucch_grant) : List pucch_grant :=
  for_break nof_res_f1
    (fun occ_cs_idx =>
      emplace_back { format := .FORMAT_1, symbols := symbols, prbs := prbs,
                     freq_hop_grant := freq_hop_grant, occ_cs_idx := some occ_cs_idx })
    0 nof_occ_css res_list

/-- The function `compute_f1_res`. -/
def compute_f1_res (nof_res_f1 : Nat) (params : pucch_f1_params) (bwp_size_rbs : Nat)
    (nof_occ_css : Nat) (max_nof_symbols : Nat) : List pucch_grant :=
  if params.intraslot_freq_hopping then
    for_break nof_res_f1
      (fun rb_idx =>
        let prbs : interval := { start := rb_idx, stop := rb_idx + 1 }
        let freq_hop_prbs : interval :=
          { start := usub (usub bwp_size_rbs 1) rb_idx, stop := usub bwp_size_rbs rb_idx }
        sym_loop nof_res_f1 params.nof_symbols max_nof_symbols
          (fun symbols =>
            seq_break nof_res_f1
              (occ_cs_loop nof_res_f1 nof_occ_css symbols prbs (some freq_hop_prbs))
              (occ_cs_loop nof_res_f1 nof_occ_css symbols freq_hop_prbs (some prbs))))
      0 (usub (bwp_size_rbs / 2) 1) []
  else
    for_break nof_res_f1
      (fun rb_idx =>
        let prbs_low_spectrum : interval := { start := rb_idx, stop := rb_idx + 1 }
        let prbs_hi_spectrum : interval :=
          { start := usub (usub bwp_size_rbs 1) rb_idx, stop := usub bwp_size_rbs rb_idx }
        seq_break nof_res_f1
          (sym_loop nof_res_f1 params.nof_symbols max_nof_symbols
            (fun symbols => occ_cs_loop nof_res_f1 nof_occ_css symbols prbs_low_spectrum none))
          (sym_loop nof_res_f1 params.nof_symbols max_nof_symbols
            (fun symbols => occ_cs_loop nof_res_f1 nof_occ_css symbols prbs_hi_spectrum none)))
      0 (usub (bwp_size_rbs / 2) 1) []

/-- The number `f2_max_rbs` of `compute_f2_res` and `pucch_parameters_validator`. The
helper `get_pucch_format2_max_nof_prbs` of `pucch_info.h` is not among the sources and
is the argument `get_max_nof_prbs`, applied to the payload bits, the number of symbols
and the maximum code rate. -/
def f2_max_rbs (get_max_nof_prbs : Nat → Nat → Nat → Nat) (params : pucch_f2_params) : Nat :=
  match params.max_payload_bits with
  | some bits => get_max_nof_prbs bits params.nof_symbols params.max_code_rate
  | none => params.max_nof_rbs

/-- The function `compute_f2_res`. The loop over `rb_idx` advances by `f2_max_rbs`,
taken to be at least 1: its iteration `i` has `rb_idx = i * f2_max_rbs`. -/
def compute_f2_res (get_max_nof_prbs : Nat → Nat → Nat → Nat) (nof_res_f2 : Nat)
    (params : pucch_f2_params) (bwp_size_rbs : Nat) (max_nof_symbols : Nat) :
    List pucch_grant :=
  let nof_f2_symbols := params.nof_symbols
  let f2_max_rbs := f2_max_rbs get_max_nof_prbs params
  if f2_max_rbs > FORMAT2_MAX_NPRB then []
  else if params.intraslot_freq_hopping then
    for_break nof_res_f2
      (fun i =>
        let rb_idx := i * f2_max_rbs
        let prbs : interval := { start := rb_idx, stop := rb_idx + f2_max_rbs }
        let freq_hop_prbs : interval :=
          { start := usub (usub bwp_size_rbs f2_max_rbs) rb_idx,
            stop := usub bwp_size_rbs rb_idx }
        sym_loop nof_res_f2 nof_f2_symbols max_nof_symbols
          (fun symbols =>
            seq_break nof_res_f2
              (emplace_back { format := .FORMAT_2, symbols := symbols, prbs := prbs,
                              freq_hop_grant := some freq_hop_prbs, occ_cs_idx := none })
              (emplace_back { format := .FORMAT_2, symbols := symbols,
                              prbs := freq_hop_prbs, freq_hop_grant := some prbs,
                              occ_cs_idx := none })))
      0 (stride_count (usub (bwp_size_rbs / 2) f2_max_rbs) f2_max_rbs) []
  else
    for_break nof_res_f2
      (fun i =>
        let rb_idx := i * f2_max_rbs
        let prbs_low_spectrum : interval := { start := rb_idx, stop := rb_idx + f2_max_rbs }
        let prbs_hi_spectrum : interval :=
          { start := usub (usub bwp_size_rbs f2_max_rbs) rb_idx,
            stop := usub bwp_size_rbs rb_idx }
        seq_break nof_res_f2
          (sym_loop nof_res_f2 nof_f2_symbols max_nof_symbols
            (fun symbols =>
              emplace_back { format := .FORMAT_2, symbols := symbols,
                             prbs := prbs_low_spectrum, freq_hop_grant := none,
                             occ_cs_idx := none }))
          (sym_loop nof_res_f2 nof_f2_symbols 14
            (fun symbols =>
              emplace_back { format := .FORMAT_2, symbols := symbols,
                             prbs := prbs_hi_spectrum, freq_hop_grant := none,
                             occ_cs_idx := none })))
      0 (stride_count (usub (bwp_size_rbs / 2) f2_max_rbs) f2_max_rbs) []

/-! ### Validation of the generator parameters -/

/-- The value `static_cast<unsigned>(std::ceil(static_cast<float>(a) /
static_cast<float>(b)))`. For operands below 2^24 and a divisor of at least 1 the
float quotient lies strictly between the same two integers as the exact quotient, so
the value is the ceiling of `a / b`. With a divisor of 0 the quotient is infinite or
not a number and its conversion has no defined value; the definition gives 0 there. -/
def ceil_div (a b : Nat) : Nat := (a + b - 1) / b

/-- The comparison `static_cast<float>(nof_rbs) / static_cast<float>(bwp_size_rbs) >=
0.6F`. For operands below 2^24 the float quotient reaches the float `0.6F` exactly
when the exact quotient is at least 3/5. A positive number divided by zero is
infinite, and 0/0 is not a number, which compares false. -/
def prb_usage_reaches_limit (nof_rbs bwp_size_rbs : Nat) : Bool :=
  if bwp_size_rbs = 0 then decide (nof_rbs ≠ 0)
  else decide (3 * bwp_size_rbs ≤ 5 * nof_rbs)

/-- The number `nof_f0_f1_rbs` that `pucch_parameters_validator` computes, or the
error on Format 0 intra-slot hopping with one symbol. -/
def nof_f0_f1_rbs (nof_res_f0_f1 : Nat) (f0_f1_params : pucch_f0_f1_params)
    (max_nof_symbols : Nat) : Except String Nat :=
  match f0_f1_params with
  | .f0 f0_params =>
    if f0_params.intraslot_freq_hopping && f0_params.nof_symbols == 1 then
      .error "Intra-slot frequency hopping for PUCCH Format 0 requires 2 symbols"
    else
      let nof_f0_per_block := max_nof_symbols / f0_params.nof_symbols
      .ok (ceil_div nof_res_f0_f1 nof_f0_per_block)
  | .f1 f1_params =>
    let nof_occ_codes :=
      if f1_params.occ_supported then format1_symb_to_spreading_factor f1_params.nof_symbols
      else 1
    let nof_f1_per_block :=
      umul (umul nof_occ_codes f1_params.nof_cyc_shifts)
        (max_nof_symbols / f1_params.nof_symbols)
    let rbs := ceil_div nof_res_f0_f1 nof_f1_per_block
    .ok (if f1_params.intraslot_freq_hopping then umul (ceil_div rbs 2) 2 else rbs)

/-- The number `nof_f2_rbs` that `pucch_parameters_validator` computes. -/
def nof_f2_rbs (get_max_nof_prbs : Nat → Nat → Nat → Nat) (nof_res_f2 : Nat)
    (f2_params : pucch_f2_params) (max_nof_symbols : Nat) : Nat :=
  let nof_f2_blocks := max_nof_symbols / f2_params.nof_symbols
  let rbs := umul (ceil_div nof_res_f2 nof_f2_blocks) (f2_max_rbs get_max_nof_prbs f2_params)
  if f2_params.intraslot_freq_hopping then umul (ceil_div rbs 2) 2 else rbs

/-- The function `pucch_parameters_validator`. The assertion on `max_nof_symbols`
holds by its type `bounded_integer<unsigned, 1, 14>`. -/
def pucch_parameters_validator (get_max_nof_prbs : Nat → Nat → Nat → Nat)
    (nof_res_f0_f1 nof_res_f2 : Nat) (f0_f1_params : pucch_f0_f1_params)
    (f2_params : pucch_f2_params) (bwp_size_rbs max_nof_symbols : Nat) :
    Except String Unit :=
  match nof_f0_f1_rbs nof_res_f0_f1 f0_f1_params max_nof_symbols with
  | .error e => .error e
  | .ok nof_f0_f1_rbs =>
    if f2_params.intraslot_freq_hopping && f2_params.nof_symbols == 1 then
      .error "Intra-slot frequency hopping for PUCCH Format 2 requires 2 symbols"
    else if f2_max_rbs get_max_nof_prbs f2_params > FORMAT2_MAX_NPRB then
      .error "The number of PRBs for PUCCH Format 2 exceeds the limit of 16"
    else if prb_usage_reaches_limit
        (uadd nof_f0_f1_rbs (nof_f2_rbs get_max_nof_prbs nof_res_f2 f2_params max_nof_symbols))
        bwp_size_rbs then
      .error ("With the given parameters, the number of PRBs for PUCCH exceeds the 60% " ++
        "of the BWP PRBs")
    else .ok ()

/-! ### Merging the grants into the cell resource list -/

/-- The identifier `pucch_res_id_t`: the cell resource ID and the UE resource ID. -/
structure pucch_res_id_t where
  cell_res_id : Nat
  ue_res_id : Nat
  deriving DecidableEq

/-- The structure `pucch_format_0_cfg`. -/
structure pucch_format_0_cfg where
  initial_cyclic_shift : Nat
  nof_symbols : Nat
  starting_sym_idx : Nat
  deriving DecidableEq

/-- The structure `pucch_format_1_cfg`. -/
structure pucch_format_1_cfg where
  initial_cyclic_shift : Nat
  nof_symbols : Nat
  starting_sym_idx : Nat
  time_domain_occ : Nat
  deriving DecidableEq

/-- The structure `pucch_format_2_3_cfg`. -/
structure pucch_format_2_3_cfg where
  nof_prbs : Nat
  nof_symbols : Nat
  starting_sym_idx : Nat
  deriving DecidableEq

/-- The variant `format_params` of a PUCCH resource, with the alternatives that the
generator and the builder use. -/
inductive pucch_format_params where
  | f0 (cfg : pucch_format_0_cfg)
  | f1 (cfg : pucch_format_1_cfg)
  | f2_3 (cfg : pucch_format_2_3_cfg)
  deriving DecidableEq

/-- The structure `pucch_resource`. -/
structure pucch_resource where
  res_id : pucch_res_id_t
  starting_prb : Nat
  second_hop_prb : Option Nat
  format : pucch_format
  format_params : pucch_format_params
  deriving DecidableEq

/-- The update of `f0_f1_rbs_occupancy_low_freq` and `f0_f1_rbs_occupancy_hi_freq` for
one Format 0 or Format 1 grant; `none` when the grant lies at the centre of the BWP,
where the merge returns an empty list. -/
def update_occupancy (bwp_size_rbs : Nat) (res : pucch_grant) (low hi : Nat) :
    Option (Nat × Nat) :=
  if res.prbs.start < usub (bwp_size_rbs / 2) 1 then
    some (max low (res.prbs.start + 1),
          match res.freq_hop_grant with
          | some hop => max hi (usub bwp_size_rbs hop.start)
          | none => hi)
  else if res.prbs.start > bwp_size_rbs / 2 then
    some (match res.freq_hop_grant with
          | some hop => max low hop.start
          | none => low,
          max hi (usub bwp_size_rbs res.prbs.start))
  else none

/-- A range-based `for` loop whose body may return from the enclosing function: the
body maps the element and the state to the next state, or to `none` on a return. -/
def for_each_or_return {α σ : Type} (body : α → σ → Option σ) : List α → σ → Option σ
  | [], st => some st
  | x :: rest, st =>
    match body x st with
    | none => none
    | some st2 => for_each_or_return body rest st2

/-- The body of the loop of `merge_f0_f1_f2_resource_lists` over the Format 0 grants,
on the resource list and the two occupancies; `none` when the merge returns an empty
list. -/
def merge_f0_step (bwp_size_rbs : Nat) (res_f0 : pucch_grant)
    (st : List pucch_resource × Nat × Nat) : Option (List pucch_resource × Nat × Nat) :=
  let res_id := st.1.length
  match update_occupancy bwp_size_rbs res_f0 st.2.1 st.2.2 with
  | none => none
  | some occupancy =>
    let res : pucch_resource :=
      { res_id := { cell_res_id := res_id, ue_res_id := 0 },
        starting_prb := res_f0.prbs.start,
        second_hop_prb := res_f0.freq_hop_grant.map (fun hop => hop.start),
        format := .FORMAT_0,
        format_params := .f0 { initial_cyclic_shift := 0,
                               nof_symbols := res_f0.symbols.length,
                               starting_sym_idx := res_f0.symbols.start } }
    some (st.1 ++ [res], occupancy.1, occupancy.2)

/-- The loop of `merge_f0_f1_f2_resource_lists` over the Format 0 grants. -/
def merge_f0_loop (bwp_size_rbs : Nat) (pucch_f0_f1_resource_list : List pucch_grant)
    (st : List pucch_resource × Nat × Nat) : Option (List pucch_resource × Nat × Nat) :=
  for_each_or_return (merge_f0_step bwp_size_rbs) pucch_f0_f1_resource_list st

/-- The body of the loop of `merge_f0_f1_f2_resource_lists` over the Format 1 grants;
`none` when the merge returns an empty list or the grant carries no OCC-CS index. -/
def merge_f1_step (nof_cs bwp_size_rbs : Nat) (res_f1 : pucch_grant)
    (st : List pucch_resource × Nat × Nat) : Option (List pucch_resource × Nat × Nat) :=
  let res_id := st.1.length
  match update_occupancy bwp_size_rbs res_f1 st.2.1 st.2.2 with
  | none => none
  | some occupancy =>
    match res_f1.occ_cs_idx with
    | none => none
    | some occ_cs_idx =>
      let res : pucch_resource :=
        { res_id := { cell_res_id := res_id, ue_res_id := 0 },
          starting_prb := res_f1.prbs.start,
          second_hop_prb := res_f1.freq_hop_grant.map (fun hop => hop.start),
          format := .FORMAT_1,
          format_params := .f1 { initial_cyclic_shift :=
                                   occ_cs_index_to_cyclic_shift occ_cs_idx nof_cs,
                                 nof_symbols := res_f1.symbols.length,
                                 starting_sym_idx := res_f1.symbols.start,
                                 time_domain_occ := occ_cs_index_to_occ occ_cs_idx nof_cs } }
      some (st.1 ++ [res], occupancy.1, occupancy.2)

/-- The loop of `merge_f0_f1_f2_resource_lists` over the Format 1 grants. -/
def merge_f1_loop (nof_cs bwp_size_rbs : Nat) (pucch_f0_f1_resource_list : List pucch_grant)
    (st : List pucch_resource × Nat × Nat) : Option (List pucch_resource × Nat × Nat) :=
  for_each_or_return (merge_f1_step nof_cs bwp_size_rbs) pucch_f0_f1_resource_list st

/-- The body of the loop of `merge_f0_f1_f2_resource_lists` over the Format 2 grants,
which shifts them by the occupancy of the preceding resources; `none` when the merge
returns an empty list. -/
def merge_f2_step (bwp_size_rbs low hi : Nat) (res_f2 : pucch_grant)
    (resource_list : List pucch_resource) : Option (List pucch_resource) :=
  let res_id := resource_list.length
  let format2 : pucch_format_params :=
    .f2_3 { nof_prbs := res_f2.prbs.length, nof_symbols := res_f2.symbols.length,
            starting_sym_idx := res_f2.symbols.start }
  if res_f2.prbs.start < usub (bwp_size_rbs / 2) res_f2.prbs.length then
    some (resource_list ++
      [{ res_id := { cell_res_id := res_id, ue_res_id := 0 },
         starting_prb := uadd res_f2.prbs.start low,
         second_hop_prb := res_f2.freq_hop_grant.map (fun hop => usub hop.start hi),
         format := .FORMAT_2, format_params := format2 }])
  else if res_f2.prbs.start > bwp_size_rbs / 2 then
    some (resource_list ++
      [{ res_id := { cell_res_id := res_id, ue_res_id := 0 },
         starting_prb := usub res_f2.prbs.start hi,
         second_hop_prb := res_f2.freq_hop_grant.map (fun hop => uadd hop.start low),
         format := .FORMAT_2, format_params := format2 }])
  else none

/-- The loop of `merge_f0_f1_f2_resource_lists` over the Format 2 grants. -/
def merge_f2_loop (bwp_size_rbs low hi : Nat) (pucch_f2_resource_list : List pucch_grant)
    (resource_list : List pucch_resource) : Option (List pucch_resource) :=
  for_each_or_return (merge_f2_step bwp_size_rbs low hi) pucch_f2_resource_list resource_list

/-- The function `merge_f0_f1_f2_resource_lists`: an empty list when a loop returns at a
grant at the centre of the BWP, else the resources of the three loops. The assertions
before these returns are left out. A Format 1 grant without OCC-CS index, on which the
C++ has no defined result and which `compute_f1_res` never emplaces, gives an empty
list too. -/
def merge_f0_f1_f2_resource_lists (pucch_f0_f1_resource_list pucch_f2_resource_list :
    List pucch_grant) (nof_cs : Option Nat) (bwp_size_rbs : Nat) : List pucch_resource :=
  let first :=
    match nof_cs with
    | none => merge_f0_loop bwp_size_rbs pucch_f0_f1_resource_list ([], 0, 0)
    | some cs => merge_f1_loop cs bwp_size_rbs pucch_f0_f1_resource_list ([], 0, 0)
  match first with
  | none => []
  | some (resource_list, low, hi) =>
    match merge_f2_loop bwp_size_rbs low hi pucch_f2_resource_list resource_list with
    | none => []
    | some l => l

/-- The list `pucch_f0_f1_resource_list` that `generate_cell_pucch_res_list` computes,
with the number `nof_css`. -/
def f0_f1_grants (nof_res_f0_f1 : Nat) (f0_f1_params : pucch_f0_f1_params)
    (bwp_size_rbs max_nof_symbols : Nat) : List pucch_grant × Nat :=
  match f0_f1_params with
  | .f0 f0_params =>
    if nof_res_f0_f1 > 0 then
      (compute_f0_res nof_res_f0_f1 f0_params bwp_size_rbs max_nof_symbols, 0)
    else ([], 0)
  | .f1 f1_params =>
    if nof_res_f0_f1 > 0 then
      let nof_occ_codes :=
        if f1_params.occ_supported then
          format1_symb_to_spreading_factor f1_params.nof_symbols
        else 1
      let nof_css := f1_params.nof_cyc_shifts
      (compute_f1_res nof_res_f0_f1 f1_params bwp_size_rbs (umul nof_css nof_occ_codes)
         max_nof_symbols, nof_css)
    else ([], 0)

/-- The function `generate_cell_pucch_res_list`. The constant
`pucch_constants::MAX_NOF_CELL_PUCCH_RESOURCES` is not among the sources and is the
argument `MAX_NOF_CELL_PUCCH_RESOURCES`. The reports of assertion failures that precede
the two returns of an empty list are left out. -/
def generate_cell_pucch_res_list (get_max_nof_prbs : Nat → Nat → Nat → Nat)
    (MAX_NOF_CELL_PUCCH_RESOURCES : Nat) (nof_res_f0_f1 nof_res_f2 : Nat)
    (f0_f1_params : pucch_f0_f1_params) (f2_params : pucch_f2_params)
    (bwp_size_rbs max_nof_symbols : Nat) : List pucch_resource :=
  match pucch_parameters_validator get_max_nof_prbs nof_res_f0_f1 nof_res_f2 f0_f1_params
      f2_params bwp_size_rbs max_nof_symbols with
  | .error _ => []
  | .ok _ =>
    let has_f0 := f0_f1_params.has_f0
    let f0_f1 := f0_f1_grants nof_res_f0_f1 f0_f1_params bwp_size_rbs max_nof_symbols
    let pucch_f2_resource_list :=
      if nof_res_f2 > 0 then
        compute_f2_res get_max_nof_prbs nof_res_f2 f2_params bwp_size_rbs max_nof_symbols
      else []
    let res_list :=
      merge_f0_f1_f2_resource_lists f0_f1.1 pucch_f2_resource_list
        (if has_f0 then none else some f0_f1.2) bwp_size_rbs
    if res_list.length > MAX_NOF_CELL_PUCCH_RESOURCES then [] else res_list

/-! ### Building the PUCCH configuration of a UE -/

/-- The count `count_resources(format)` of `cell_res_list_and_params_validator`. -/
def count_resources (res_list : List pucch_resource) (format : pucch_format) : Nat :=
  res_list.countP (fun it => it.format == format)

/-- The loop that closes `cell_res_list_and_params_validator`: one of the first
`tot_nof_f0_f1_res` resources of the list has Format 2. The loop runs after the check
that the list holds at least that many resources. -/
def f2_among_first (res_list : List pucch_resource) (tot_nof_f0_f1_res : Nat) : Bool :=
  (res_list.take tot_nof_f0_f1_res).any (fun res => res.format == .FORMAT_2)

/-- The checks of `cell_res_list_and_params_validator`: the number it returns when all
checks pass, or the assertion failure it reports before it returns `FAILURE_CASE`.
The arguments `nof_ue_pucch_f0_f1_res_harq` and `nof_ue_pucch_f2_res_harq` are bounded
integers that start at 1. -/
def cell_res_list_and_params_check (res_list : List pucch_resource)
    (nof_ue_pucch_f0_f1_res_harq nof_ue_pucch_f2_res_harq nof_harq_pucch_cfgs
      nof_cell_pucch_f1_res_sr nof_cell_pucch_f2_res_csi : Nat) : Except String Nat :=
  let contain_format_0 := res_list.any (fun res => res.format == .FORMAT_0)
  if contain_format_0 && decide (nof_ue_pucch_f0_f1_res_harq > 6) then
    .error ("With Format 0, nof_ue_pucch_f0_f1_res_harq cannot be greater than 6, as 2 " ++
      "resources in set 0 are reserved.")
  else if contain_format_0 && decide (nof_ue_pucch_f2_res_harq > 6) then
    .error ("With Format 0, nof_ue_pucch_f2_res_harq cannot be greater than 6, as 2 " ++
      "resources in set 1 are reserved.")
  else
    let tot_nof_f0_res := count_resources res_list .FORMAT_0
    let tot_nof_f1_res := count_resources res_list .FORMAT_1
    let tot_nof_f2_res := count_resources res_list .FORMAT_2
    if tot_nof_f0_res ≠ 0 ∧ tot_nof_f1_res ≠ 0 then
      .error ("The cell PUCCH resource list can contain either F0 or F1 PUCCH resources, " ++
        "but not both.")
    else
      let tot_nof_f0_f1_res := tot_nof_f0_res + tot_nof_f1_res
      if tot_nof_f0_f1_res + tot_nof_f2_res ≠ res_list.length then
        .error ("The sum of F0/F1 and F2 PUCCH resources must be equal to the cell PUCCH " ++
          "resource list size.")
      else if tot_nof_f0_f1_res < 2 ∨ tot_nof_f2_res < 2 then
        .error ("The cell PUCCH resource list must contain at least 2 F0/F1 and 2 F2 " ++
          "PUCCH resources.")
      else if nof_ue_pucch_f0_f1_res_harq > usub tot_nof_f0_f1_res nof_cell_pucch_f1_res_sr ∨
          nof_ue_pucch_f2_res_harq > usub tot_nof_f2_res nof_cell_pucch_f2_res_csi then
        .error ("The nof requested UE PUCCH resources is greater than the nof of " ++
          "resources available in the cell.")
      else if umul nof_ue_pucch_f0_f1_res_harq nof_harq_pucch_cfgs >
            usub tot_nof_f0_f1_res nof_cell_pucch_f1_res_sr ∨
          umul nof_ue_pucch_f2_res_harq nof_harq_pucch_cfgs >
            usub tot_nof_f2_res nof_cell_pucch_f2_res_csi then
        .error ("The cell PUCCH resource list doesn't contain enough resources to " ++
          "allocate all requested UEs.")
      else if f2_among_first res_list tot_nof_f0_f1_res then
        .error ("The F0/F1 resources in the cell PUCCH resource list must precede all F2 " ++
          "resources.")
      else .ok (if tot_nof_f0_res ≠ 0 then tot_nof_f0_res else tot_nof_f1_res)

/-- The function `cell_res_list_and_params_validator`: the number of Format 0 or
Format 1 resources of the list, or `FAILURE_CASE = 0` when a check fails. -/
def cell_res_list_and_params_validator (res_list : List pucch_resource)
    (nof_ue_pucch_f0_f1_res_harq nof_ue_pucch_f2_res_harq nof_harq_pucch_cfgs
      nof_cell_pucch_f1_res_sr nof_cell_pucch_f2_res_csi : Nat) : Nat :=
  match cell_res_list_and_params_check res_list nof_ue_pucch_f0_f1_res_harq
      nof_ue_pucch_f2_res_harq nof_harq_pucch_cfgs nof_cell_pucch_f1_res_sr
      nof_cell_pucch_f2_res_csi with
  | .ok tot => tot
  | .error _ => 0

/-- A PUCCH resource set `pucch_resource_set`: its ID and the IDs of its resources. -/
structure pucch_resource_set where
  pucch_res_set_id : Nat
  pucch_res_id_list : List pucch_res_id_t
  deriving DecidableEq

/-- An entry of `sr_res_list`, as far as the builder writes it. -/
structure scheduling_request_resource_config where
  pucch_res_id : pucch_res_id_t
  deriving DecidableEq

/-- The structure `pucch_config`, as far as the builder uses it: the resource sets 0
and 1 (the entries `pucch_res_set[0]` and `pucch_res_set[1]`), the resource list and
the SR resource list. -/
structure pucch_config where
  pucch_res_set_0 : pucch_resource_set
  pucch_res_set_1 : pucch_resource_set
  pucch_res_list : List pucch_resource
  sr_res_list : List scheduling_request_resource_config
  deriving DecidableEq

/-- An entry of `pucch_csi_res_list`, as far as the builder writes it. -/
structure pucch_csi_resource where
  pucch_res_id : pucch_res_id_t
  deriving DecidableEq

/-- The variant `report_cfg_type` of a CSI report configuration. -/
inductive csi_report_cfg_type where
  | periodic_or_semi_persistent_report_on_pucch (pucch_csi_res_list : List pucch_csi_resource)
  | other
  deriving DecidableEq

/-- The structure `csi_report_config`, as far as the builder uses it. -/
structure csi_report_config where
  report_cfg_type : csi_report_cfg_type
  deriving DecidableEq

/-- The structure `csi_meas_config`, as far as the builder uses it. -/
structure csi_meas_config where
  csi_report_cfg_list : List csi_report_config
  deriving DecidableEq

/-- The structure `serving_cell_config`, as far as the builder uses it:
`ul_config.value().init_ul_bwp.pucch_cfg` (absent when one of the two optionals is
empty) and `csi_meas_cfg`. -/
structure serving_cell_config where
  pucch_cfg : Option pucch_config
  csi_meas_cfg : Option csi_meas_config
  deriving DecidableEq

/-- The result of the builder on the PUCCH configuration: the configuration, the
counter `ue_pucch_res_id`, and the CSI configuration. -/
structure builder_state where
  pucch_cfg : pucch_config
  ue_pucch_res_id : Nat
  csi_meas_cfg : Option csi_meas_config
  deriving DecidableEq

/-- The resource that the builder adds for a cell resource: the cell resource with the
UE resource ID set. -/
def ue_resource (cell_res : pucch_resource) (ue_pucch_res_id : Nat) : pucch_resource :=
  { res_id := { cell_res_id := cell_res.res_id.cell_res_id, ue_res_id := ue_pucch_res_id },
    starting_prb := cell_res.starting_prb,
    second_hop_prb := cell_res.second_hop_prb,
    format := cell_res.format,
    format_params := cell_res.format_params }

/-- A resource built from a resource ID and a format alone; the other members are
value-initialised. -/
def placeholder_resource (ue_pucch_res_id : Nat) (format : pucch_format) : pucch_resource :=
  { res_id := { cell_res_id := 4294967295, ue_res_id := ue_pucch_res_id },
    starting_prb := 0,
    second_hop_prb := none,
    format := format,
    format_params := .f0 { initial_cyclic_shift := 0, nof_symbols := 0, starting_sym_idx := 0 } }

/-- Applies `f` to the element at the index, if there is one. -/
def update_at {α : Type} (f : α → α) : Nat → List α → List α
  | _, [] => []
  | 0, x :: xs => f x :: xs
  | i + 1, x :: xs => x :: update_at f i xs

/-- The loop "Add F1 for HARQ" of the builder: for each counter it reads the cell
resource at `ue_f1_cnt + f0_f1_idx_offset`, adds it to the resource list and to set 0,
and increments the counter `ue_pucch_res_id`; `none` on a read past the list. -/
def add_f0_f1_harq (res_list : List pucch_resource) (f0_f1_idx_offset : Nat) :
    Nat → Nat → builder_state → Option builder_state
  | _, 0, st => some st
  | ue_f1_cnt, remaining + 1, st =>
    match res_list[uadd ue_f1_cnt f0_f1_idx_offset]? with
    | none => none
    | some cell_res =>
      add_f0_f1_harq res_list f0_f1_idx_offset (ue_f1_cnt + 1) remaining
        { st with
          pucch_cfg :=
            { st.pucch_cfg with
              pucch_res_list :=
                st.pucch_cfg.pucch_res_list ++ [ue_resource cell_res st.ue_pucch_res_id],
              pucch_res_set_0 :=
                { st.pucch_cfg.pucch_res_set_0 with
                  pucch_res_id_list := st.pucch_cfg.pucch_res_set_0.pucch_res_id_list ++
                    [{ cell_res_id := cell_res.res_id.cell_res_id,
                       ue_res_id := st.ue_pucch_res_id }] } },
          ue_pucch_res_id := st.ue_pucch_res_id + 1 }

/-- The loop "Add F2 for HARQ" of the builder: for each counter it reads the cell
resource at `f2_idx_offset + ue_f2_cnt`, adds it to the resource list and to set 1,
and increments the counter `ue_pucch_res_id`; `none` on a read past the list. -/
def add_f2_harq (res_list : List pucch_resource) (f2_idx_offset : Nat) :
    Nat → Nat → builder_state → Option builder_state
  | _, 0, st => some st
  | ue_f2_cnt, remaining + 1, st =>
    match res_list[uadd f2_idx_offset ue_f2_cnt]? with
    | none => none
    | some cell_res =>
      add_f2_harq res_list f2_idx_offset (ue_f2_cnt + 1) remaining
        { st with
          pucch_cfg :=
            { st.pucch_cfg with
              pucch_res_list :=
                st.pucch_cfg.pucch_res_list ++ [ue_resource cell_res st.ue_pucch_res_id],
              pucch_res_set_1 :=
                { st.pucch_cfg.pucch_res_set_1 with
                  pucch_res_id_list := st.pucch_cfg.pucch_res_set_1.pucch_res_id_list ++
                    [{ cell_res_id := cell_res.res_id.cell_res_id,
                       ue_res_id := st.ue_pucch_res_id }] } },
          ue_pucch_res_id := st.ue_pucch_res_id + 1 }

/-- The step of the builder that adds the Format 0 resource on the PRBs and symbols of
the CSI resource, when the cell list has Format 0 and CSI is configured. -/
def add_f0_on_csi (is_format_0 : Bool) (st : builder_state) : builder_state :=
  if is_format_0 && st.csi_meas_cfg.isSome then
    { st with
      pucch_cfg :=
        { st.pucch_cfg with
          pucch_res_list :=
            st.pucch_cfg.pucch_res_list ++ [placeholder_resource st.ue_pucch_res_id .FORMAT_0],
          pucch_res_set_0 :=
            { st.pucch_cfg.pucch_res_set_0 with
              pucch_res_id_list := st.pucch_cfg.pucch_res_set_0.pucch_res_id_list ++
                [{ cell_res_id := 4294967295, ue_res_id := st.ue_pucch_res_id }] } },
      ue_pucch_res_id := st.ue_pucch_res_id + 1 }
  else st

/-- The step "Add SR resource" of the builder, with the mapping of the last resource of
set 0 to the SR resource for Format 0; `none` when `sr_res_list` is empty. -/
def add_sr (is_format_0 : Bool) (sr_cell_res : pucch_resource) (st : builder_state) :
    Option builder_state :=
  let ue_pucch_res_id_for_sr := st.ue_pucch_res_id
  match st.pucch_cfg.sr_res_list with
  | [] => none
  | sr_front :: sr_rest =>
    let pucch_res_list :=
      st.pucch_cfg.pucch_res_list ++ [ue_resource sr_cell_res ue_pucch_res_id_for_sr]
    let sr_res_list : List scheduling_request_resource_config :=
      { sr_front with
        pucch_res_id := { cell_res_id := sr_cell_res.res_id.cell_res_id,
                          ue_res_id := ue_pucch_res_id_for_sr } } :: sr_rest
    if is_format_0 then
      some
        { st with
          pucch_cfg :=
            { st.pucch_cfg with
              pucch_res_list :=
                update_at (fun _ => ue_resource sr_cell_res ue_pucch_res_id_for_sr)
                  (pucch_res_list.length - 1) pucch_res_list,
              sr_res_list := sr_res_list,
              pucch_res_set_0 :=
                { st.pucch_cfg.pucch_res_set_0 with
                  pucch_res_id_list := st.pucch_cfg.pucch_res_set_0.pucch_res_id_list ++
                    [{ cell_res_id := sr_cell_res.res_id.cell_res_id,
                       ue_res_id := ue_pucch_res_id_for_sr }] } },
          ue_pucch_res_id := st.ue_pucch_res_id + 1 }
    else
      some
        { st with
          pucch_cfg :=
            { st.pucch_cfg with pucch_res_list := pucch_res_list, sr_res_list := sr_res_list },
          ue_pucch_res_id := st.ue_pucch_res_id + 1 }

/-- The write of the CSI resource ID into the first PUCCH CSI resource of the first
CSI report configuration; `none` when the report list is empty, the report is not on
PUCCH, or its resource list is empty. -/
def set_csi_pucch_res_id (csi : csi_meas_config) (id : pucch_res_id_t) :
    Option csi_meas_config :=
  match csi.csi_report_cfg_list with
  | [] => none
  | report :: reports =>
    match report.report_cfg_type with
    | .periodic_or_semi_persistent_report_on_pucch (front :: rest) =>
      some { csi with
             csi_report_cfg_list :=
               { report with
                 report_cfg_type :=
                   .periodic_or_semi_persistent_report_on_pucch
                     ({ front with pucch_res_id := id } :: rest) } :: reports }
    | _ => none

/-- The step "Add CSI resource" of the builder, when CSI is configured; `none` on a
read past the cell list, a CSI resource whose parameters are not those of Format 2,
or a CSI configuration without PUCCH CSI resource. -/
def add_csi (res_list : List pucch_resource) (is_format_0 : Bool)
    (csi_res_idx f0_res_on_csi_prbs_syms_idx : Nat) (st : builder_state) :
    Option builder_state :=
  match st.csi_meas_cfg with
  | none => some st
  | some csi =>
    match res_list[csi_res_idx]? with
    | none => none
    | some csi_cell_res =>
      let ue_pucch_res_id_for_csi := st.ue_pucch_res_id
      let pucch_res_list :=
        st.pucch_cfg.pucch_res_list ++ [ue_resource csi_cell_res ue_pucch_res_id_for_csi]
      match csi_cell_res.format_params with
      | .f2_3 csi_params_cfg =>
        match set_csi_pucch_res_id csi
            { cell_res_id := csi_cell_res.res_id.cell_res_id,
              ue_res_id := ue_pucch_res_id_for_csi } with
        | none => none
        | some csi2 =>
          if is_format_0 then
            let with_csi :=
              update_at (fun _ => ue_resource csi_cell_res ue_pucch_res_id_for_csi)
                (pucch_res_list.length - 1) pucch_res_list
            some
              { pucch_cfg :=
                  { st.pucch_cfg with
                    pucch_res_list :=
                      update_at
                        (fun f0_harq_on_csi_resources =>
                          { f0_harq_on_csi_resources with
                            starting_prb := csi_cell_res.starting_prb,
                            second_hop_prb := csi_cell_res.second_hop_prb,
                            format_params :=
                              .f0 { initial_cyclic_shift := 0,
                                    nof_symbols := csi_params_cfg.nof_symbols,
                                    starting_sym_idx := csi_params_cfg.starting_sym_idx } })
                        f0_res_on_csi_prbs_syms_idx with_csi,
                    pucch_res_set_1 :=
                      { st.pucch_cfg.pucch_res_set_1 with
                        pucch_res_id_list :=
                          st.pucch_cfg.pucch_res_set_1.pucch_res_id_list ++
                            [{ cell_res_id := csi_cell_res.res_id.cell_res_id,
                               ue_res_id := ue_pucch_res_id_for_csi }] } },
                ue_pucch_res_id := st.ue_pucch_res_id + 1,
                csi_meas_cfg := some csi2 }
          else
            some
              { pucch_cfg := { st.pucch_cfg with pucch_res_list := pucch_res_list },
                ue_pucch_res_id := st.ue_pucch_res_id + 1,
                csi_meas_cfg := some csi2 }
      | _ => none

/-- The last step of the builder for Format 0: the Format 2 resource on the PRBs and
symbols of the SR resource; `none` when the SR resource has no Format 0 parameters. -/
def add_f2_on_sr (is_format_0 : Bool) (sr_cell_res : pucch_resource) (st : builder_state) :
    Option builder_state :=
  let f2_res_on_sr_prbs_syms_idx := st.ue_pucch_res_id
  if is_format_0 then
    match sr_cell_res.format_params with
    | .f0 sr_params_cfg =>
      some
        { st with
          pucch_cfg :=
            { st.pucch_cfg with
              pucch_res_list :=
                update_at
                  (fun f2_harq_on_sr_resources =>
                    { f2_harq_on_sr_resources with
                      starting_prb := sr_cell_res.starting_prb,
                      second_hop_prb := sr_cell_res.second_hop_prb,
                      format_params :=
                        .f2_3 { nof_prbs := 1, nof_symbols := sr_params_cfg.nof_symbols,
                                starting_sym_idx := sr_params_cfg.starting_sym_idx } })
                  f2_res_on_sr_prbs_syms_idx
                  (st.pucch_cfg.pucch_res_list ++
                    [placeholder_resource st.ue_pucch_res_id .FORMAT_2]),
              pucch_res_set_1 :=
                { st.pucch_cfg.pucch_res_set_1 with
                  pucch_res_id_list := st.pucch_cfg.pucch_res_set_1.pucch_res_id_list ++
                    [{ cell_res_id := 4294967295, ue_res_id := st.ue_pucch_res_id }] } },
          ue_pucch_res_id := st.ue_pucch_res_id + 1 }
    | _ => none
  else some st

/-- The function `ue_pucch_config_builder`, as a function of the serving cell
configuration: the returned flag and the configuration after the call. The result is
`none` where the C++ has no defined result or throws: a missing PUCCH configuration, a
remainder by zero sets, a read past the end of a list, or a wrong variant
alternative. -/
def ue_pucch_config_builder (serv_cell_cfg : serving_cell_config)
    (res_list : List pucch_resource) (du_harq_set_idx du_sr_res_idx du_csi_res_idx
      nof_ue_pucch_f0_f1_res_harq nof_ue_pucch_f2_res_harq nof_harq_pucch_sets
      nof_cell_pucch_f0_f1_res_sr nof_cell_pucch_f2_res_csi : Nat) :
    Option (Bool × serving_cell_config) :=
  let tot_nof_cell_f0_f1_res :=
    cell_res_list_and_params_validator res_list nof_ue_pucch_f0_f1_res_harq
      nof_ue_pucch_f2_res_harq nof_harq_pucch_sets nof_cell_pucch_f0_f1_res_sr
      nof_cell_pucch_f2_res_csi
  if tot_nof_cell_f0_f1_res = 0 then some (false, serv_cell_cfg)
  else
    match serv_cell_cfg.pucch_cfg with
    | none => none
    | some pucch_cfg =>
      let cleared : pucch_config :=
        { pucch_cfg with
          pucch_res_list := [],
          pucch_res_set_0 := { pucch_res_set_id := 0, pucch_res_id_list := [] },
          pucch_res_set_1 := { pucch_res_set_id := 1, pucch_res_id_list := [] } }
      if nof_harq_pucch_sets = 0 then none
      else
        let f0_f1_idx_offset :=
          umul (du_harq_set_idx % nof_harq_pucch_sets) nof_ue_pucch_f0_f1_res_harq
        match res_list[f0_f1_idx_offset]? with
        | none => none
        | some first =>
          let is_format_0 := first.format == .FORMAT_0
          let sr_res_idx :=
            uadd (umul nof_ue_pucch_f0_f1_res_harq nof_harq_pucch_sets) du_sr_res_idx
          let f2_idx_offset :=
            uadd tot_nof_cell_f0_f1_res
              (umul (du_harq_set_idx % nof_harq_pucch_sets) nof_ue_pucch_f2_res_harq)
          let csi_res_idx :=
            uadd (uadd tot_nof_cell_f0_f1_res
              (umul nof_ue_pucch_f2_res_harq nof_harq_pucch_sets)) du_csi_res_idx
          let result :=
            (add_f0_f1_harq res_list f0_f1_idx_offset 0 nof_ue_pucch_f0_f1_res_harq
              { pucch_cfg := cleared, ue_pucch_res_id := 0,
                csi_meas_cfg := serv_cell_cfg.csi_meas_cfg }).bind
              (fun st1 =>
                match res_list[sr_res_idx]? with
                | none => none
                | some sr_cell_res =>
                  (add_sr is_format_0 sr_cell_res (add_f0_on_csi is_format_0 st1)).bind
                    (fun st2 =>
                      (add_f2_harq res_list f2_idx_offset 0 nof_ue_pucch_f2_res_harq st2).bind
                        (fun st3 =>
                          (add_csi res_list is_format_0 csi_res_idx
                            nof_ue_pucch_f0_f1_res_harq st3).bind
                            (fun st4 => add_f2_on_sr is_format_0 sr_cell_res st4))))
          result.map
            (fun st => (true, { pucch_cfg := some st.pucch_cfg,
                                csi_meas_cfg := st.csi_meas_cfg }))

/-! ### The grants in the order of the generator loops -/

/-- The values that a loop over `i = start, ..., start + count - 1` visits, in order,
when its iteration `i` visits the values `c i`. -/
def candidates {β : Type} (c : Nat → List β) : Nat → Nat → List β
  | _, 0 => []
  | i, count + 1 => c i ++ candidates c (i + 1) count

/-- A loop body emplaces the values `c` one by one and stops as soon as the list holds
`nof_res` values. -/
def pushes {β : Type} (nof_res : Nat) (body : List β → List β) (c : List β) : Prop :=
  ∀ l : List β, l.length < nof_res → body l = l ++ c.take (nof_res - l.length)

/-- The symbol ranges that the loop over `sym_idx` visits. -/
def sym_candidates {β : Type} (nof_symbols max_nof_symbols : Nat) (c : interval → List β) :
    List β :=
  candidates
    (fun i => c { start := i * nof_symbols, stop := i * nof_symbols + nof_symbols })
    0 (max_nof_symbols / nof_symbols)

/-- The Format 1 grants of one symbol range and PRB, one per OCC-CS index. -/
def occ_cs_candidates (nof_occ_css : Nat) (symbols prbs : interval)
    (freq_hop_grant : Option interval) : List pucch_grant :=
  candidates
    (fun occ_cs_idx =>
      [{ format := .FORMAT_1, symbols := symbols, prbs := prbs,
         freq_hop_grant := freq_hop_grant, occ_cs_idx := some occ_cs_idx }])
    0 nof_occ_css

/-- The PRB interval on the upper side of the BWP that mirrors the lower interval of
`width` PRBs at `rb_idx`. -/
def hi_prbs (bwp_size_rbs width rb_idx : Nat) : interval :=
  { start := usub (usub bwp_size_rbs width) rb_idx, stop := usub bwp_size_rbs rb_idx }

/-- All Format 0 grants that `compute_f0_res` can emplace, in the order of its loops. -/
def f0_candidates (params : pucch_f0_params) (bwp_size_rbs max_nof_symbols : Nat) :
    List pucch_grant :=
  if params.intraslot_freq_hopping then
    candidates
      (fun rb_idx =>
        sym_candidates params.nof_symbols max_nof_symbols
          (fun symbols =>
            [{ format := .FORMAT_0, symbols := symbols,
               prbs := { start := rb_idx, stop := rb_idx + 1 },
               freq_hop_grant := some (hi_prbs bwp_size_rbs 1 rb_idx), occ_cs_idx := none }] ++
            [{ format := .FORMAT_2, symbols := symbols,
               prbs := hi_prbs bwp_size_rbs 1 rb_idx,
               freq_hop_grant := some { start := rb_idx, stop := rb_idx + 1 },
               occ_cs_idx := none }]))
      0 (usub (bwp_size_rbs / 2) 1)
  else
    candidates
      (fun rb_idx =>
        sym_candidates params.nof_symbols max_nof_symbols
          (fun symbols =>
            [{ format := .FORMAT_0, symbols := symbols,
               prbs := { start := rb_idx, stop := rb_idx + 1 },
               freq_hop_grant := none, occ_cs_idx := none }]) ++
        sym_candidates params.nof_symbols 14
          (fun symbols =>
            [{ format := .FORMAT_0, symbols := symbols,
               prbs := hi_prbs bwp_size_rbs 1 rb_idx,
               freq_hop_grant := none, occ_cs_idx := none }]))
      0 (usub (bwp_size_rbs / 2) 1)

/-- All Format 1 grants that `compute_f1_res` can emplace, in the order of its loops. -/
def f1_candidates (params : pucch_f1_params) (bwp_size_rbs nof_occ_css max_nof_symbols : Nat) :
    List pucch_grant :=
  if params.intraslot_freq_hopping then
    candidates
      (fun rb_idx =>
        sym_candidates params.nof_symbols max_nof_symbols
          (fun symbols =>
            occ_cs_candidates nof_occ_css symbols { start := rb_idx, stop := rb_idx + 1 }
              (some (hi_prbs bwp_size_rbs 1 rb_idx)) ++
            occ_cs_candidates nof_occ_css symbols (hi_prbs bwp_size_rbs 1 rb_idx)
              (some { start := rb_idx, stop := rb_idx + 1 })))
      0 (usub (bwp_size_rbs / 2) 1)
  else
    candidates
      (fun rb_idx =>
        sym_candidates params.nof_symbols max_nof_symbols
          (fun symbols =>
            occ_cs_candidates nof_occ_css symbols { start := rb_idx, stop := rb_idx + 1 }
              none) ++
        sym_candidates params.nof_symbols max_nof_symbols
          (fun symbols =>
            occ_cs_candidates nof_occ_css symbols (hi_prbs bwp_size_rbs 1 rb_idx) none))
      0 (usub (bwp_size_rbs / 2) 1)

/-- All Format 2 grants of `f2_max_rbs` PRBs that `compute_f2_res` can emplace, in the
order of its loops. -/
def f2_candidates (params : pucch_f2_params) (f2_max_rbs bwp_size_rbs max_nof_symbols : Nat) :
    List pucch_grant :=
  if params.intraslot_freq_hopping then
    candidates
      (fun i =>
        sym_candidates params.nof_symbols max_nof_symbols
          (fun symbols =>
            [{ format := .FORMAT_2, symbols := symbols,
               prbs := { start := i * f2_max_rbs, stop := i * f2_max_rbs + f2_max_rbs },
               freq_hop_grant := some (hi_prbs bwp_size_rbs f2_max_rbs (i * f2_max_rbs)),
               occ_cs_idx := none }] ++
            [{ format := .FORMAT_2, symbols := symbols,
               prbs := hi_prbs bwp_size_rbs f2_max_rbs (i * f2_max_rbs),
               freq_hop_grant :=
                 some { start := i * f2_max_rbs, stop := i * f2_max_rbs + f2_max_rbs },
               occ_cs_idx := none }]))
      0 (stride_count (usub (bwp_size_rbs / 2) f2_max_rbs) f2_max_rbs)
  else
    candidates
      (fun i =>
        sym_candidates params.nof_symbols max_nof_symbols
          (fun symbols =>
            [{ format := .FORMAT_2, symbols := symbols,
               prbs := { start := i * f2_max_rbs, stop := i * f2_max_rbs + f2_max_rbs },
               freq_hop_grant := none, occ_cs_idx := none }]) ++
        sym_candidates params.nof_symbols 14
          (fun symbols =>
            [{ format := .FORMAT_2, symbols := symbols,
               prbs := hi_prbs bwp_size_rbs f2_max_rbs (i * f2_max_rbs),
               freq_hop_grant := none, occ_cs_idx := none }]))
      0 (stride_count (usub (bwp_size_rbs / 2) f2_max_rbs) f2_max_rbs)

/-- The Format 0 or Format 1 grant does not lie at the centre of the BWP, and a Format
1 grant carries its OCC-CS index. -/
def pucch_grant.mergeable_f0_f1 (bwp_size_rbs : Nat) (need_occ : Bool) (g : pucch_grant) :
    Prop :=
  (g.prbs.start < usub (bwp_size_rbs / 2) 1 ∨ g.prbs.start > bwp_size_rbs / 2) ∧
  (need_occ = true → g.occ_cs_idx.isSome = true)

/-- The Format 2 grant does not lie at the centre of the BWP. -/
def pucch_grant.mergeable_f2 (bwp_size_rbs : Nat) (g : pucch_grant) : Prop :=
  g.prbs.start < usub (bwp_size_rbs / 2) g.prbs.length ∨ g.prbs.start > bwp_size_rbs / 2

/-- The cell resource IDs of the list count its positions from 0 and its UE resource
IDs are 0. -/
def cell_ids_in_order (l : List pucch_resource) : Prop :=
  l.map (fun r => r.res_id) =
    (List.range l.length).map (fun k => ({ cell_res_id := k, ue_res_id := 0 } : pucch_res_id_t))

/-- The UE resource IDs of the list count its positions from 0. -/
def ue_ids_in_order (l : List pucch_resource) : Prop :=
  l.map (fun r => r.res_id.ue_res_id) = List.range l.length

/-- The invariant of the builder: the UE resource IDs of the list count its positions
and the counter `ue_pucch_res_id` is the length of the list. -/
def builder_inv (st : builder_state) : Prop :=
  ue_ids_in_order st.pucch_cfg.pucch_res_list ∧
  st.ue_pucch_res_id = st.pucch_cfg.pucch_res_list.length

/-- The number of Format 0 grants that the loops of `compute_f0_res` go through when
no `break` ends them: the number of values of `rb_idx` times the grants per value. -/
def f0_capacity (params : pucch_f0_params) (bwp_size_rbs max_nof_symbols : Nat) : Nat :=
  usub (bwp_size_rbs / 2) 1 *
    (if params.intraslot_freq_hopping then max_nof_symbols / params.nof_symbols * 2
     else max_nof_symbols / params.nof_symbols + 14 / params.nof_symbols)

/-- The number of Format 1 grants that the loops of `compute_f1_res` go through when
no `break` ends them. -/
def f1_capacity (params : pucch_f1_params) (bwp_size_rbs nof_occ_css max_nof_symbols : Nat) :
    Nat :=
  usub (bwp_size_rbs / 2) 1 * (max_nof_symbols / params.nof_symbols * (nof_occ_css + nof_occ_css))

/-- The number of Format 2 grants of `f2_max_rbs` PRBs that the loops of
`compute_f2_res` go through when no `break` ends them. -/
def f2_capacity (params : pucch_f2_params) (f2_max_rbs bwp_size_rbs max_nof_symbols : Nat) :
    Nat :=
  stride_count (usub (bwp_size_rbs / 2) f2_max_rbs) f2_max_rbs *
    (if params.intraslot_freq_hopping then max_nof_symbols / params.nof_symbols * 2
     else max_nof_symbols / params.nof_symbols + 14 / params.nof_symbols)

/-- The number of Format 0 or Format 1 grants that the loops of
`generate_cell_pucch_res_list` for these formats go through when no `break` ends
them. -/
def f0_f1_capacity (f0_f1_params : pucch_f0_f1_params) (bwp_size_rbs max_nof_symbols : Nat) :
    Nat :=
  match f0_f1_params with
  | .f0 f0_params => f0_capacity f0_params bwp_size_rbs max_nof_symbols
  | .f1 f1_params =>
    f1_capacity f1_params bwp_size_rbs
      (umul f1_params.nof_cyc_shifts
        (if f1_params.occ_supported then format1_symb_to_spreading_factor f1_params.nof_symbols
         else 1))
      max_nof_symbols

/-! ### Keys of the Format 1 grants and resources -/

/-- The PRB, the first symbol and the OCC-CS index of a grant. -/
def pucch_grant.f1_key (g : pucch_grant) : Nat × Nat × Option Nat :=
  (g.prbs.start, g.symbols.start, g.occ_cs_idx)

/-- The combination of `starting_prb`, `starting_sym_idx`, `initial_cyclic_shift` and
`time_domain_occ` of a resource with Format 1 parameters. -/
def pucch_resource.f1_key (r : pucch_resource) : Option (Nat × Nat × Nat × Nat) :=
  match r.format_params with
  | .f1 cfg =>
    some (r.starting_prb, cfg.starting_sym_idx, cfg.initial_cyclic_shift, cfg.time_domain_occ)
  | _ => none

/-- The combination that the merge computes for a Format 1 grant with the key `k`. -/
def f1_key_of_grant_key (nof_cs : Nat) (k : Nat × Nat × Option Nat) :
    Option (Nat × Nat × Nat × Nat) :=
  k.2.2.map
    (fun occ_cs_idx =>
      (k.1, k.2.1, occ_cs_index_to_cyclic_shift occ_cs_idx nof_cs,
        occ_cs_index_to_occ occ_cs_idx nof_cs))

/-- The index `rb_idx` of the loop that emplaces a grant at the PRB, on the lower or on
the upper side of the BWP. -/
def rb_idx_of_prb (bwp_size_rbs prb : Nat) : Nat :=
  if prb < bwp_size_rbs / 2 then prb else bwp_size_rbs - 1 - prb

end srs_du

end srsran

namespace srsran

namespace srs_cu_cp

/-! ## PDU session resource release routine
(`tests/unittests/cu_cp/routines/pdu_session_resource_release_routine_test.cpp`) -/

/-- Modelled from the spec: the request `cu_cp_pdu_session_resource_release_command`,
whose declaration is not among the sources: the UE index, which the test sets, and
the release items of the request. -/
structure cu_cp_pdu_session_resource_release_command where
  ue_index : Nat
  release_items : List Nat
  deriving DecidableEq

/-- Modelled from the spec: the result `cu_cp_pdu_session_resource_release_response`,
whose declaration is not among the sources: the member `released_pdu_sessions` that
the test reads. -/
structure cu_cp_pdu_session_resource_release_response where
  released_pdu_sessions : List Nat
  deriving DecidableEq

/-- Modelled from the spec: the exchanges of the release routine with its
collaborators `e1ap_bearer_ctxt_mng` and `f1ap_ue_ctxt_mng`, the network and local
subsystem calls of the procedure. -/
inductive routine_exchange where
  | bearer_context_modification
  | ue_context_modification
  deriving DecidableEq

/-- Modelled from the spec: the logic of a procedure as a sequence of "act, then await
an outcome" steps. Each step calls into a collaborator and awaits the outcome of that
exchange, which is there at once or not; the logic ends with the result of the
procedure. -/
inductive routine_logic (R : Type) where
  | result (r : R)
  | exchange (call : routine_exchange) (answers_at_once : Bool) (rest : routine_logic R)

/-- Modelled from the spec: the coroutine logic that the task of a procedure runs: the
procedure suspends at each of its exchanges by awaiting the outcome, so that every
exchange is one await expression, ready when the collaborator answers at once. -/
def routine_logic.coro {R : Type} : routine_logic R → srsgnb.coro_body R
  | .result r => .coro_return r
  | .exchange _ answers_at_once rest => .coro_await answers_at_once rest.coro

/-- Modelled from the spec: the run of the logic at its launch, which goes on until the
logic completes or reaches a suspension point, as `coro_frame.run_body` does on the
coroutine logic. The run performs the call of each step that it reaches, goes on after
an exchange that answers at once and stops at the first exchange that does not. Gives
the calls performed and, when the run stopped at an exchange, the logic that is left. -/
def routine_logic.run_at_launch {R : Type} :
    routine_logic R → List routine_exchange × Option (routine_logic R)
  | .result _ => ([], none)
  | .exchange call answers_at_once rest =>
      if answers_at_once then (call :: rest.run_at_launch.1, rest.run_at_launch.2)
      else ([call], some rest)

/-- Modelled from the spec: the network and subsystem calls that the logic has
performed when its launch returns. -/
def routine_logic.exchanges_at_launch {R : Type} (logic : routine_logic R) :
    List routine_exchange :=
  logic.run_at_launch.1

/-- Modelled from the spec: the logic of the PDU session resource release routine,
whose code is not among the sources. A procedure launched with an empty request (zero
release items) completes immediately with a no-op failure result; otherwise the
routine calls for the bearer context modification and for the UE context
modification, each of which answers at once or not, and reports the sessions of the
request as released. -/
def pdu_session_resource_release_routine
    (command : cu_cp_pdu_session_resource_release_command)
    (bearer_context_answers_at_once ue_context_answers_at_once : Bool) :
    routine_logic cu_cp_pdu_session_resource_release_response :=
  if command.release_items = [] then .result { released_pdu_sessions := [] }
  else
    .exchange .bearer_context_modification bearer_context_answers_at_once
      (.exchange .ue_context_modification ue_context_answers_at_once
        (.result { released_pdu_sessions := command.release_items }))

/-- Modelled from the spec: the launch `start_pdu_session_resource_release_routine` of
the routine manager, which is not among the sources: the procedure launch API wraps
the logic in one task, which `get_return_object` of `async_task` runs eagerly. -/
def start_pdu_session_resource_release_routine
    (command : cu_cp_pdu_session_resource_release_command)
    (bearer_context_answers_at_once ue_context_answers_at_once : Bool) :
    srsgnb.async_task cu_cp_pdu_session_resource_release_response :=
  srsgnb.promise_type.get_return_object
    (pdu_session_resource_release_routine command bearer_context_answers_at_once
      ue_context_answers_at_once).coro

/-- The check `was_pdu_session_resource_release_successful` of the test: the task is
ready and its result holds at least one released PDU session. -/
def was_pdu_session_resource_release_successful
    (t : srsgnb.async_task cu_cp_pdu_session_resource_release_response) : Bool :=
  if not t.ready then false
  else
    match t.get with
    | none => false
    | some response => if response.released_pdu_sessions.length = 0 then false else true

end srs_cu_cp

end srsran

namespace srsgnb

/-! ## Lemmas on running a coroutine logic -/

theorem run_body_of_suspension {R : Type} (p : promise_type R) (b rest : coro_body R)
    (h : b.after_first_suspension = some rest) :
    coro_frame.run_body p b = ({ promise := p, point := .suspended rest }, noop_coroutine) := by
  induction b with
  | coro_return r => simp [coro_body.after_first_suspension] at h
  | coro_await ready b ih =>
    cases ready with
    | true =>
      simp only [coro_body.after_first_suspension, if_true] at h
      simp only [coro_frame.run_body, if_true]
      exact ih h
    | false =>
      simp [coro_body.after_first_suspension] at h
      simp [coro_frame.run_body, h]

theorem run_body_of_no_suspension {R : Type} (p : promise_type R) (b : coro_body R)
    (h : b.has_suspension_point = false) :
    coro_frame.run_body p b =
      ({ promise := { p with result := some b.returned }, point := .final_suspended },
       (promise_type.final_suspend { p with result := some b.returned }).await_suspend) := by
  induction b with
  | coro_return r =>
    simp [coro_frame.run_body, coro_body.returned, final_awaiter.await_ready]
  | coro_await ready b ih =>
    cases ready with
    | true =>
      simp only [coro_body.has_suspension_point, Bool.not_true, Bool.false_or] at h
      simp only [coro_frame.run_body, if_true, coro_body.returned]
      exact ih h
    | false => simp [coro_body.has_suspension_point] at h

theorem after_first_suspension_eq_none_iff {R : Type} (b : coro_body R) :
    b.after_first_suspension = none ↔ b.has_suspension_point = false := by
  induction b with
  | coro_return r => simp [coro_body.after_first_suspension, coro_body.has_suspension_point]
  | coro_await ready b ih =>
    cases ready <;>
      simp [coro_body.after_first_suspension, coro_body.has_suspension_point, ih]

theorem await_suspend_of_has_continuation {R : Type} (t : async_task R) (h : coro_handle)
    (hreg : t.has_continuation = true) :
    t.await_suspend h = .error "Async task can only be awaited once." := by
  obtain ⟨handle⟩ := t
  cases handle with
  | none => simp [async_task.has_continuation] at hreg
  | some f =>
    simp only [async_task.has_continuation, Bool.not_eq_true'] at hreg
    simp [async_task.await_suspend, srsran_sanity_check, async_task.empty, hreg]

theorem has_continuation_of_await_suspend {R : Type} (t t1 : async_task R) (h1 : coro_handle)
    (hne : h1.empty = false) (hok : t.await_suspend h1 = .ok t1) :
    t1.has_continuation = true := by
  obtain ⟨handle⟩ := t
  cases handle with
  | none => simp [async_task.await_suspend, srsran_sanity_check, async_task.empty] at hok
  | some f =>
    cases hc : f.promise.continuation.empty with
    | false =>
      simp [async_task.await_suspend, srsran_sanity_check, async_task.empty, hc] at hok
    | true =>
      simp [async_task.await_suspend, srsran_sanity_check, async_task.empty, hc] at hok
      subst hok
      simp [async_task.has_continuation, hne]

/-! ## Claims on the task primitive -/

/-- C1: for every task that already holds a registered continuation, a further
`await_suspend` fails the check "Async task can only be awaited once." and returns no
task in which the second awaiter is registered; in particular, after one successful
`await_suspend` by a non-empty handle, every second `await_suspend` fails so. -/
theorem await_suspend_twice_fails {R : Type} (t : async_task R) (h : coro_handle) :
    (t.has_continuation = true →
      t.await_suspend h = .error "Async task can only be awaited once.") ∧
    (∀ (h1 : coro_handle) (t1 : async_task R), h1.empty = false →
      t.await_suspend h1 = .ok t1 →
      t1.continuation = some h1 ∧
      t1.await_suspend h = .error "Async task can only be awaited once.") := by
  refine ⟨await_suspend_of_has_continuation t h, ?_⟩
  intro h1 t1 hne hok
  refine ⟨?_, await_suspend_of_has_continuation t1 h
    (has_continuation_of_await_suspend t t1 h1 hne hok)⟩
  obtain ⟨handle⟩ := t
  cases handle with
  | none => simp [async_task.await_suspend, srsran_sanity_check, async_task.empty] at hok
  | some f =>
    cases hc : f.promise.continuation.empty with
    | false =>
      simp [async_task.await_suspend, srsran_sanity_check, async_task.empty, hc] at hok
    | true =>
      simp [async_task.await_suspend, srsran_sanity_check, async_task.empty, hc] at hok
      subst hok
      simp [async_task.continuation]

/-- Witness of C1: the task awaited by frame 1 rejects the await of frame 2. -/
theorem await_suspend_twice_fails_witness :
    awaited_task.has_continuation = true ∧
    awaited_task.await_suspend (.frame 2) = .error "Async task can only be awaited once." :=
  ⟨rfl, (await_suspend_twice_fails awaited_task (.frame 2)).1 rfl⟩

/-- C2: creating a task resumes its coroutine at once and the initial suspension
point never suspends: the returned task wraps a coroutine that stands neither at its
start nor at the initial suspension point; a logic without suspension point yields a
task that is ready and holds the returned value; otherwise the coroutine stands right
after the first suspension point of the logic and the task is not ready. -/
theorem get_return_object_runs_until_first_suspension {R : Type} (logic : coro_body R) :
    (promise_type.get_return_object logic).empty = false ∧
    (∀ f, (promise_type.get_return_object logic).handle = some f →
      ∀ b, f.point ≠ .start b ∧ f.point ≠ .initial_suspended b) ∧
    (logic.has_suspension_point = false →
      (promise_type.get_return_object logic).ready = true ∧
      (promise_type.get_return_object logic).get = some logic.returned ∧
      (promise_type.get_return_object logic).handle =
        some { promise := { continuation := .null, result := some logic.returned },
               point := .final_suspended }) ∧
    (∀ rest, logic.after_first_suspension = some rest →
      (promise_type.get_return_object logic).ready = false ∧
      (promise_type.get_return_object logic).handle =
        some { promise := { continuation := .null, result := none },
               point := .suspended rest }) := by
  have hno : logic.has_suspension_point = false →
      (promise_type.get_return_object logic).handle =
        some { promise := { continuation := .null, result := some logic.returned },
               point := .final_suspended } := by
    intro h
    simp [promise_type.get_return_object, coro_frame.resume, suspend_never.await_ready,
      run_body_of_no_suspension _ _ h]
  have hsus : ∀ rest, logic.after_first_suspension = some rest →
      (promise_type.get_return_object logic).handle =
        some { promise := { continuation := .null, result := none },
               point := .suspended rest } := by
    intro rest h
    simp [promise_type.get_return_object, coro_frame.resume, suspend_never.await_ready,
      run_body_of_suspension _ _ _ h]
  refine ⟨by simp [promise_type.get_return_object, async_task.empty], ?_, ?_, ?_⟩
  · intro f hf b
    cases hs : logic.after_first_suspension with
    | none =>
      rw [hno ((after_first_suspension_eq_none_iff logic).1 hs)] at hf
      cases hf
      simp
    | some rest =>
      rw [hsus rest hs] at hf
      cases hf
      simp
  · intro h
    refine ⟨?_, ?_, hno h⟩
    · simp [async_task.ready, hno h, promise_type.ready]
    · simp [async_task.get, hno h]
  · intro rest h
    refine ⟨?_, hsus rest h⟩
    simp [async_task.ready, hsus rest h, promise_type.ready]

/-- Witness of C2: a logic that returns 3 without awaiting gives a ready task holding
3, and a logic with a suspension point gives a task that is not ready. -/
theorem get_return_object_runs_until_first_suspension_witness :
    (promise_type.get_return_object (coro_body.coro_await true (.coro_return 3))).ready = true ∧
    (promise_type.get_return_object (coro_body.coro_await true (.coro_return 3))).get = some 3 ∧
    (promise_type.get_return_object suspending_logic).ready = false :=
  ⟨((get_return_object_runs_until_first_suspension
      (coro_body.coro_await true (.coro_return 3))).2.2.1 rfl).1,
   ((get_return_object_runs_until_first_suspension
      (coro_body.coro_await true (.coro_return 3))).2.2.1 rfl).2.1,
   ((get_return_object_runs_until_first_suspension suspending_logic).2.2.2
      (.coro_return 5) rfl).1⟩

/-- C3: the final awaiter of a completing task transfers control to the stored
continuation when one is registered and to the no-op coroutine when the continuation
is empty; the only coroutine frame it can resume is the registered continuation, and
it resumes none exactly when the continuation designates none; for a continuation
that is empty or the handle of an awaiting coroutine, the transfer goes to the no-op
coroutine if and only if the continuation is empty; and a suspended coroutine whose
remaining logic completes on resumption hands control to exactly that target. -/
theorem final_awaiter_resumes_only_continuation {R : Type} (a : final_awaiter R) :
    a.await_ready = false ∧
    (a.me.continuation.empty = false → a.await_suspend = a.me.continuation) ∧
    (a.me.continuation.empty = true →
      a.await_suspend = noop_coroutine ∧ a.await_suspend.resumed = none) ∧
    (∀ id, a.await_suspend.resumed = some id → a.me.continuation = .frame id) ∧
    (a.await_suspend.resumed = none ↔ a.me.continuation.resumed = none) ∧
    (a.me.continuation ≠ noop_coroutine →
      (a.await_suspend = noop_coroutine ↔ a.me.continuation.empty = true)) ∧
    (∀ rest : coro_body R, rest.has_suspension_point = false →
      (coro_frame.resume { promise := a.me, point := .suspended rest }).2 =
        a.await_suspend) := by
  obtain ⟨⟨c, r⟩⟩ := a
  refine ⟨rfl, ?_, ?_, ?_, ?_, ?_, ?_⟩
  · intro h
    simp only at h
    simp [final_awaiter.await_suspend, h]
  · intro h
    simp only at h
    simp [final_awaiter.await_suspend, h, noop_coroutine, coro_handle.resumed]
  · intro id h
    cases c <;>
      simp [final_awaiter.await_suspend, coro_handle.empty, noop_coroutine,
        coro_handle.resumed] at h ⊢
    exact h
  · cases c <;>
      simp [final_awaiter.await_suspend, coro_handle.empty, noop_coroutine,
        coro_handle.resumed]
  · intro hne
    cases c <;>
      simp [final_awaiter.await_suspend, coro_handle.empty, noop_coroutine] at hne ⊢
  · intro rest h
    simp [coro_frame.resume, run_body_of_no_suspension _ _ h, final_awaiter.await_suspend,
      promise_type.final_suspend]

/-- Witness of C3: with frame 4 registered, completion transfers control to frame 4
and not to the no-op coroutine. -/
theorem final_awaiter_resumes_only_continuation_witness :
    awaited_final.await_suspend = .frame 4 ∧
    (awaited_final.await_suspend = noop_coroutine ↔
      awaited_final.me.continuation.empty = true) :=
  ⟨(final_awaiter_resumes_only_continuation awaited_final).2.1 rfl,
   (final_awaiter_resumes_only_continuation awaited_final).2.2.2.2.2.1 (by decide)⟩

/-- C4: awaiting an empty task, such as a default-constructed one, fails the check
"Awaiting an empty async_task": `await_suspend` returns that violation and no task,
so no continuation is registered. -/
theorem await_suspend_empty_task_fails {R : Type} (t : async_task R) (h : coro_handle)
    (hempty : t.empty = true) :
    t.await_suspend h = .error "Awaiting an empty async_task" ∧
    (∀ t1 : async_task R, t.await_suspend h ≠ .ok t1) ∧
    t.continuation = none := by
  obtain ⟨handle⟩ := t
  cases handle with
  | some f => simp [async_task.empty] at hempty
  | none =>
    simp [async_task.await_suspend, srsran_sanity_check, async_task.empty,
      async_task.continuation]

/-- Witness of C4: the default-constructed task rejects the await of frame 1. -/
theorem await_suspend_empty_task_fails_witness :
    (async_task.default : async_task Nat).empty = true ∧
    (async_task.default : async_task Nat).await_suspend (.frame 1) =
      .error "Awaiting an empty async_task" :=
  ⟨rfl, (await_suspend_empty_task_fails async_task.default (.frame 1) rfl).1⟩

end srsgnb

namespace srsran

/-! ## Lemmas on the transaction correlator -/

theorem find_eq_none_iff (c : transaction_correlator) (id : Nat) :
    c.find id = none ↔ ∀ t ∈ c.pending, t.transaction_id ≠ id := by
  simp [transaction_correlator.find, List.find?_eq_none]

theorem find_some_mem (c : transaction_correlator) (id : Nat) (t : transaction)
    (h : c.find id = some t) : t ∈ c.pending ∧ t.transaction_id = id := by
  unfold transaction_correlator.find at h
  refine ⟨List.mem_of_find?_eq_some h, ?_⟩
  have := List.find?_some h
  simpa using this

theorem find_remove_self (c : transaction_correlator) (id : Nat) :
    (c.remove id).find id = none := by
  rw [find_eq_none_iff]
  intro t ht
  simp [transaction_correlator.remove] at ht
  exact ht.2

theorem remove_wf (c : transaction_correlator) (id : Nat) (h : c.wf) : (c.remove id).wf := by
  intro t ht
  simp [transaction_correlator.remove] at ht
  exact h t ht.1

theorem remove_settled (c : transaction_correlator) (id i : Nat) (h : c.settled id) :
    (c.remove i).settled id := by
  refine ⟨h.1, ?_⟩
  rw [find_eq_none_iff]
  intro t ht
  simp [transaction_correlator.remove] at ht
  exact (find_eq_none_iff c id).1 h.2 t ht.1

theorem step_wf (c : transaction_correlator) (op : correlator_op) (h : c.wf) :
    (c.step op).1.wf := by
  cases op with
  | open_transaction expected target =>
    intro t ht
    simp [transaction_correlator.step, transaction_correlator.open_transaction] at ht ⊢
    rcases ht with rfl | ht
    · simp
    · exact Nat.lt_succ_of_lt (h t ht)
  | complete id msg =>
    simp only [transaction_correlator.step, transaction_correlator.complete]
    cases hf : c.find id with
    | none => exact h
    | some t =>
      by_cases hs : msg.shape ∈ t.expected
      · simp only [hs, if_true]; exact remove_wf c id h
      · simp only [hs, if_false]; exact h
  | fail id reason =>
    simp only [transaction_correlator.step, transaction_correlator.fail]
    cases hf : c.find id with
    | none => exact h
    | some t => exact remove_wf c id h
  | cancel id =>
    simp only [transaction_correlator.step, transaction_correlator.cancel]
    cases hf : c.find id with
    | none => exact h
    | some t => exact remove_wf c id h

theorem run_wf (c : transaction_correlator) (ops : List correlator_op) (h : c.wf) :
    (c.run ops).1.wf := by
  induction ops generalizing c with
  | nil => exact h
  | cons op ops ih => exact ih _ (step_wf c op h)

theorem init_wf : transaction_correlator.init.wf := by
  intro t ht
  simp [transaction_correlator.init] at ht

/-- A resolution attempt on a settled identifier is dropped and changes nothing. -/
theorem step_attempt_of_settled (c : transaction_correlator) (id : Nat) (op : correlator_op)
    (hs : c.settled id) (ha : op.attempts id = true) :
    c.step op = (c, [.dropped id]) := by
  cases op with
  | open_transaction expected target => simp [correlator_op.attempts] at ha
  | complete i msg =>
    simp [correlator_op.attempts] at ha
    subst ha
    simp [transaction_correlator.step, transaction_correlator.complete, hs.2]
  | fail i reason =>
    simp [correlator_op.attempts] at ha
    subst ha
    simp [transaction_correlator.step, transaction_correlator.fail, hs.2]
  | cancel i =>
    simp [correlator_op.attempts] at ha
    subst ha
    simp [transaction_correlator.step, transaction_correlator.cancel, hs.2]

theorem step_settled (c : transaction_correlator) (id : Nat) (op : correlator_op)
    (hs : c.settled id) :
    (c.step op).1.settled id ∧ resumptions id (c.step op).2 = 0 := by
  cases op with
  | open_transaction expected target =>
    refine ⟨⟨?_, ?_⟩, by simp [transaction_correlator.step, resumptions]⟩
    · simp [transaction_correlator.step, transaction_correlator.open_transaction]
      exact Nat.lt_succ_of_lt hs.1
    · rw [find_eq_none_iff]
      intro t ht
      simp [transaction_correlator.step, transaction_correlator.open_transaction] at ht
      rcases ht with rfl | ht
      · simp; exact Nat.ne_of_gt hs.1
      · exact (find_eq_none_iff c id).1 hs.2 t ht
  | complete i msg =>
    simp only [transaction_correlator.step, transaction_correlator.complete]
    cases hf : c.find i with
    | none => exact ⟨hs, by simp [resumptions, correlator_effect.resumes]⟩
    | some t =>
      by_cases hm : msg.shape ∈ t.expected
      · simp only [hm, if_true]
        refine ⟨remove_settled c id i hs, ?_⟩
        have hne : i ≠ id := by
          rintro rfl
          rw [hs.2] at hf
          cases hf
        simp [resumptions, correlator_effect.resumes, hne]
      · simp only [hm, if_false]
        exact ⟨hs, by simp [resumptions, correlator_effect.resumes]⟩
  | fail i reason =>
    simp only [transaction_correlator.step, transaction_correlator.fail]
    cases hf : c.find i with
    | none => exact ⟨hs, by simp [resumptions, correlator_effect.resumes]⟩
    | some t =>
      refine ⟨remove_settled c id i hs, ?_⟩
      have hne : i ≠ id := by
        rintro rfl
        rw [hs.2] at hf
        cases hf
      simp [resumptions, correlator_effect.resumes, hne]
  | cancel i =>
    simp only [transaction_correlator.step, transaction_correlator.cancel]
    cases hf : c.find i with
    | none => exact ⟨hs, by simp [resumptions, correlator_effect.resumes]⟩
    | some t =>
      refine ⟨remove_settled c id i hs, ?_⟩
      have hne : i ≠ id := by
        rintro rfl
        rw [hs.2] at hf
        cases hf
      simp [resumptions, correlator_effect.resumes, hne]

theorem run_settled (c : transaction_correlator) (id : Nat) (ops : List correlator_op)
    (hs : c.settled id) :
    (c.run ops).1.settled id ∧ resumptions id (c.run ops).2 = 0 := by
  induction ops generalizing c with
  | nil => exact ⟨hs, by simp [transaction_correlator.run, resumptions]⟩
  | cons op ops ih =>
    have h1 := step_settled c id op hs
    have h2 := ih _ h1.1
    refine ⟨h2.1, ?_⟩
    have e1 := h1.2
    have e2 := h2.2
    simp only [resumptions] at e1 e2 ⊢
    simp [transaction_correlator.run, List.countP_append, e1, e2]

/-- One call resumes the task of an identifier at most once, and when it does the
identifier is settled afterwards. -/
theorem step_resumes (c : transaction_correlator) (id : Nat) (op : correlator_op)
    (hw : c.wf) :
    resumptions id (c.step op).2 ≤ 1 ∧
    (resumptions id (c.step op).2 ≠ 0 → (c.step op).1.settled id) := by
  have key : ∀ (i : Nat) (t : transaction) (o : transaction_outcome), c.find i = some t →
      resumptions id [correlator_effect.resume t.target i o] ≤ 1 ∧
      (resumptions id [correlator_effect.resume t.target i o] ≠ 0 →
        (c.remove i).settled id) := by
    intro i t o hf
    by_cases hi : i = id
    · subst hi
      refine ⟨by simp [resumptions, correlator_effect.resumes], fun _ => ⟨?_, find_remove_self c i⟩⟩
      have hm := find_some_mem c i t hf
      have := hw t hm.1
      rw [hm.2] at this
      exact this
    · simp [resumptions, correlator_effect.resumes, hi]
  cases op with
  | open_transaction expected target =>
    simp [transaction_correlator.step, resumptions]
  | complete i msg =>
    simp only [transaction_correlator.step, transaction_correlator.complete]
    cases hf : c.find i with
    | none => simp [resumptions, correlator_effect.resumes]
    | some t =>
      by_cases hm : msg.shape ∈ t.expected
      · simp only [hm, if_true]; exact key i t _ hf
      · simp [hm, resumptions, correlator_effect.resumes]
  | fail i reason =>
    simp only [transaction_correlator.step, transaction_correlator.fail]
    cases hf : c.find i with
    | none => simp [resumptions, correlator_effect.resumes]
    | some t => exact key i t _ hf
  | cancel i =>
    simp only [transaction_correlator.step, transaction_correlator.cancel]
    cases hf : c.find i with
    | none => simp [resumptions, correlator_effect.resumes]
    | some t => exact key i t _ hf

theorem run_resumptions_le_one (c : transaction_correlator) (id : Nat)
    (ops : List correlator_op) (hw : c.wf) :
    resumptions id (c.run ops).2 ≤ 1 := by
  induction ops generalizing c with
  | nil => simp [transaction_correlator.run, resumptions]
  | cons op ops ih =>
    have h1 := step_resumes c id op hw
    have hsplit : resumptions id (c.run (op :: ops)).2 =
        resumptions id (c.step op).2 + resumptions id ((c.step op).1.run ops).2 := by
      simp [transaction_correlator.run, resumptions, List.countP_append]
    rw [hsplit]
    by_cases h0 : resumptions id (c.step op).2 = 0
    · rw [h0, Nat.zero_add]
      exact ih _ (step_wf c op hw)
    · have := (run_settled _ id ops (h1.2 h0)).2
      rw [this]
      exact h1.1

/-! ## Claim on the transaction correlator -/

/-- C5: over every sequence of calls on a correlator, the task waiting on a given
transaction identifier is resumed at most once; once a `complete`, `fail` or `cancel`
has resolved the identifier, it is no longer pending, and after any further calls
every later resolution attempt on it, a repeated response included, is dropped: it
leaves the correlator unchanged and resumes nothing. -/
theorem transaction_resolved_at_most_once (id : Nat) (ops1 ops2 : List correlator_op)
    (r r2 : correlator_op) :
    resumptions id (transaction_correlator.init.run ops1).2 ≤ 1 ∧
    (r.attempts id = true → r2.attempts id = true →
      resumptions id ((transaction_correlator.init.run ops1).1.step r).2 ≠ 0 →
      ((transaction_correlator.init.run ops1).1.step r).1.is_pending id = false ∧
      ((((transaction_correlator.init.run ops1).1.step r).1.run ops2).1.step r2 =
        ((((transaction_correlator.init.run ops1).1.step r).1.run ops2).1,
          [.dropped id])) ∧
      resumptions id
        (((((transaction_correlator.init.run ops1).1.step r).1.run ops2).1.step r2).2) = 0 ∧
      resumptions id
        (transaction_correlator.init.run (ops1 ++ r :: (ops2 ++ [r2]))).2 = 1) := by
  have hw1 : (transaction_correlator.init.run ops1).1.wf := run_wf _ ops1 init_wf
  refine ⟨run_resumptions_le_one _ id ops1 init_wf, ?_⟩
  intro _ ha2 hres
  have hs := (step_resumes _ id r hw1).2 hres
  have hs2 := run_settled _ id ops2 hs
  have hdrop := step_attempt_of_settled _ id r2 hs2.1 ha2
  refine ⟨?_, hdrop, ?_, ?_⟩
  · simp [transaction_correlator.is_pending, hs.2]
  · rw [hdrop]; simp [resumptions, correlator_effect.resumes]
  · have hle := run_resumptions_le_one transaction_correlator.init id
      (ops1 ++ r :: (ops2 ++ [r2])) init_wf
    have hrun : ∀ (c : transaction_correlator) (a b : List correlator_op),
        resumptions id (c.run (a ++ b)).2 =
          resumptions id (c.run a).2 + resumptions id ((c.run a).1.run b).2 := by
      intro c a b
      induction a generalizing c with
      | nil => simp [transaction_correlator.run, resumptions]
      | cons x a ih =>
        have := ih (c.step x).1
        simp only [resumptions] at this ⊢
        simp [transaction_correlator.run, List.countP_append, this, Nat.add_assoc]
    have hpos : 1 ≤ resumptions id
        (transaction_correlator.init.run (ops1 ++ r :: (ops2 ++ [r2]))).2 := by
      rw [hrun]
      have : resumptions id ((transaction_correlator.init.run ops1).1.run
          (r :: (ops2 ++ [r2]))).2 =
          resumptions id ((transaction_correlator.init.run ops1).1.step r).2 +
          resumptions id (((transaction_correlator.init.run ops1).1.step r).1.run
            (ops2 ++ [r2])).2 := by
        simp [transaction_correlator.run, resumptions, List.countP_append]
      rw [this]
      omega
    omega

/-- Witness of C5: a handover command delivered twice on transaction 0 resumes the
waiting task once; the second delivery is dropped. -/
theorem transaction_resolved_at_most_once_witness :
    ((transaction_correlator.init.run
        [.open_transaction [.ho_cmd, .ho_prep_fail] 7]).1.step
        (.complete 0 ⟨.ho_cmd, [1, 2]⟩)).1.is_pending 0 = false ∧
    resumptions 0 (transaction_correlator.init.run
      ([.open_transaction [.ho_cmd, .ho_prep_fail] 7] ++
        .complete 0 ⟨.ho_cmd, [1, 2]⟩ :: ([] ++ [.complete 0 ⟨.ho_cmd, [1, 2]⟩]))).2 = 1 :=
  ⟨((transaction_resolved_at_most_once 0 [.open_transaction [.ho_cmd, .ho_prep_fail] 7] []
      (.complete 0 ⟨.ho_cmd, [1, 2]⟩) (.complete 0 ⟨.ho_cmd, [1, 2]⟩)).2
      (by decide) (by decide) (by decide)).1,
   ((transaction_resolved_at_most_once 0 [.open_transaction [.ho_cmd, .ho_prep_fail] 7] []
      (.complete 0 ⟨.ho_cmd, [1, 2]⟩) (.complete 0 ⟨.ho_cmd, [1, 2]⟩)).2
      (by decide) (by decide) (by decide)).2.2.2⟩

/-! ## Lemmas on the timer service -/

theorem cancel_handle (h : Nat) (t : timer) : (timer.cancel h t).handle = t.handle := by
  unfold timer.cancel
  split <;> rfl

theorem fire_handle (now : Nat) (t : timer) : (timer.fire now t).handle = t.handle := by
  unfold timer.fire
  split <;> rfl

theorem cancel_not_armed (h : Nat) (t : timer) (hs : t.state ≠ .armed) :
    (timer.cancel h t).state ≠ .armed := by
  unfold timer.cancel
  split
  · simp
  · exact hs

theorem cancel_self_not_armed (t : timer) : (timer.cancel t.handle t).state ≠ .armed := by
  unfold timer.cancel
  by_cases hs : t.state = .armed
  · simp [hs]
  · simp [hs]

theorem fire_not_armed (now : Nat) (t : timer) (hs : t.state ≠ .armed) :
    (timer.fire now t).state ≠ .armed := by
  unfold timer.fire
  split
  · simp
  · exact hs

theorem fire_due_not_armed (now : Nat) (t : timer) (hd : t.due now = true) :
    (timer.fire now t).state ≠ .armed := by
  simp [timer.fire, hd]

theorem map_cancel_handles (h : Nat) (l : List timer) :
    (l.map (timer.cancel h)).map (fun t => t.handle) = l.map (fun t => t.handle) := by
  rw [List.map_map]
  exact List.map_congr_left (fun t _ => cancel_handle h t)

theorem map_fire_handles (now : Nat) (l : List timer) :
    (l.map (timer.fire now)).map (fun t => t.handle) = l.map (fun t => t.handle) := by
  rw [List.map_map]
  exact List.map_congr_left (fun t _ => fire_handle now t)

/-- The expiries of a handle on an advance are its timers that are due. -/
theorem expiries_advance (s : timer_service) (dt h : Nat) :
    expiries h (s.advance dt).2 =
      (s.timers.filter (timer.due (s.now + dt))).countP (fun t => t.handle == h) := by
  simp only [expiries, timer_service.advance, List.countP_map]
  exact (List.perm_insertionSort _ _).countP_eq _

theorem mem_advance_events (s : timer_service) (dt : Nat) (e : timer_expiry)
    (he : e ∈ (s.advance dt).2) :
    ∃ t ∈ s.timers, t.due (s.now + dt) = true ∧ t.handle = e.handle := by
  simp only [timer_service.advance, List.mem_map] at he
  obtain ⟨t, ht, rfl⟩ := he
  have ht2 := (List.perm_insertionSort _ _).mem_iff.1 ht
  rw [List.mem_filter] at ht2
  exact ⟨t, ht2.1, ht2.2, rfl⟩

theorem timer_step_bounded (s : timer_service) (op : timer_op) (hb : s.bounded) :
    (s.step op).1.bounded := by
  cases op with
  | arm duration target =>
    intro t ht
    simp [timer_service.step, timer_service.arm] at ht ⊢
    rcases ht with ht | rfl
    · exact Nat.lt_succ_of_lt (hb t ht)
    · simp
  | cancel h =>
    intro t ht
    simp [timer_service.step, timer_service.cancel] at ht ⊢
    obtain ⟨t0, ht0, rfl⟩ := ht
    rw [cancel_handle]
    exact hb t0 ht0
  | advance dt =>
    intro t ht
    simp [timer_service.step, timer_service.advance] at ht ⊢
    obtain ⟨t0, ht0, rfl⟩ := ht
    rw [fire_handle]
    exact hb t0 ht0

theorem timer_step_wf (s : timer_service) (op : timer_op) (hw : s.wf) : (s.step op).1.wf := by
  refine ⟨timer_step_bounded s op hw.1, ?_⟩
  cases op with
  | arm duration target =>
    simp only [timer_service.step, timer_service.arm, List.map_append, List.map_cons,
      List.map_nil]
    refine List.Nodup.append hw.2 (List.nodup_singleton _) ?_
    intro a ha hb
    simp only [List.mem_singleton] at hb
    subst hb
    simp only [List.mem_map] at ha
    obtain ⟨t, ht, hte⟩ := ha
    have := hw.1 t ht
    omega
  | cancel h =>
    simp only [timer_service.step, timer_service.cancel, map_cancel_handles]
    exact hw.2
  | advance dt =>
    simp only [timer_service.step, timer_service.advance, map_fire_handles]
    exact hw.2

theorem timer_run_wf (s : timer_service) (ops : List timer_op) (hw : s.wf) :
    (s.run ops).1.wf := by
  induction ops generalizing s with
  | nil => exact hw
  | cons op ops ih => exact ih _ (timer_step_wf s op hw)

theorem timer_init_wf : timer_service.init.wf := by
  refine ⟨?_, by simp [timer_service.init]⟩
  intro t ht
  simp [timer_service.init] at ht

theorem cancel_disarmed (s : timer_service) (h : Nat) (hlt : h < s.next_handle) :
    (s.cancel h).disarmed h := by
  refine ⟨hlt, ?_⟩
  intro t ht hh
  simp [timer_service.cancel] at ht
  obtain ⟨t0, _, rfl⟩ := ht
  rw [cancel_handle] at hh
  subst hh
  exact cancel_self_not_armed t0

theorem timer_step_disarmed (s : timer_service) (h : Nat) (op : timer_op)
    (hd : s.disarmed h) :
    (s.step op).1.disarmed h ∧ expiries h (s.step op).2 = 0 := by
  cases op with
  | arm duration target =>
    refine ⟨⟨?_, ?_⟩, by simp [timer_service.step, expiries]⟩
    · simp [timer_service.step, timer_service.arm]
      exact Nat.lt_succ_of_lt hd.1
    · intro t ht hh
      simp [timer_service.step, timer_service.arm] at ht
      rcases ht with ht | rfl
      · exact hd.2 t ht hh
      · simp at hh
        have := hd.1
        omega
  | cancel h2 =>
    refine ⟨⟨hd.1, ?_⟩, by simp [timer_service.step, expiries]⟩
    intro t ht hh
    simp [timer_service.step, timer_service.cancel] at ht
    obtain ⟨t0, ht0, rfl⟩ := ht
    rw [cancel_handle] at hh
    exact cancel_not_armed h2 t0 (hd.2 t0 ht0 hh)
  | advance dt =>
    refine ⟨⟨hd.1, ?_⟩, ?_⟩
    · intro t ht hh
      simp [timer_service.step, timer_service.advance] at ht
      obtain ⟨t0, ht0, rfl⟩ := ht
      rw [fire_handle] at hh
      exact fire_not_armed _ t0 (hd.2 t0 ht0 hh)
    · simp only [timer_service.step, expiries_advance, List.countP_eq_zero, List.mem_filter]
      intro t ht hh
      have hna := hd.2 t ht.1 (by simpa using hh)
      have hdue := ht.2
      simp [timer.due] at hdue
      exact hna hdue.1

theorem timer_run_disarmed (s : timer_service) (h : Nat) (ops : List timer_op)
    (hd : s.disarmed h) :
    (s.run ops).1.disarmed h ∧ expiries h (s.run ops).2 = 0 := by
  induction ops generalizing s with
  | nil => exact ⟨hd, by simp [timer_service.run, expiries]⟩
  | cons op ops ih =>
    have h1 := timer_step_disarmed s h op hd
    have h2 := ih _ h1.1
    refine ⟨h2.1, ?_⟩
    have e1 := h1.2
    have e2 := h2.2
    simp only [expiries] at e1 e2 ⊢
    simp [timer_service.run, List.countP_append, e1, e2]

/-- One call fires a given timer at most once, and when it does the timer is no
longer armed afterwards. -/
theorem timer_step_expiries (s : timer_service) (h : Nat) (op : timer_op) (hw : s.wf) :
    expiries h (s.step op).2 ≤ 1 ∧
    (expiries h (s.step op).2 ≠ 0 → (s.step op).1.disarmed h) := by
  cases op with
  | arm duration target => simp [timer_service.step, expiries]
  | cancel h2 => simp [timer_service.step, expiries]
  | advance dt =>
    constructor
    · simp only [timer_service.step, expiries_advance, List.countP_filter]
      calc List.countP (fun a => (a.handle == h) && timer.due (s.now + dt) a) s.timers
          ≤ List.countP (fun a => a.handle == h) s.timers :=
            List.countP_mono_left (fun x _ hx => by simp at hx; simp [hx.1])
        _ = List.count h (s.timers.map (fun t => t.handle)) := by
            rw [List.count_eq_countP, List.countP_map]
            rfl
        _ ≤ 1 := List.nodup_iff_count_le_one.1 hw.2 h
    · intro hne
      simp only [timer_service.step, expiries_advance] at hne
      have hpos : 0 < List.countP (fun t => t.handle == h)
          (s.timers.filter (timer.due (s.now + dt))) := Nat.pos_of_ne_zero hne
      rw [List.countP_pos_iff] at hpos
      obtain ⟨t, ht, hth⟩ := hpos
      rw [List.mem_filter] at ht
      have hth2 : t.handle = h := by simpa using hth
      refine ⟨?_, ?_⟩
      · have := hw.1 t ht.1
        simp only [timer_service.step, timer_service.advance]
        omega
      · intro t2 ht2 hh
        simp [timer_service.step, timer_service.advance] at ht2
        obtain ⟨t0, ht0, rfl⟩ := ht2
        rw [fire_handle] at hh
        have heq : t0 = t :=
          List.inj_on_of_nodup_map hw.2 ht0 ht.1 (by simp [hh, hth2])
        subst heq
        exact fire_due_not_armed _ t0 ht.2

theorem timer_run_expiries_le_one (s : timer_service) (h : Nat) (ops : List timer_op)
    (hw : s.wf) : expiries h (s.run ops).2 ≤ 1 := by
  induction ops generalizing s with
  | nil => simp [timer_service.run, expiries]
  | cons op ops ih =>
    have h1 := timer_step_expiries s h op hw
    have hsplit : expiries h (s.run (op :: ops)).2 =
        expiries h (s.step op).2 + expiries h ((s.step op).1.run ops).2 := by
      simp [timer_service.run, expiries, List.countP_append]
    rw [hsplit]
    by_cases h0 : expiries h (s.step op).2 = 0
    · rw [h0, Nat.zero_add]
      exact ih _ (timer_step_wf s op hw)
    · have := (timer_run_disarmed _ h ops (h1.2 h0)).2
      rw [this]
      exact h1.1

theorem timer_run_append (s : timer_service) (h : Nat) (a b : List timer_op) :
    (s.run (a ++ b)).1 = ((s.run a).1.run b).1 ∧
    expiries h (s.run (a ++ b)).2 =
      expiries h (s.run a).2 + expiries h ((s.run a).1.run b).2 := by
  induction a generalizing s with
  | nil => simp [timer_service.run, expiries]
  | cons x a ih =>
    have := ih (s.step x).1
    simp only [expiries] at this ⊢
    simp [timer_service.run, List.countP_append, this, Nat.add_assoc]

/-! ## Claim on the timer service -/

/-- C10: over every sequence of calls on a timer service, the expiry callback of a
timer is invoked at most once; and once an armed timer has been canceled, no later
call invokes its expiry callback, so a timer canceled before its expiry never fires
at all. -/
theorem canceled_timer_never_fires (h : Nat) (ops1 ops2 : List timer_op) :
    expiries h (timer_service.init.run ops1).2 ≤ 1 ∧
    (h < (timer_service.init.run ops1).1.next_handle →
      expiries h (((timer_service.init.run ops1).1.cancel h).run ops2).2 = 0 ∧
      (∀ t ∈ (((timer_service.init.run ops1).1.cancel h).run ops2).1.timers,
        t.handle = h → t.state ≠ .armed) ∧
      (expiries h (timer_service.init.run ops1).2 = 0 →
        expiries h (timer_service.init.run (ops1 ++ .cancel h :: ops2)).2 = 0)) := by
  refine ⟨timer_run_expiries_le_one _ h ops1 timer_init_wf, ?_⟩
  intro hlt
  have hd := cancel_disarmed (timer_service.init.run ops1).1 h hlt
  have hr := timer_run_disarmed _ h ops2 hd
  refine ⟨hr.2, hr.1.2, ?_⟩
  intro h0
  rw [(timer_run_append timer_service.init h ops1 (.cancel h :: ops2)).2, h0]
  have : expiries h ((timer_service.init.run ops1).1.run (.cancel h :: ops2)).2 =
      expiries h (((timer_service.init.run ops1).1.cancel h).run ops2).2 := by
    simp [timer_service.run, timer_service.step, expiries]
  rw [this, hr.2]

/-- Witness of C10: a timer of 5 ms canceled after 3 ms does not fire in the next
10 ms. -/
theorem canceled_timer_never_fires_witness :
    0 < (timer_service.init.run [.arm 5 1, .advance 3]).1.next_handle ∧
    expiries 0 (((timer_service.init.run [.arm 5 1, .advance 3]).1.cancel 0).run
      [.advance 10]).2 = 0 :=
  ⟨by decide,
   ((canceled_timer_never_fires 0 [.arm 5 1, .advance 3] [.advance 10]).2 (by decide)).1⟩

/-! ## Lemmas on armed timers -/

theorem arm_armed_at (s : timer_service) (d target : Nat) (hb : s.bounded) :
    (s.arm d target).1.armed_at s.next_handle (s.now + d) ∧
    (s.arm d target).1.now = s.now ∧ (s.arm d target).2 = s.next_handle := by
  refine ⟨⟨timer_step_bounded s (.arm d target) hb, ?_, ?_⟩, rfl, rfl⟩
  · exact ⟨{ handle := s.next_handle, deadline := s.now + d, target := target,
             state := .armed }, by simp [timer_service.arm], rfl, rfl, rfl⟩
  · intro t ht hh _
    simp [timer_service.arm] at ht
    rcases ht with ht | rfl
    · have := hb t ht
      omega
    · rfl

theorem advance_armed_at (s : timer_service) (h D : Nat) (ha : s.armed_at h D)
    (hlt : s.now + 1 < D) :
    (s.advance 1).1.armed_at h D ∧ (s.advance 1).1.now = s.now + 1 ∧
    (∀ e ∈ (s.advance 1).2, e.handle ≠ h) := by
  obtain ⟨hb, ⟨t, ht, hth, hts, htd⟩, hall⟩ := ha
  have hfire : ∀ t0 ∈ s.timers, t0.handle = h → timer.fire (s.now + 1) t0 = t0 := by
    intro t0 ht0 hh
    unfold timer.fire
    by_cases hd : t0.due (s.now + 1) = true
    · simp [timer.due] at hd
      have := hall t0 ht0 hh hd.1
      omega
    · simp [hd]
  refine ⟨⟨timer_step_bounded s (.advance 1) hb, ?_, ?_⟩, rfl, ?_⟩
  · refine ⟨t, ?_, hth, hts, htd⟩
    simp only [timer_service.advance, List.mem_map]
    exact ⟨t, ht, hfire t ht hth⟩
  · intro t2 ht2 hh hs
    simp only [timer_service.advance, List.mem_map] at ht2
    obtain ⟨t0, ht0, rfl⟩ := ht2
    rw [fire_handle] at hh
    rw [hfire t0 ht0 hh] at hs ⊢
    exact hall t0 ht0 hh hs
  · intro e he hh
    obtain ⟨t0, ht0, hd, hte⟩ := mem_advance_events s 1 e he
    simp [timer.due] at hd
    have := hall t0 ht0 (hte.trans hh) hd.1
    omega

theorem advance_fires (s : timer_service) (h D : Nat) (ha : s.armed_at h D)
    (hle : D ≤ s.now + 1) :
    (∃ e ∈ (s.advance 1).2, e.handle = h) ∧
    (∀ e ∈ (s.advance 1).2, e.handle < (s.advance 1).1.next_handle) ∧
    (s.advance 1).1.bounded ∧ (s.advance 1).1.now = s.now + 1 := by
  obtain ⟨hb, ⟨t, ht, hth, hts, htd⟩, _⟩ := ha
  refine ⟨?_, ?_, timer_step_bounded s (.advance 1) hb, rfl⟩
  · refine ⟨{ handle := t.handle, target := t.target }, ?_, hth⟩
    simp only [timer_service.advance, List.mem_map]
    refine ⟨t, ?_, rfl⟩
    rw [(List.perm_insertionSort _ _).mem_iff, List.mem_filter]
    refine ⟨ht, ?_⟩
    simp [timer.due, hts, htd, hle]
  · intro e he
    obtain ⟨t0, ht0, _, hte⟩ := mem_advance_events s 1 e he
    have := hb t0 ht0
    simp only [timer_service.advance]
    omega

theorem advance_bounded (s : timer_service) (hb : s.bounded) :
    (s.advance 1).1.bounded ∧
    (∀ e ∈ (s.advance 1).2, e.handle < (s.advance 1).1.next_handle) := by
  refine ⟨timer_step_bounded s (.advance 1) hb, ?_⟩
  intro e he
  obtain ⟨t0, ht0, _, hte⟩ := mem_advance_events s 1 e he
  have := hb t0 ht0
  simp only [timer_service.advance]
  omega

namespace ngap_handover_preparation_procedure

/-! ## Lemmas on the steps of the procedure -/

theorem on_expiries_inert (p : ngap_handover_preparation_procedure) (es : List timer_expiry)
    (hi : p.inert) : p.on_expiries es = (p, []) := by
  induction es with
  | nil => rfl
  | cons e es ih =>
    have h1 : p.on_expiry e = (p, []) := by
      unfold on_expiry
      obtain ⟨h1, h2⟩ := hi
      split <;> simp_all
    simp [on_expiries, h1, ih]

theorem on_effects_inert (p : ngap_handover_preparation_procedure)
    (es : List correlator_effect) (hi : p.inert) : p.on_effects es = (p, []) := by
  induction es with
  | nil => rfl
  | cons e es ih =>
    have h1 : p.on_effect e = (p, []) := by
      unfold on_effect
      obtain ⟨h1, h2⟩ := hi
      split
      · rfl
      · split <;> simp_all
    simp [on_effects, h1, ih]

theorem on_expiries_awaiting_quiet (p : ngap_handover_preparation_procedure) (h : Nat)
    (es : List timer_expiry) (hp : p.phase = .awaiting_peer_response)
    (ht : p.tng_reloc_prep_timer = some h) (hne : ∀ e ∈ es, e.handle ≠ h) :
    p.on_expiries es = (p, []) := by
  induction es with
  | nil => rfl
  | cons e es ih =>
    have hne1 : h ≠ e.handle := fun hc => hne e (List.mem_cons_self _ _) hc.symm
    have h1 : p.on_expiry e = (p, []) := by
      simp [on_expiry, hp, ht, hne1]
    have h2 := ih (fun e2 he2 => hne e2 (List.mem_cons_of_mem _ he2))
    simp [on_expiries, h1, h2]

theorem on_expiries_cancelling_quiet (p : ngap_handover_preparation_procedure) (ch : Nat)
    (es : List timer_expiry) (hp : p.phase = .cancelling)
    (ht : p.ho_cancel_timer = some ch) (hne : ∀ e ∈ es, e.handle ≠ ch) :
    p.on_expiries es = (p, []) := by
  induction es with
  | nil => rfl
  | cons e es ih =>
    have hne1 : ch ≠ e.handle := fun hc => hne e (List.mem_cons_self _ _) hc.symm
    have h1 : p.on_expiry e = (p, []) := by
      simp [on_expiry, hp, ht, hne1]
    have h2 := ih (fun e2 he2 => hne e2 (List.mem_cons_of_mem _ he2))
    simp [on_expiries, h1, h2]

theorem on_prep_timeout_phase (p : ngap_handover_preparation_procedure) :
    p.on_prep_timeout.1.phase = .cancelling ∧
    p.on_prep_timeout.1.ho_cancel_timer = some p.timers.next_handle := by
  unfold on_prep_timeout
  split <;> simp [enter_cancelling, timer_service.arm]

theorem on_cancel_timeout_inert (p : ngap_handover_preparation_procedure) :
    p.on_cancel_timeout.1.inert := by
  unfold on_cancel_timeout inert
  split <;> simp

theorem on_expiries_awaiting_fires (p : ngap_handover_preparation_procedure) (h : Nat)
    (es : List timer_expiry) (hp : p.phase = .awaiting_peer_response)
    (ht : p.tng_reloc_prep_timer = some h) (hex : ∃ e ∈ es, e.handle = h)
    (hlt : ∀ e ∈ es, e.handle < p.timers.next_handle) :
    p.on_expiries es = p.on_prep_timeout := by
  induction es with
  | nil => simp at hex
  | cons e es ih =>
    have hlt2 : ∀ e2 ∈ es, e2.handle < p.timers.next_handle :=
      fun e2 he2 => hlt e2 (List.mem_cons_of_mem _ he2)
    by_cases heq : e.handle = h
    · have h1 : p.on_expiry e = p.on_prep_timeout := by
        simp [on_expiry, hp, ht, heq]
      have hq := on_prep_timeout_phase p
      have h2 := on_expiries_cancelling_quiet p.on_prep_timeout.1 p.timers.next_handle es
        hq.1 hq.2 (fun e2 he2 => Nat.ne_of_lt (hlt2 e2 he2))
      simp [on_expiries, h1, h2]
    · have hne1 : h ≠ e.handle := fun hc => heq hc.symm
      have h1 : p.on_expiry e = (p, []) := by
        simp [on_expiry, hp, ht, hne1]
      have hex2 : ∃ e2 ∈ es, e2.handle = h := by
        obtain ⟨e2, he2, hh⟩ := hex
        rcases List.mem_cons.1 he2 with rfl | he2
        · exact absurd hh heq
        · exact ⟨e2, he2, hh⟩
      simp [on_expiries, h1, ih hex2 hlt2]

theorem on_expiries_cancelling_fires (p : ngap_handover_preparation_procedure) (ch : Nat)
    (es : List timer_expiry) (hp : p.phase = .cancelling)
    (ht : p.ho_cancel_timer = some ch) (hex : ∃ e ∈ es, e.handle = ch) :
    p.on_expiries es = p.on_cancel_timeout := by
  induction es with
  | nil => simp at hex
  | cons e es ih =>
    by_cases heq : e.handle = ch
    · have h1 : p.on_expiry e = p.on_cancel_timeout := by
        simp [on_expiry, hp, ht, heq]
      have h2 := on_expiries_inert p.on_cancel_timeout.1 es (on_cancel_timeout_inert p)
      simp [on_expiries, h1, h2]
    · have hne1 : ch ≠ e.handle := fun hc => heq hc.symm
      have h1 : p.on_expiry e = (p, []) := by
        simp [on_expiry, hp, ht, hne1]
      have hex2 : ∃ e2 ∈ es, e2.handle = ch := by
        obtain ⟨e2, he2, hh⟩ := hex
        rcases List.mem_cons.1 he2 with rfl | he2
        · exact absurd hh heq
        · exact ⟨e2, he2, hh⟩
      simp [on_expiries, h1, ih hex2]

/-! ## Entering the waiting phases -/

theorem find_open_transaction (c : transaction_correlator) (expected : List response_shape)
    (target : Nat) :
    (c.open_transaction expected target).1.find c.next_id =
      some { transaction_id := c.next_id, expected := expected, target := target } ∧
    (c.open_transaction expected target).1.next_id = c.next_id + 1 ∧
    (c.open_transaction expected target).2 = c.next_id ∧
    (∀ id, id ≠ c.next_id → (c.open_transaction expected target).1.find id = c.find id) := by
  refine ⟨by simp [transaction_correlator.open_transaction, transaction_correlator.find],
    rfl, rfl, ?_⟩
  intro id hne
  have : (c.next_id == id) = false := by simpa using fun h => hne h.symm
  simp [transaction_correlator.open_transaction, transaction_correlator.find,
    List.find?_cons, this]

theorem send_request_spec (p : ngap_handover_preparation_procedure)
    (hb : p.timers.bounded) :
    p.send_request.1.awaiting p.timers.next_handle p.ev_mng.next_id
      (p.timers.now + tng_reloc_prep_ms) ∧
    p.send_request.2 = [.send_handover_required] ∧
    p.send_request.1.timers.now = p.timers.now ∧
    p.send_request.1.ev_mng.next_id = p.ev_mng.next_id + 1 ∧
    p.send_request.1.ho_cancel_ms = p.ho_cancel_ms := by
  have ha := arm_armed_at p.timers tng_reloc_prep_ms p.task hb
  have ho := find_open_transaction p.ev_mng [.ho_cmd, .ho_prep_fail] p.task
  exact ⟨⟨rfl, rfl, rfl, ha.1, ho.1⟩, rfl, rfl, rfl, rfl⟩

theorem enter_cancelling_spec (p : ngap_handover_preparation_procedure)
    (hb : p.timers.bounded) :
    p.enter_cancelling.1.cancelling p.timers.next_handle p.ev_mng.next_id
      (p.timers.now + p.ho_cancel_ms) ∧
    p.enter_cancelling.2 = [.send_handover_cancel] ∧
    p.enter_cancelling.1.timers.now = p.timers.now ∧
    p.enter_cancelling.1.transaction_sink = p.transaction_sink ∧
    (∀ id, id ≠ p.ev_mng.next_id → p.enter_cancelling.1.ev_mng.find id = p.ev_mng.find id) := by
  have ha := arm_armed_at p.timers p.ho_cancel_ms p.task hb
  have ho := find_open_transaction p.ev_mng [.ho_cancel_ack] p.task
  exact ⟨⟨rfl, rfl, rfl, ha.1, ho.1⟩, rfl, rfl, rfl, ho.2.2.2⟩

/-! ## One millisecond in a waiting phase -/

theorem tick_awaiting_quiet (p : ngap_handover_preparation_procedure) (h tid D : Nat)
    (ha : p.awaiting h tid D) (hlt : p.timers.now + 1 < D) :
    ∃ q, p.tick = (q, []) ∧ q.awaiting h tid D ∧ q.timers.now = p.timers.now + 1 ∧
      q.ev_mng = p.ev_mng ∧ q.ho_cancel_ms = p.ho_cancel_ms := by
  have hadv := advance_armed_at p.timers h D ha.armed hlt
  refine ⟨{ p with timers := (p.timers.advance 1).1 }, ?_, ?_, hadv.2.1, rfl, rfl⟩
  · exact on_expiries_awaiting_quiet _ h _ ha.phase ha.timer hadv.2.2
  · exact ⟨ha.phase, ha.timer, ha.sink, hadv.1, ha.pending⟩

theorem tick_cancelling_quiet (p : ngap_handover_preparation_procedure) (ch cid D : Nat)
    (ha : p.cancelling ch cid D) (hlt : p.timers.now + 1 < D) :
    ∃ q, p.tick = (q, []) ∧ q.cancelling ch cid D ∧ q.timers.now = p.timers.now + 1 := by
  have hadv := advance_armed_at p.timers ch D ha.armed hlt
  refine ⟨{ p with timers := (p.timers.advance 1).1 }, ?_, ?_, hadv.2.1⟩
  · exact on_expiries_cancelling_quiet _ ch _ ha.phase ha.timer hadv.2.2
  · exact ⟨ha.phase, ha.timer, ha.sink, hadv.1, ha.pending⟩

theorem tick_awaiting_fires (p : ngap_handover_preparation_procedure) (h tid D : Nat)
    (ha : p.awaiting h tid D) (hle : D ≤ p.timers.now + 1) :
    ∃ q ch, p.tick = (q, [.send_handover_cancel]) ∧
      q.cancelling ch p.ev_mng.next_id (p.timers.now + 1 + p.ho_cancel_ms) ∧
      q.timers.now = p.timers.now + 1 ∧ q.transaction_sink = some tid ∧
      (tid ≠ p.ev_mng.next_id → q.ev_mng.is_pending tid = false) := by
  have hadv := advance_fires p.timers h D ha.armed hle
  have hfire := on_expiries_awaiting_fires { p with timers := (p.timers.advance 1).1 } h
    (p.timers.advance 1).2 ha.phase ha.timer hadv.1 hadv.2.1
  have hto : on_prep_timeout { p with timers := (p.timers.advance 1).1 } =
      enter_cancelling { p with timers := (p.timers.advance 1).1,
                                ev_mng := p.ev_mng.remove tid } := by
    simp [on_prep_timeout, ha.sink, transaction_correlator.cancel, ha.pending]
  have hspec := enter_cancelling_spec
    { p with timers := (p.timers.advance 1).1, ev_mng := p.ev_mng.remove tid } hadv.2.2.1
  refine ⟨_, (p.timers.advance 1).1.next_handle, ?_, hspec.1, ?_, ?_, ?_⟩
  · show p.tick = _
    unfold tick
    rw [hfire, hto]
    exact Prod.ext rfl hspec.2.1
  · exact hspec.2.2.1
  · rw [hspec.2.2.2.1]
    exact ha.sink
  · intro hne
    have := hspec.2.2.2.2 tid hne
    simp only [transaction_correlator.is_pending, this]
    simp [find_remove_self p.ev_mng tid]

theorem tick_cancelling_fires (p : ngap_handover_preparation_procedure) (ch cid D : Nat)
    (ha : p.cancelling ch cid D) (hle : D ≤ p.timers.now + 1) :
    ∃ q, p.tick = (q, [.log_anomaly]) ∧ q.phase = .terminal .failure := by
  have hadv := advance_fires p.timers ch D ha.armed hle
  have hfire := on_expiries_cancelling_fires { p with timers := (p.timers.advance 1).1 } ch
    (p.timers.advance 1).2 ha.phase ha.timer hadv.1
  refine ⟨(on_cancel_timeout { p with timers := (p.timers.advance 1).1 }).1, ?_, ?_⟩
  · show p.tick = _
    unfold tick
    rw [hfire]
    simp [on_cancel_timeout, ha.sink]
  · simp [on_cancel_timeout, ha.sink]

theorem tick_inert (p : ngap_handover_preparation_procedure) (hi : p.inert) :
    ∃ q, p.tick = (q, []) ∧ q.phase = p.phase ∧ q.rrc_ho_cmd_pdu = p.rrc_ho_cmd_pdu :=
  ⟨{ p with timers := (p.timers.advance 1).1 }, on_expiries_inert _ _ hi, rfl, rfl⟩

/-! ## Several milliseconds in a waiting phase -/

theorem elapse_inert (p : ngap_handover_preparation_procedure) (n : Nat) (hi : p.inert) :
    ∃ q, p.elapse n = (q, []) ∧ q.phase = p.phase ∧ q.rrc_ho_cmd_pdu = p.rrc_ho_cmd_pdu := by
  induction n generalizing p with
  | zero => exact ⟨p, rfl, rfl, rfl⟩
  | succ n ih =>
    obtain ⟨q, hq, hph, hpdu⟩ := tick_inert p hi
    have hiq : q.inert := by
      unfold inert at hi ⊢
      rw [hph]
      exact hi
    obtain ⟨q2, hq2, hph2, hpdu2⟩ := ih q hiq
    exact ⟨q2, by simp [elapse, hq, hq2], hph2.trans hph, hpdu2.trans hpdu⟩

theorem elapse_awaiting_quiet (p : ngap_handover_preparation_procedure) (h tid D n : Nat)
    (ha : p.awaiting h tid D) (hlt : p.timers.now + n < D) :
    ∃ q, p.elapse n = (q, []) ∧ q.awaiting h tid D ∧ q.timers.now = p.timers.now + n ∧
      q.ev_mng = p.ev_mng ∧ q.ho_cancel_ms = p.ho_cancel_ms := by
  induction n generalizing p with
  | zero => exact ⟨p, rfl, ha, rfl, rfl, rfl⟩
  | succ n ih =>
    obtain ⟨q, hq, haq, hnow, hev, hms⟩ := tick_awaiting_quiet p h tid D ha (by omega)
    obtain ⟨q2, hq2, haq2, hnow2, hev2, hms2⟩ := ih q haq (by omega)
    exact ⟨q2, by simp [elapse, hq, hq2], haq2, by omega, hev2.trans hev, hms2.trans hms⟩

theorem elapse_cancelling_quiet (p : ngap_handover_preparation_procedure) (ch cid D n : Nat)
    (ha : p.cancelling ch cid D) (hlt : p.timers.now + n < D) :
    ∃ q, p.elapse n = (q, []) ∧ q.cancelling ch cid D ∧ q.timers.now = p.timers.now + n := by
  induction n generalizing p with
  | zero => exact ⟨p, rfl, ha, rfl⟩
  | succ n ih =>
    obtain ⟨q, hq, haq, hnow⟩ := tick_cancelling_quiet p ch cid D ha (by omega)
    obtain ⟨q2, hq2, haq2, hnow2⟩ := ih q haq (by omega)
    exact ⟨q2, by simp [elapse, hq, hq2], haq2, by omega⟩

/-- When the deadline of the preparation elapses, the procedure enters `Cancelling`. -/
theorem elapse_until_cancelling (p : ngap_handover_preparation_procedure) (h tid D k : Nat)
    (ha : p.awaiting h tid D) (hk : p.timers.now + k = D) (hpos : 1 ≤ k) :
    ∃ q ch, p.elapse k = (q, [.send_handover_cancel]) ∧
      q.cancelling ch p.ev_mng.next_id (D + p.ho_cancel_ms) ∧
      q.timers.now = D ∧ q.transaction_sink = some tid ∧
      (tid ≠ p.ev_mng.next_id → q.ev_mng.is_pending tid = false) := by
  induction k generalizing p with
  | zero => omega
  | succ k ih =>
    by_cases hk0 : k = 0
    · subst hk0
      obtain ⟨q, ch, hq, hc, hnow, hsink, hpend⟩ := tick_awaiting_fires p h tid D ha (by omega)
      refine ⟨q, ch, by simp [elapse, hq], ?_, by omega, hsink, hpend⟩
      have : D + p.ho_cancel_ms = p.timers.now + 1 + p.ho_cancel_ms := by omega
      rw [this]
      exact hc
    · obtain ⟨q, hq, haq, hnow, hev, hms⟩ := tick_awaiting_quiet p h tid D ha (by omega)
      obtain ⟨q2, ch, hq2, hc, hnow2, hsink, hpend⟩ := ih q haq (by omega) (by omega)
      rw [hev, hms] at hc
      rw [hev] at hpend
      exact ⟨q2, ch, by simp [elapse, hq, hq2], hc, hnow2, hsink, hpend⟩

/-- When the deadline of the cancellation handshake elapses, the procedure
terminates with failure. -/
theorem elapse_until_terminal (p : ngap_handover_preparation_procedure) (ch cid D n : Nat)
    (ha : p.cancelling ch cid D) (hn : D ≤ p.timers.now + n) (hpos : 1 ≤ n) :
    ∃ q, p.elapse n = (q, [.log_anomaly]) ∧ q.phase = .terminal .failure := by
  induction n generalizing p with
  | zero => omega
  | succ n ih =>
    by_cases hd : D ≤ p.timers.now + 1
    · obtain ⟨q, hq, hph⟩ := tick_cancelling_fires p ch cid D ha hd
      have hiq : q.inert := by simp [inert, hph]
      obtain ⟨q2, hq2, hph2, _⟩ := elapse_inert q n hiq
      exact ⟨q2, by simp [elapse, hq, hq2], hph2.trans hph⟩
    · obtain ⟨q, hq, haq, hnow⟩ := tick_cancelling_quiet p ch cid D ha (by omega)
      obtain ⟨q2, hq2, hph2⟩ := ih q haq (by omega) (by omega)
      exact ⟨q2, by simp [elapse, hq, hq2], hph2⟩

/-- When both deadlines elapse with no response, the procedure terminates with
failure. -/
theorem elapse_both_deadlines (p : ngap_handover_preparation_procedure) (h tid D n : Nat)
    (ha : p.awaiting h tid D) (hnow : p.timers.now < D)
    (hn : D + max 1 p.ho_cancel_ms ≤ p.timers.now + n) :
    ∃ q, p.elapse n = (q, [.send_handover_cancel, .log_anomaly]) ∧
      q.phase = .terminal .failure := by
  induction n generalizing p with
  | zero => omega
  | succ n ih =>
    by_cases hd : D ≤ p.timers.now + 1
    · obtain ⟨q, ch, hq, hc, hnowq, _, _⟩ := tick_awaiting_fires p h tid D ha hd
      obtain ⟨q2, hq2, hph2⟩ := elapse_until_terminal q ch _ _ n hc (by omega) (by omega)
      exact ⟨q2, by simp [elapse, hq, hq2], hph2⟩
    · obtain ⟨q, hq, haq, hnowq, _, hms⟩ := tick_awaiting_quiet p h tid D ha (by omega)
      obtain ⟨q2, hq2, hph2⟩ := ih q haq (by omega) (by rw [hms]; omega)
      exact ⟨q2, by simp [elapse, hq, hq2], hph2⟩

/-! ## Responses in a waiting phase -/

theorem deliver_reject (p : ngap_handover_preparation_procedure) (h tid D : Nat)
    (msg : response_message) (ha : p.awaiting h tid D) (hs : msg.shape = .ho_prep_fail) :
    ∃ q, p.step (.deliver tid msg) = (q, []) ∧ q.phase = .terminal .failure := by
  refine ⟨{ p with ev_mng := p.ev_mng.remove tid, timers := p.timers.cancel h,
                   phase := .terminal .failure }, ?_, rfl⟩
  simp [step, transaction_correlator.complete, ha.pending, hs, on_effects, on_effect,
    ha.phase, ha.sink, on_peer_outcome, cancel_timer, ha.timer]

theorem deliver_accept (p : ngap_handover_preparation_procedure) (h tid D : Nat)
    (msg : response_message) (ha : p.awaiting h tid D) (hs : msg.shape = .ho_cmd) :
    ∃ q, p.step (.deliver tid msg) = (q, [.on_new_rrc_handover_command msg.payload]) ∧
      q.phase = .completing ∧ q.rrc_ho_cmd_pdu = msg.payload := by
  refine ⟨{ p with ev_mng := p.ev_mng.remove tid, timers := p.timers.cancel h,
                   phase := .completing, rrc_ho_cmd_pdu := msg.payload }, ?_, rfl, rfl⟩
  simp [step, transaction_correlator.complete, ha.pending, hs, on_effects, on_effect,
    ha.phase, ha.sink, on_peer_outcome, cancel_timer, ha.timer]

theorem deliver_cancel_ack (p : ngap_handover_preparation_procedure) (ch cid D : Nat)
    (msg : response_message) (ha : p.cancelling ch cid D) (hs : msg.shape = .ho_cancel_ack) :
    ∃ q, p.step (.deliver cid msg) = (q, []) ∧ q.phase = .terminal .failure := by
  refine ⟨{ p with ev_mng := p.ev_mng.remove cid, timers := p.timers.cancel ch,
                   phase := .terminal .failure }, ?_, rfl⟩
  simp [step, transaction_correlator.complete, ha.pending, hs, on_effects, on_effect,
    ha.phase, ha.sink, cancel_timer, ha.timer]

/-! ## Events that the procedure does not await -/

theorem step_keep (p : ngap_handover_preparation_procedure) (e : procedure_event)
    (hi : p.inert) (h1 : p.phase ≠ .idle) (h2 : p.phase ≠ .awaiting_context)
    (h3 : e.is_rrc_result = false ∨ p.phase ≠ .completing) :
    ∃ q, p.step e = (q, []) ∧ q.phase = p.phase ∧ q.rrc_ho_cmd_pdu = p.rrc_ho_cmd_pdu := by
  cases e with
  | launch =>
    refine ⟨p, ?_, rfl, rfl⟩
    simp only [step]
  | context_gathered =>
    refine ⟨p, ?_, rfl, rfl⟩
    simp only [step]
  | deliver id msg =>
    exact ⟨{ p with ev_mng := (p.ev_mng.complete id msg).1 },
      on_effects_inert _ _ hi, rfl, rfl⟩
  | elapse dt => exact elapse_inert p dt hi
  | rrc_reconfig_result success =>
    refine ⟨p, ?_, rfl, rfl⟩
    simp only [step]
    split
    · simp [procedure_event.is_rrc_result] at h3
      simp_all
    · rfl

theorem run_keep (p : ngap_handover_preparation_procedure) (es : List procedure_event)
    (hi : p.inert) (h1 : p.phase ≠ .idle) (h2 : p.phase ≠ .awaiting_context)
    (h3 : (∀ e ∈ es, e.is_rrc_result = false) ∨ p.phase ≠ .completing) :
    ∃ q, p.run es = (q, []) ∧ q.phase = p.phase ∧ q.rrc_ho_cmd_pdu = p.rrc_ho_cmd_pdu := by
  induction es generalizing p with
  | nil => exact ⟨p, rfl, rfl, rfl⟩
  | cons e es ih =>
    have h3e : e.is_rrc_result = false ∨ p.phase ≠ .completing := by
      rcases h3 with h3 | h3
      · exact Or.inl (h3 e (List.mem_cons_self _ _))
      · exact Or.inr h3
    obtain ⟨q, hq, hph, hpdu⟩ := step_keep p e hi h1 h2 h3e
    have h3q : (∀ e ∈ es, e.is_rrc_result = false) ∨ q.phase ≠ .completing := by
      rcases h3 with h3 | h3
      · exact Or.inl (fun e2 he2 => h3 e2 (List.mem_cons_of_mem _ he2))
      · exact Or.inr (by rw [hph]; exact h3)
    obtain ⟨q2, hq2, hph2, hpdu2⟩ := ih q (by unfold inert at hi ⊢; rw [hph]; exact hi)
      (by rw [hph]; exact h1) (by rw [hph]; exact h2) h3q
    exact ⟨q2, by simp [run, hq, hq2], hph2.trans hph, hpdu2.trans hpdu⟩

theorem run_terminal (p : ngap_handover_preparation_procedure) (es : List procedure_event)
    (r : ngap_handover_preparation_response) (hp : p.phase = .terminal r) :
    ∃ q, p.run es = (q, []) ∧ q.phase = .terminal r := by
  obtain ⟨q, hq, hph, _⟩ := run_keep p es (by simp [inert, hp]) (by simp [hp]) (by simp [hp])
    (Or.inr (by simp [hp]))
  exact ⟨q, hq, hph.trans hp⟩

/-! ## Sequences of events -/

theorem step_elapse (p : ngap_handover_preparation_procedure) (dt : Nat) :
    p.step (.elapse dt) = p.elapse dt := rfl

theorem run_cons_eq (p q : ngap_handover_preparation_procedure) (e : procedure_event)
    (es : List procedure_event) (out : List procedure_action) (h : p.step e = (q, out)) :
    p.run (e :: es) = ((q.run es).1, out ++ (q.run es).2) := by
  simp [run, h]

theorem run_append (p : ngap_handover_preparation_procedure) (a b : List procedure_event) :
    p.run (a ++ b) = (((p.run a).1.run b).1, (p.run a).2 ++ ((p.run a).1.run b).2) := by
  induction a generalizing p with
  | nil => simp [run]
  | cons e a ih => simp [run, ih, List.append_assoc]

theorem elapse_add (p : ngap_handover_preparation_procedure) (a b : Nat) :
    p.elapse (a + b) =
      (((p.elapse a).1.elapse b).1, (p.elapse a).2 ++ ((p.elapse a).1.elapse b).2) := by
  induction a generalizing p with
  | zero => simp [elapse]
  | succ a ih =>
    rw [Nat.succ_add]
    simp [elapse, ih, List.append_assoc]

theorem run_elapses (p : ngap_handover_preparation_procedure) (dts : List Nat) :
    p.run (dts.map procedure_event.elapse) = p.elapse dts.sum := by
  induction dts generalizing p with
  | nil => rfl
  | cons d dts ih =>
    simp only [List.map_cons, List.sum_cons, elapse_add, run, ih]
    rfl

/-- The launch of a procedure and the gathering of its context bring it to the phase
in which it awaits the peer response, with a fresh transaction and timer. -/
theorem start_spec (task cms : Nat) (c : transaction_correlator) (ts : timer_service)
    (hb : ts.bounded) :
    ((create task cms c ts).run [.launch, .context_gathered]).1.awaiting ts.next_handle
      c.next_id (ts.now + tng_reloc_prep_ms) ∧
    ((create task cms c ts).run [.launch, .context_gathered]).2 =
      [.get_required_handover_context, .send_handover_required] ∧
    ((create task cms c ts).run [.launch, .context_gathered]).1.timers.now = ts.now ∧
    ((create task cms c ts).run [.launch, .context_gathered]).1.ev_mng.next_id =
      c.next_id + 1 ∧
    ((create task cms c ts).run [.launch, .context_gathered]).1.ho_cancel_ms = cms := by
  have hs := send_request_spec { create task cms c ts with phase := .awaiting_context } hb
  exact ⟨hs.1, rfl, rfl, rfl, rfl⟩

end ngap_handover_preparation_procedure

open ngap_handover_preparation_procedure

/-- C6: in every handover preparation in which no response arrives before the
preparation deadline, the expiry of the deadline makes the procedure send one
handover-cancel message and await the acknowledgment on a second transaction,
distinct from the first, which is no longer pending; when the handover-cancel
acknowledgment arrives on it before the cancel deadline, the procedure completes with
a failure result. -/
theorem timeout_cancels_then_fails (task cms : Nat) (c : transaction_correlator)
    (ts : timer_service) (dt : Nat) (payload : byte_buffer) (later : List procedure_event)
    (hb : ts.bounded) (hdt : dt < cms) :
    ((create task cms c ts).run
      [.launch, .context_gathered, .elapse tng_reloc_prep_ms]).1.phase = .cancelling ∧
    ((create task cms c ts).run
      [.launch, .context_gathered, .elapse tng_reloc_prep_ms]).2 =
      [.get_required_handover_context, .send_handover_required, .send_handover_cancel] ∧
    ((create task cms c ts).run
      [.launch, .context_gathered, .elapse tng_reloc_prep_ms]).1.transaction_sink =
      some c.next_id ∧
    ((create task cms c ts).run
      [.launch, .context_gathered, .elapse tng_reloc_prep_ms]).1.ho_cancel_transaction_sink =
      some (c.next_id + 1) ∧
    ((create task cms c ts).run
      [.launch, .context_gathered, .elapse tng_reloc_prep_ms]).1.ev_mng.is_pending
      c.next_id = false ∧
    (((create task cms c ts).run
      [.launch, .context_gathered, .elapse tng_reloc_prep_ms]).1.ev_mng.find
      (c.next_id + 1)).map (fun t => t.expected) = some [.ho_cancel_ack] ∧
    ((create task cms c ts).run
      ([.launch, .context_gathered, .elapse tng_reloc_prep_ms, .elapse dt,
        .deliver (c.next_id + 1) ⟨.ho_cancel_ack, payload⟩] ++ later)).1.phase =
      .terminal .failure ∧
    ((create task cms c ts).run
      ([.launch, .context_gathered, .elapse tng_reloc_prep_ms, .elapse dt,
        .deliver (c.next_id + 1) ⟨.ho_cancel_ack, payload⟩] ++ later)).2 =
      [.get_required_handover_context, .send_handover_required, .send_handover_cancel] := by
  obtain ⟨ha, hout, hnow, hid, hms⟩ := start_spec task cms c ts hb
  obtain ⟨q, ch, hq, hc, hnowq, hsink, hpend⟩ :=
    elapse_until_cancelling _ _ _ _ tng_reloc_prep_ms ha (by rw [hnow])
      (by unfold tng_reloc_prep_ms; omega)
  rw [hid, hms] at hc
  rw [hid] at hpend
  rw [← step_elapse] at hq
  have hrun1 : (create task cms c ts).run
      [.launch, .context_gathered, .elapse tng_reloc_prep_ms] =
      (q, [.get_required_handover_context, .send_handover_required,
           .send_handover_cancel]) := by
    have := run_append (create task cms c ts) [.launch, .context_gathered]
      [.elapse tng_reloc_prep_ms]
    simp only [List.cons_append, List.nil_append] at this
    rw [this, hout, run_cons_eq _ q _ [] _ hq]
    rfl
  obtain ⟨q2, hq2, hc2, _⟩ := elapse_cancelling_quiet q ch _ _ dt hc (by omega)
  rw [← step_elapse] at hq2
  obtain ⟨q3, hq3, hph3⟩ := deliver_cancel_ack q2 ch _ _ ⟨.ho_cancel_ack, payload⟩ hc2 rfl
  obtain ⟨q4, hq4, hph4⟩ := run_terminal q3 later _ hph3
  have hrun2 : (create task cms c ts).run
      ([.launch, .context_gathered, .elapse tng_reloc_prep_ms, .elapse dt,
        .deliver (c.next_id + 1) ⟨.ho_cancel_ack, payload⟩] ++ later) =
      (q4, [.get_required_handover_context, .send_handover_required,
            .send_handover_cancel]) := by
    have := run_append (create task cms c ts)
      [.launch, .context_gathered, .elapse tng_reloc_prep_ms]
      ([.elapse dt, .deliver (c.next_id + 1) ⟨.ho_cancel_ack, payload⟩] ++ later)
    simp only [List.cons_append, List.nil_append] at this ⊢
    rw [this, hrun1]
    simp only
    rw [run_cons_eq q q2 _ _ [] hq2, run_cons_eq q2 q3 _ _ [] hq3, hq4]
    rfl
  refine ⟨?_, ?_, ?_, ?_, ?_, ?_, ?_, ?_⟩
  · rw [hrun1]; exact hc.phase
  · rw [hrun1]
  · rw [hrun1]; exact hsink
  · rw [hrun1]; exact hc.sink
  · rw [hrun1]; exact hpend (by omega)
  · rw [hrun1, hc.pending]; rfl
  · rw [hrun2]; exact hph4
  · rw [hrun2]

/-- Witness of C6: with a cancel deadline of 3 ms, the acknowledgment that arrives
2 ms after the handover cancel ends the procedure with failure. -/
theorem timeout_cancels_then_fails_witness :
    timer_service.init.bounded ∧ 2 < 3 ∧
    ((create 7 3 transaction_correlator.init timer_service.init).run
      ([.launch, .context_gathered, .elapse tng_reloc_prep_ms, .elapse 2,
        .deliver (transaction_correlator.init.next_id + 1) ⟨.ho_cancel_ack, []⟩] ++ [])).1.phase
      = .terminal .failure :=
  ⟨timer_init_wf.1, by decide,
   (timeout_cancels_then_fails 7 3 transaction_correlator.init timer_service.init 2 [] []
      timer_init_wf.1 (by decide)).2.2.2.2.2.2.1⟩

/-- C7: in every handover preparation in which the peer answers the transaction of
the procedure with a handover preparation failure before the preparation deadline,
the procedure completes with a failure result, and neither then nor on any later
event does it send a handover-cancel message. -/
theorem rejection_fails_without_cancel (task cms : Nat) (c : transaction_correlator)
    (ts : timer_service) (dt : Nat) (payload : byte_buffer) (later : List procedure_event)
    (hb : ts.bounded) (hdt : dt < tng_reloc_prep_ms) :
    ((create task cms c ts).run [.launch, .context_gathered]).1.transaction_sink =
      some c.next_id ∧
    ((create task cms c ts).run
      ([.launch, .context_gathered, .elapse dt,
        .deliver c.next_id ⟨.ho_prep_fail, payload⟩] ++ later)).1.phase =
      .terminal .failure ∧
    ((create task cms c ts).run
      ([.launch, .context_gathered, .elapse dt,
        .deliver c.next_id ⟨.ho_prep_fail, payload⟩] ++ later)).2 =
      [.get_required_handover_context, .send_handover_required] ∧
    procedure_action.send_handover_cancel ∉ ((create task cms c ts).run
      ([.launch, .context_gathered, .elapse dt,
        .deliver c.next_id ⟨.ho_prep_fail, payload⟩] ++ later)).2 := by
  obtain ⟨ha, hout, hnow, _, _⟩ := start_spec task cms c ts hb
  obtain ⟨q, hq, haq, _, _, _⟩ := elapse_awaiting_quiet _ _ _ _ dt ha (by rw [hnow]; omega)
  rw [← step_elapse] at hq
  obtain ⟨q2, hq2, hph2⟩ := deliver_reject q _ _ _ ⟨.ho_prep_fail, payload⟩ haq rfl
  obtain ⟨q3, hq3, hph3⟩ := run_terminal q2 later _ hph2
  have hrun : (create task cms c ts).run
      ([.launch, .context_gathered, .elapse dt,
        .deliver c.next_id ⟨.ho_prep_fail, payload⟩] ++ later) =
      (q3, [.get_required_handover_context, .send_handover_required]) := by
    have := run_append (create task cms c ts) [.launch, .context_gathered]
      ([.elapse dt, .deliver c.next_id ⟨.ho_prep_fail, payload⟩] ++ later)
    simp only [List.cons_append, List.nil_append] at this ⊢
    rw [this, hout, run_cons_eq _ q _ _ [] hq, run_cons_eq q q2 _ _ [] hq2, hq3]
    rfl
  refine ⟨ha.sink, ?_, ?_, ?_⟩
  · rw [hrun]; exact hph3
  · rw [hrun]
  · rw [hrun]; simp

/-- Witness of C7: a rejection delivered 400 ms after the request ends the procedure
with failure. -/
theorem rejection_fails_without_cancel_witness :
    timer_service.init.bounded ∧ 400 < tng_reloc_prep_ms ∧
    ((create 7 3 transaction_correlator.init timer_service.init).run
      ([.launch, .context_gathered, .elapse 400,
        .deliver transaction_correlator.init.next_id ⟨.ho_prep_fail, [9]⟩] ++ [])).1.phase =
      .terminal .failure :=
  ⟨timer_init_wf.1, by simp [tng_reloc_prep_ms],
   (rejection_fails_without_cancel 7 3 transaction_correlator.init timer_service.init 400
      [9] [] timer_init_wf.1 (by simp [tng_reloc_prep_ms])).2.1⟩

/-- C8: in every handover preparation in which the peer answers the transaction of
the procedure with a handover command before the preparation deadline and the local
RRC subsystem then acknowledges the forwarded reconfiguration, the procedure forwards
the container of the command to the RRC subsystem and completes with a success
result that carries that container, and neither then nor on any later event does it
send a handover-cancel message. -/
theorem acceptance_succeeds_with_container (task cms : Nat) (c : transaction_correlator)
    (ts : timer_service) (dt : Nat) (container : byte_buffer)
    (mid later : List procedure_event)
    (hb : ts.bounded) (hdt : dt < tng_reloc_prep_ms)
    (hmid : ∀ e ∈ mid, e.is_rrc_result = false) :
    ((create task cms c ts).run
      ([.launch, .context_gathered, .elapse dt, .deliver c.next_id ⟨.ho_cmd, container⟩] ++
        mid ++ [.rrc_reconfig_result true] ++ later)).1.phase =
      .terminal (.success container) ∧
    ((create task cms c ts).run
      ([.launch, .context_gathered, .elapse dt, .deliver c.next_id ⟨.ho_cmd, container⟩] ++
        mid ++ [.rrc_reconfig_result true] ++ later)).2 =
      [.get_required_handover_context, .send_handover_required,
       .on_new_rrc_handover_command container] ∧
    procedure_action.send_handover_cancel ∉ ((create task cms c ts).run
      ([.launch, .context_gathered, .elapse dt, .deliver c.next_id ⟨.ho_cmd, container⟩] ++
        mid ++ [.rrc_reconfig_result true] ++ later)).2 := by
  obtain ⟨ha, hout, hnow, _, _⟩ := start_spec task cms c ts hb
  obtain ⟨q, hq, haq, _, _, _⟩ := elapse_awaiting_quiet _ _ _ _ dt ha (by rw [hnow]; omega)
  rw [← step_elapse] at hq
  obtain ⟨q2, hq2, hph2, hpdu2⟩ := deliver_accept q _ _ _ ⟨.ho_cmd, container⟩ haq rfl
  obtain ⟨q3, hq3, hph3, hpdu3⟩ := run_keep q2 mid (by simp [inert, hph2]) (by simp [hph2])
    (by simp [hph2]) (Or.inl hmid)
  have hq4 : q3.step (.rrc_reconfig_result true) =
      ({ q3 with phase := .terminal (.success container), rrc_reconfig_success := true },
        []) := by
    simp [step, hph3.trans hph2, hpdu3.trans hpdu2]
  obtain ⟨q5, hq5, hph5⟩ := run_terminal
    { q3 with phase := .terminal (.success container), rrc_reconfig_success := true } later
    _ rfl
  have hrun : (create task cms c ts).run
      ([.launch, .context_gathered, .elapse dt, .deliver c.next_id ⟨.ho_cmd, container⟩] ++
        mid ++ [.rrc_reconfig_result true] ++ later) =
      (q5, [.get_required_handover_context, .send_handover_required,
            .on_new_rrc_handover_command container]) := by
    have h1 := run_append (create task cms c ts) [.launch, .context_gathered]
      ([.elapse dt, .deliver c.next_id ⟨.ho_cmd, container⟩] ++
        (mid ++ ([.rrc_reconfig_result true] ++ later)))
    have h2 := run_append q2 mid ([.rrc_reconfig_result true] ++ later)
    simp only [List.cons_append, List.nil_append, List.append_assoc] at h1 h2 ⊢
    rw [h1, hout, run_cons_eq _ q _ _ [] hq, run_cons_eq q q2 _ _ _ hq2, h2, hq3,
      run_cons_eq q3 _ _ _ [] hq4, hq5]
    rfl
  refine ⟨?_, ?_, ?_⟩
  · rw [hrun]; exact hph5
  · rw [hrun]
  · rw [hrun]; simp

/-- Witness of C8: a handover command with container 1, 2 delivered after 400 ms and
acknowledged by the RRC subsystem gives success with container 1, 2. -/
theorem acceptance_succeeds_with_container_witness :
    timer_service.init.bounded ∧ 400 < tng_reloc_prep_ms ∧
    ((create 7 3 transaction_correlator.init timer_service.init).run
      ([.launch, .context_gathered, .elapse 400,
        .deliver transaction_correlator.init.next_id ⟨.ho_cmd, [1, 2]⟩] ++
        [.elapse 5] ++ [.rrc_reconfig_result true] ++ [])).1.phase =
      .terminal (.success [1, 2]) :=
  ⟨timer_init_wf.1, by simp [tng_reloc_prep_ms],
   (acceptance_succeeds_with_container 7 3 transaction_correlator.init timer_service.init
      400 [1, 2] [.elapse 5] [] timer_init_wf.1 (by simp [tng_reloc_prep_ms])
      (by simp [procedure_event.is_rrc_result])).1⟩

/-- C9: in every handover preparation in which only time passes, with no response
before the preparation deadline and no handover-cancel acknowledgment within the
bounded cancel deadline, the procedure has reached its terminal state with a failure
result once both deadlines have elapsed, having sent the handover cancel and logged
the anomaly, and it stays there on every later event. -/
theorem double_timeout_terminates (task cms : Nat) (c : transaction_correlator)
    (ts : timer_service) (dts : List Nat) (later : List procedure_event)
    (hb : ts.bounded) (hsum : tng_reloc_prep_ms + max 1 cms ≤ dts.sum) :
    ((create task cms c ts).run
      ([.launch, .context_gathered] ++ dts.map procedure_event.elapse ++ later)).1.phase =
      .terminal .failure ∧
    ((create task cms c ts).run
      ([.launch, .context_gathered] ++ dts.map procedure_event.elapse ++ later)).2 =
      [.get_required_handover_context, .send_handover_required, .send_handover_cancel,
       .log_anomaly] := by
  obtain ⟨ha, hout, hnow, _, hms⟩ := start_spec task cms c ts hb
  obtain ⟨q, hq, hph⟩ := elapse_both_deadlines _ _ _ _ dts.sum ha
    (by rw [hnow]; unfold tng_reloc_prep_ms; omega) (by rw [hnow, hms]; omega)
  rw [← run_elapses] at hq
  obtain ⟨q2, hq2, hph2⟩ := run_terminal q later _ hph
  have hrun : (create task cms c ts).run
      ([.launch, .context_gathered] ++ dts.map procedure_event.elapse ++ later) =
      (q2, [.get_required_handover_context, .send_handover_required,
            .send_handover_cancel, .log_anomaly]) := by
    rw [List.append_assoc, run_append, hout, run_append, hq, hq2]
    rfl
  exact ⟨by rw [hrun]; exact hph2, by rw [hrun]⟩

/-- Witness of C9: with a cancel deadline of 3 ms, 1003 ms without any message end the
procedure with failure. -/
theorem double_timeout_terminates_witness :
    timer_service.init.bounded ∧ tng_reloc_prep_ms + max 1 3 ≤ [1000, 3].sum ∧
    ((create 7 3 transaction_correlator.init timer_service.init).run
      ([.launch, .context_gathered] ++ [1000, 3].map procedure_event.elapse ++ [])).1.phase =
      .terminal .failure :=
  ⟨timer_init_wf.1, by simp [tng_reloc_prep_ms],
   (double_timeout_terminates 7 3 transaction_correlator.init timer_service.init [1000, 3] []
      timer_init_wf.1 (by simp [tng_reloc_prep_ms])).1⟩

end srsran

namespace srsran

namespace srs_du

/-! ## Lemmas on the loops of the generator -/

theorem pushes_emplace_back {β : Type} (n : Nat) (x : β) : pushes n (emplace_back x) [x] := by
  intro l hl
  have h : n - l.length = (n - l.length - 1) + 1 := by omega
  rw [h]
  simp [emplace_back]

theorem pushes_length_le {β : Type} (n : Nat) (l c : List β) (hl : l.length < n) :
    (l ++ c.take (n - l.length)).length ≤ n := by
  simp only [List.length_append, List.length_take]
  omega

theorem pushes_seq_break {β : Type} (n : Nat) (b1 b2 : List β → List β) (c1 c2 : List β)
    (h1 : pushes n b1 c1) (h2 : pushes n b2 c2) :
    pushes n (seq_break n b1 b2) (c1 ++ c2) := by
  intro l hl
  simp only [seq_break, h1 l hl]
  have hlen : (l ++ c1.take (n - l.length)).length = l.length + min (n - l.length) c1.length := by
    simp [List.length_append, List.length_take]
  by_cases hfull : (l ++ c1.take (n - l.length)).length = n
  · rw [if_pos hfull]
    have hle : n - l.length ≤ c1.length := by
      rw [hlen] at hfull
      omega
    rw [List.take_append_of_le_length hle]
  · rw [if_neg hfull]
    have hlt : c1.length < n - l.length := by
      rw [hlen] at hfull
      omega
    have htake : c1.take (n - l.length) = c1 := List.take_of_length_le (by omega)
    rw [htake] at hlen ⊢
    have hl2 : (l ++ c1).length < n := by
      simp only [List.length_append]
      omega
    rw [h2 (l ++ c1) hl2, List.take_append_eq_append_take, htake, List.append_assoc]
    simp only [List.length_append]
    congr 3
    omega

theorem pushes_for_break {β : Type} (n : Nat) (body : Nat → List β → List β)
    (c : Nat → List β) (h : ∀ i, pushes n (body i) (c i)) (start count : Nat) :
    pushes n (for_break n body start count) (candidates c start count) := by
  induction count generalizing start with
  | zero =>
    intro l _
    simp [for_break, candidates]
  | succ count ih =>
    intro l hl
    simp only [for_break, candidates, h start l hl]
    have hlen : (l ++ (c start).take (n - l.length)).length =
        l.length + min (n - l.length) (c start).length := by
      simp [List.length_append, List.length_take]
    by_cases hfull : (l ++ (c start).take (n - l.length)).length = n
    · rw [if_pos hfull]
      have hle : n - l.length ≤ (c start).length := by
        rw [hlen] at hfull
        omega
      rw [List.take_append_of_le_length hle]
    · rw [if_neg hfull]
      have hlt : (c start).length < n - l.length := by
        rw [hlen] at hfull
        omega
      have htake : (c start).take (n - l.length) = c start :=
        List.take_of_length_le (by omega)
      rw [htake] at hlen ⊢
      have hl2 : (l ++ c start).length < n := by
        simp only [List.length_append]
        omega
      rw [ih (start + 1) (l ++ c start) hl2, List.take_append_eq_append_take, htake,
        List.append_assoc]
      simp only [List.length_append]
      congr 3
      omega

theorem pushes_sym_loop {β : Type} (n s m : Nat) (body : interval → List β → List β)
    (c : interval → List β) (h : ∀ symbols, pushes n (body symbols) (c symbols)) :
    pushes n (sym_loop n s m body) (sym_candidates s m c) := by
  unfold sym_loop sym_candidates
  exact pushes_for_break n _ _ (fun i => h _) 0 _

theorem pushes_occ_cs_loop (n nof_occ_css : Nat) (symbols prbs : interval)
    (hop : Option interval) :
    pushes n (occ_cs_loop n nof_occ_css symbols prbs hop)
      (occ_cs_candidates nof_occ_css symbols prbs hop) := by
  unfold occ_cs_loop occ_cs_candidates
  exact pushes_for_break n _ _ (fun i => pushes_emplace_back n _) 0 _

theorem pushes_nil {β : Type} (n : Nat) (body : List β → List β) (c : List β)
    (h : pushes n body c) (hn : 0 < n) : body [] = c.take n := by
  have := h [] (by simpa using hn)
  simpa using this

/-- Over a request of at least one resource, `compute_f0_res` returns the first
`nof_res_f0` grants in the order of its loops. -/
theorem compute_f0_res_eq_take (n : Nat) (params : pucch_f0_params) (bwp max_syms : Nat)
    (hn : 0 < n) :
    compute_f0_res n params bwp max_syms = (f0_candidates params bwp max_syms).take n := by
  unfold compute_f0_res f0_candidates
  by_cases hop : params.intraslot_freq_hopping = true
  · simp only [hop, if_true]
    refine pushes_nil n _ _ (pushes_for_break n _ _ (fun rb => ?_) 0 _) hn
    exact pushes_sym_loop n _ _ _ _
      (fun symbols => pushes_seq_break n _ _ _ _ (pushes_emplace_back n _)
        (pushes_emplace_back n _))
  · simp only [hop, Bool.false_eq_true, if_false]
    refine pushes_nil n _ _ (pushes_for_break n _ _ (fun rb => ?_) 0 _) hn
    exact pushes_seq_break n _ _ _ _
      (pushes_sym_loop n _ _ _ _ (fun symbols => pushes_emplace_back n _))
      (pushes_sym_loop n _ _ _ _ (fun symbols => pushes_emplace_back n _))

/-- Over a request of at least one resource, `compute_f1_res` returns the first
`nof_res_f1` grants in the order of its loops. -/
theorem compute_f1_res_eq_take (n : Nat) (params : pucch_f1_params)
    (bwp nof_occ_css max_syms : Nat) (hn : 0 < n) :
    compute_f1_res n params bwp nof_occ_css max_syms =
      (f1_candidates params bwp nof_occ_css max_syms).take n := by
  unfold compute_f1_res f1_candidates
  by_cases hop : params.intraslot_freq_hopping = true
  · simp only [hop, if_true]
    refine pushes_nil n _ _ (pushes_for_break n _ _ (fun rb => ?_) 0 _) hn
    exact pushes_sym_loop n _ _ _ _
      (fun symbols => pushes_seq_break n _ _ _ _ (pushes_occ_cs_loop n _ _ _ _)
        (pushes_occ_cs_loop n _ _ _ _))
  · simp only [hop, Bool.false_eq_true, if_false]
    refine pushes_nil n _ _ (pushes_for_break n _ _ (fun rb => ?_) 0 _) hn
    exact pushes_seq_break n _ _ _ _
      (pushes_sym_loop n _ _ _ _ (fun symbols => pushes_occ_cs_loop n _ _ _ _))
      (pushes_sym_loop n _ _ _ _ (fun symbols => pushes_occ_cs_loop n _ _ _ _))

/-- Over a request of at least one resource and within the limit of 16 PRBs,
`compute_f2_res` returns the first `nof_res_f2` grants in the order of its loops. -/
theorem compute_f2_res_eq_take (get : Nat → Nat → Nat → Nat) (n : Nat)
    (params : pucch_f2_params) (bwp max_syms : Nat) (hn : 0 < n)
    (hm : f2_max_rbs get params ≤ FORMAT2_MAX_NPRB) :
    compute_f2_res get n params bwp max_syms =
      (f2_candidates params (f2_max_rbs get params) bwp max_syms).take n := by
  unfold compute_f2_res f2_candidates
  have hm2 : ¬ f2_max_rbs get params > FORMAT2_MAX_NPRB := by omega
  simp only [hm2, if_false]
  by_cases hop : params.intraslot_freq_hopping = true
  · simp only [hop, if_true]
    refine pushes_nil n _ _ (pushes_for_break n _ _ (fun rb => ?_) 0 _) hn
    exact pushes_sym_loop n _ _ _ _
      (fun symbols => pushes_seq_break n _ _ _ _ (pushes_emplace_back n _)
        (pushes_emplace_back n _))
  · simp only [hop, Bool.false_eq_true, if_false]
    refine pushes_nil n _ _ (pushes_for_break n _ _ (fun rb => ?_) 0 _) hn
    exact pushes_seq_break n _ _ _ _
      (pushes_sym_loop n _ _ _ _ (fun symbols => pushes_emplace_back n _))
      (pushes_sym_loop n _ _ _ _ (fun symbols => pushes_emplace_back n _))

/-! ## Lemmas on the merge of the grants -/

theorem cell_ids_in_order_nil : cell_ids_in_order [] := by
  simp [cell_ids_in_order]

theorem cell_ids_in_order_append (l : List pucch_resource) (r : pucch_resource)
    (hl : cell_ids_in_order l) (hr : r.res_id = { cell_res_id := l.length, ue_res_id := 0 }) :
    cell_ids_in_order (l ++ [r]) := by
  unfold cell_ids_in_order at hl ⊢
  simp [List.range_succ, hl, hr]

theorem cell_ids_in_order_get (l : List pucch_resource) (hl : cell_ids_in_order l)
    (k : Nat) (r : pucch_resource) (hk : l[k]? = some r) :
    r.res_id.cell_res_id = k ∧ r.res_id.ue_res_id = 0 := by
  unfold cell_ids_in_order at hl
  have h1 : (l.map (fun r => r.res_id))[k]? = some r.res_id := by
    simp [hk]
  rw [hl] at h1
  have hlt : k < l.length := by
    by_contra hge
    rw [List.getElem?_eq_none (by omega)] at hk
    cases hk
  simp [hlt] at h1
  rw [← h1]
  exact ⟨rfl, rfl⟩

/-- An invariant of the body of a loop holds after the loop. -/
theorem for_each_or_return_inv {α σ : Type} (body : α → σ → Option σ) (I : σ → Prop)
    (hstep : ∀ x st st2, body x st = some st2 → I st → I st2) (xs : List α) (st st2 : σ)
    (h : for_each_or_return body xs st = some st2) (hi : I st) : I st2 := by
  induction xs generalizing st with
  | nil =>
    simp only [for_each_or_return, Option.some.injEq] at h
    exact h ▸ hi
  | cons x xs ih =>
    simp only [for_each_or_return] at h
    cases hb : body x st with
    | none => simp [hb] at h
    | some s1 =>
      simp only [hb] at h
      exact ih s1 h (hstep x st s1 hb hi)

/-- A loop whose body appends one element to a list of the state appends one element
per iteration. -/
theorem for_each_or_return_appends {α σ β : Type} (body : α → σ → Option σ)
    (proj : σ → List β) (P : β → Prop)
    (hstep : ∀ x st st2, body x st = some st2 → ∃ r, proj st2 = proj st ++ [r] ∧ P r)
    (xs : List α) (st st2 : σ) (h : for_each_or_return body xs st = some st2) :
    ∃ added, proj st2 = proj st ++ added ∧ added.length = xs.length ∧ ∀ r ∈ added, P r := by
  induction xs generalizing st with
  | nil =>
    simp only [for_each_or_return, Option.some.injEq] at h
    subst h
    exact ⟨[], by simp, rfl, by simp⟩
  | cons x xs ih =>
    simp only [for_each_or_return] at h
    cases hb : body x st with
    | none => simp [hb] at h
    | some s1 =>
      simp only [hb] at h
      obtain ⟨r, e1, p1⟩ := hstep x st s1 hb
      obtain ⟨added, e2, n2, p2⟩ := ih s1 h
      refine ⟨r :: added, ?_, by simp [n2], ?_⟩
      · rw [e2, e1, List.append_assoc]
        rfl
      · intro y hy
        rcases List.mem_cons.1 hy with rfl | hy
        · exact p1
        · exact p2 y hy

/-- A loop whose body returns from the function on no element of the list runs to its
end. -/
theorem for_each_or_return_some {α σ : Type} (body : α → σ → Option σ) (xs : List α)
    (hstep : ∀ x ∈ xs, ∀ st, ∃ st2, body x st = some st2) (st : σ) :
    ∃ st2, for_each_or_return body xs st = some st2 := by
  induction xs generalizing st with
  | nil => exact ⟨st, rfl⟩
  | cons x xs ih =>
    obtain ⟨s1, hb⟩ := hstep x (List.mem_cons_self _ _) st
    simp only [for_each_or_return, hb]
    exact ih (fun y hy => hstep y (List.mem_cons_of_mem _ hy)) s1

/-- The body of the loop over the Format 0 grants appends one Format 0 resource whose
cell resource ID is the length of the list. -/
theorem merge_f0_step_spec (bwp : Nat) (g : pucch_grant) (st st2 : List pucch_resource × Nat × Nat)
    (h : merge_f0_step bwp g st = some st2) :
    ∃ r, st2.1 = st.1 ++ [r] ∧
      (r.format = .FORMAT_0 ∧ r.res_id = { cell_res_id := st.1.length, ue_res_id := 0 }) := by
  unfold merge_f0_step at h
  cases hu : update_occupancy bwp g st.2.1 st.2.2 with
  | none => simp [hu] at h
  | some occ =>
    simp only [hu, Option.some.injEq] at h
    subst h
    exact ⟨_, rfl, rfl, rfl⟩

/-- The body of the loop over the Format 1 grants appends one Format 1 resource whose
cell resource ID is the length of the list. -/
theorem merge_f1_step_spec (cs bwp : Nat) (g : pucch_grant)
    (st st2 : List pucch_resource × Nat × Nat) (h : merge_f1_step cs bwp g st = some st2) :
    ∃ r, st2.1 = st.1 ++ [r] ∧
      (r.format = .FORMAT_1 ∧ r.res_id = { cell_res_id := st.1.length, ue_res_id := 0 }) := by
  unfold merge_f1_step at h
  cases hu : update_occupancy bwp g st.2.1 st.2.2 with
  | none => simp [hu] at h
  | some occ =>
    cases ho : g.occ_cs_idx with
    | none => simp [hu, ho] at h
    | some idx =>
      simp only [hu, ho, Option.some.injEq] at h
      subst h
      exact ⟨_, rfl, rfl, rfl⟩

/-- The body of the loop over the Format 2 grants appends one Format 2 resource whose
cell resource ID is the length of the list. -/
theorem merge_f2_step_spec (bwp low hi : Nat) (g : pucch_grant)
    (l l2 : List pucch_resource) (h : merge_f2_step bwp low hi g l = some l2) :
    ∃ r, l2 = l ++ [r] ∧
      (r.format = .FORMAT_2 ∧ r.res_id = { cell_res_id := l.length, ue_res_id := 0 }) := by
  unfold merge_f2_step at h
  by_cases c1 : g.prbs.start < usub (bwp / 2) g.prbs.length
  · simp only [c1, if_true, Option.some.injEq] at h
    subst h
    exact ⟨_, rfl, rfl, rfl⟩
  · simp only [c1, if_false] at h
    by_cases c2 : g.prbs.start > bwp / 2
    · simp only [c2, if_true, Option.some.injEq] at h
      subst h
      exact ⟨_, rfl, rfl, rfl⟩
    · simp [c2] at h

/-- A successful loop over the Format 0 grants appends one Format 0 resource per
grant and keeps the cell resource IDs in order. -/
theorem merge_f0_loop_spec (bwp : Nat) (gs : List pucch_grant) (acc : List pucch_resource)
    (low hi : Nat) (res : List pucch_resource × Nat × Nat)
    (h : merge_f0_loop bwp gs (acc, low, hi) = some res) :
    ∃ added, res.1 = acc ++ added ∧ added.length = gs.length ∧
      (∀ r ∈ added, r.format = .FORMAT_0) ∧
      (cell_ids_in_order acc → cell_ids_in_order res.1) := by
  unfold merge_f0_loop at h
  obtain ⟨added, e, n, p⟩ := for_each_or_return_appends (merge_f0_step bwp) (fun st => st.1)
    (fun r => r.format = .FORMAT_0)
    (fun x st st2 hb => by
      obtain ⟨r, e, f, _⟩ := merge_f0_step_spec bwp x st st2 hb
      exact ⟨r, e, f⟩) gs _ _ h
  refine ⟨added, e, n, p, ?_⟩
  exact for_each_or_return_inv (merge_f0_step bwp) (fun st => cell_ids_in_order st.1)
    (fun x st st2 hb hi => by
      obtain ⟨r, e, _, i⟩ := merge_f0_step_spec bwp x st st2 hb
      rw [e]
      exact cell_ids_in_order_append _ _ hi i) gs _ _ h

/-- A successful loop over the Format 1 grants appends one Format 1 resource per
grant and keeps the cell resource IDs in order. -/
theorem merge_f1_loop_spec (cs bwp : Nat) (gs : List pucch_grant) (acc : List pucch_resource)
    (low hi : Nat) (res : List pucch_resource × Nat × Nat)
    (h : merge_f1_loop cs bwp gs (acc, low, hi) = some res) :
    ∃ added, res.1 = acc ++ added ∧ added.length = gs.length ∧
      (∀ r ∈ added, r.format = .FORMAT_1) ∧
      (cell_ids_in_order acc → cell_ids_in_order res.1) := by
  unfold merge_f1_loop at h
  obtain ⟨added, e, n, p⟩ := for_each_or_return_appends (merge_f1_step cs bwp)
    (fun st => st.1) (fun r => r.format = .FORMAT_1)
    (fun x st st2 hb => by
      obtain ⟨r, e, f, _⟩ := merge_f1_step_spec cs bwp x st st2 hb
      exact ⟨r, e, f⟩) gs _ _ h
  refine ⟨added, e, n, p, ?_⟩
  exact for_each_or_return_inv (merge_f1_step cs bwp) (fun st => cell_ids_in_order st.1)
    (fun x st st2 hb hi => by
      obtain ⟨r, e, _, i⟩ := merge_f1_step_spec cs bwp x st st2 hb
      rw [e]
      exact cell_ids_in_order_append _ _ hi i) gs _ _ h

/-- A successful loop over the Format 2 grants appends one Format 2 resource per
grant and keeps the cell resource IDs in order. -/
theorem merge_f2_loop_spec (bwp low hi : Nat) (gs : List pucch_grant)
    (acc res : List pucch_resource) (h : merge_f2_loop bwp low hi gs acc = some res) :
    ∃ added, res = acc ++ added ∧ added.length = gs.length ∧
      (∀ r ∈ added, r.format = .FORMAT_2) ∧
      (cell_ids_in_order acc → cell_ids_in_order res) := by
  unfold merge_f2_loop at h
  obtain ⟨added, e, n, p⟩ := for_each_or_return_appends (merge_f2_step bwp low hi)
    (fun l => l) (fun r => r.format = .FORMAT_2)
    (fun x st st2 hb => by
      obtain ⟨r, e, f, _⟩ := merge_f2_step_spec bwp low hi x st st2 hb
      exact ⟨r, e, f⟩) gs _ _ h
  refine ⟨added, e, n, p, ?_⟩
  exact for_each_or_return_inv (merge_f2_step bwp low hi) (fun l => cell_ids_in_order l)
    (fun x st st2 hb hinv => by
      obtain ⟨r, e, _, i⟩ := merge_f2_step_spec bwp low hi x st st2 hb
      rw [e]
      exact cell_ids_in_order_append _ _ hinv i) gs _ _ h

/-- The merged list is empty, or it holds one Format 0 or Format 1 resource per grant
of the first list followed by one Format 2 resource per grant of the second, with the
cell resource IDs in order. -/
theorem merge_spec (l1 l2 : List pucch_grant) (nof_cs : Option Nat) (bwp : Nat) :
    merge_f0_f1_f2_resource_lists l1 l2 nof_cs bwp = [] ∨
    ∃ r1 r2, merge_f0_f1_f2_resource_lists l1 l2 nof_cs bwp = r1 ++ r2 ∧
      r1.length = l1.length ∧ r2.length = l2.length ∧
      (∀ r ∈ r1, r.format = (if nof_cs.isNone then pucch_format.FORMAT_0 else .FORMAT_1)) ∧
      (∀ r ∈ r2, r.format = .FORMAT_2) ∧
      cell_ids_in_order (r1 ++ r2) := by
  unfold merge_f0_f1_f2_resource_lists
  cases nof_cs with
  | none =>
    simp only
    cases h1 : merge_f0_loop bwp l1 ([], 0, 0) with
    | none => exact Or.inl rfl
    | some st =>
      obtain ⟨rl, low, hi⟩ := st
      simp only
      obtain ⟨a1, e1, n1, f1, o1⟩ := merge_f0_loop_spec bwp l1 [] 0 0 _ h1
      simp only [List.nil_append] at e1
      cases h2 : merge_f2_loop bwp low hi l2 rl with
      | none => exact Or.inl rfl
      | some res =>
        obtain ⟨a2, e2, n2, f2, o2⟩ := merge_f2_loop_spec bwp low hi l2 rl res h2
        right
        refine ⟨a1, a2, ?_, n1, n2, ?_, f2, ?_⟩
        · simp only [e2, e1]
        · simpa using f1
        · rw [← e1, ← e2]
          exact o2 (o1 cell_ids_in_order_nil)
  | some cs =>
    simp only
    cases h1 : merge_f1_loop cs bwp l1 ([], 0, 0) with
    | none => exact Or.inl rfl
    | some st =>
      obtain ⟨rl, low, hi⟩ := st
      simp only
      obtain ⟨a1, e1, n1, f1, o1⟩ := merge_f1_loop_spec cs bwp l1 [] 0 0 _ h1
      simp only [List.nil_append] at e1
      cases h2 : merge_f2_loop bwp low hi l2 rl with
      | none => exact Or.inl rfl
      | some res =>
        obtain ⟨a2, e2, n2, f2, o2⟩ := merge_f2_loop_spec bwp low hi l2 rl res h2
        right
        refine ⟨a1, a2, ?_, n1, n2, ?_, f2, ?_⟩
        · simp only [e2, e1]
        · simpa using f1
        · rw [← e1, ← e2]
          exact o2 (o1 cell_ids_in_order_nil)

/-- The list that `generate_cell_pucch_res_list` returns splits into Format 0 or
Format 1 resources followed by Format 2 resources, with the cell resource IDs in
order. -/
theorem generate_shape (get : Nat → Nat → Nat → Nat) (max_res n1 n2 : Nat)
    (p01 : pucch_f0_f1_params) (p2 : pucch_f2_params) (bwp max_syms : Nat) :
    ∃ r1 r2, generate_cell_pucch_res_list get max_res n1 n2 p01 p2 bwp max_syms = r1 ++ r2 ∧
      (∀ r ∈ r1, r.format = .FORMAT_0 ∨ r.format = .FORMAT_1) ∧
      (∀ r ∈ r2, r.format = .FORMAT_2) ∧
      cell_ids_in_order (r1 ++ r2) := by
  have hnil : ∃ r1 r2 : List pucch_resource, ([] : List pucch_resource) = r1 ++ r2 ∧
      (∀ r ∈ r1, r.format = .FORMAT_0 ∨ r.format = .FORMAT_1) ∧
      (∀ r ∈ r2, r.format = .FORMAT_2) ∧ cell_ids_in_order (r1 ++ r2) :=
    ⟨[], [], rfl, by simp, by simp, cell_ids_in_order_nil⟩
  have key : ∀ (l1 l2 : List pucch_grant) (cs : Option Nat),
      ∃ r1 r2, (if (merge_f0_f1_f2_resource_lists l1 l2 cs bwp).length > max_res then []
          else merge_f0_f1_f2_resource_lists l1 l2 cs bwp) = r1 ++ r2 ∧
        (∀ r ∈ r1, r.format = .FORMAT_0 ∨ r.format = .FORMAT_1) ∧
        (∀ r ∈ r2, r.format = .FORMAT_2) ∧ cell_ids_in_order (r1 ++ r2) := by
    intro l1 l2 cs
    by_cases hlen : (merge_f0_f1_f2_resource_lists l1 l2 cs bwp).length > max_res
    · rw [if_pos hlen]
      exact hnil
    · rw [if_neg hlen]
      rcases merge_spec l1 l2 cs bwp with h | ⟨r1, r2, e, _, _, f1, f2, o⟩
      · rw [h]
        exact hnil
      · rw [e]
        refine ⟨r1, r2, rfl, ?_, f2, o⟩
        intro r hr
        have := f1 r hr
        split at this
        · exact Or.inl this
        · exact Or.inr this
  unfold generate_cell_pucch_res_list
  cases pucch_parameters_validator get n1 n2 p01 p2 bwp max_syms with
  | error e => exact hnil
  | ok u => exact key _ _ _

/-- In a list of Format 0 or Format 1 resources followed by Format 2 resources, none
of the first resources, as many as there are of Format 0 and Format 1, has Format
2. -/
theorem f2_among_first_of_shape (r1 r2 : List pucch_resource)
    (h1 : ∀ r ∈ r1, r.format = .FORMAT_0 ∨ r.format = .FORMAT_1)
    (h2 : ∀ r ∈ r2, r.format = .FORMAT_2) :
    f2_among_first (r1 ++ r2)
      (count_resources (r1 ++ r2) .FORMAT_0 + count_resources (r1 ++ r2) .FORMAT_1) = false := by
  have c0 : count_resources r2 .FORMAT_0 = 0 := by
    simp only [count_resources, List.countP_eq_zero]
    intro r hr
    simp [h2 r hr]
  have c1 : count_resources r2 .FORMAT_1 = 0 := by
    simp only [count_resources, List.countP_eq_zero]
    intro r hr
    simp [h2 r hr]
  have csum : count_resources r1 .FORMAT_0 + count_resources r1 .FORMAT_1 = r1.length := by
    clear h2 c0 c1
    induction r1 with
    | nil => simp [count_resources]
    | cons r rs ih =>
      have ih2 := ih (fun x hx => h1 x (List.mem_cons_of_mem _ hx))
      simp only [count_resources] at ih2 ⊢
      rcases h1 r (List.mem_cons_self _ _) with hf | hf
      · simp [List.countP_cons, hf]
        omega
      · simp [List.countP_cons, hf]
        omega
  have e0 : count_resources (r1 ++ r2) .FORMAT_0 = count_resources r1 .FORMAT_0 := by
    simp only [count_resources, List.countP_append] at c0 ⊢
    omega
  have e1 : count_resources (r1 ++ r2) .FORMAT_1 = count_resources r1 .FORMAT_1 := by
    simp only [count_resources, List.countP_append] at c1 ⊢
    omega
  rw [e0, e1, csum]
  simp only [f2_among_first, List.take_left', List.any_eq_false]
  intro r hr
  rcases h1 r hr with hf | hf <;> simp [hf]

/-! ## Claims on the generated cell resource list -/

/-- C13: in every list that `generate_cell_pucch_res_list` returns, the Format 0 and
Format 1 resources precede all Format 2 resources, the resource at position `k` has
`cell_res_id = k` and `ue_res_id = 0`, and the condition on which the validation of
the cell list by `ue_pucch_config_builder` reports that the F0/F1 resources must
precede all F2 resources (a Format 2 resource among the first resources, as many as
there are of Format 0 and Format 1) is false. -/
theorem generated_list_is_ordered (get : Nat → Nat → Nat → Nat) (max_res n1 n2 : Nat)
    (p01 : pucch_f0_f1_params) (p2 : pucch_f2_params) (bwp max_syms : Nat) :
    (∃ r1 r2, generate_cell_pucch_res_list get max_res n1 n2 p01 p2 bwp max_syms = r1 ++ r2 ∧
      (∀ r ∈ r1, r.format = .FORMAT_0 ∨ r.format = .FORMAT_1) ∧
      (∀ r ∈ r2, r.format = .FORMAT_2)) ∧
    (∀ (k : Nat) (r : pucch_resource),
      (generate_cell_pucch_res_list get max_res n1 n2 p01 p2 bwp max_syms)[k]? = some r →
      r.res_id.cell_res_id = k ∧ r.res_id.ue_res_id = 0) ∧
    f2_among_first (generate_cell_pucch_res_list get max_res n1 n2 p01 p2 bwp max_syms)
      (count_resources
          (generate_cell_pucch_res_list get max_res n1 n2 p01 p2 bwp max_syms) .FORMAT_0 +
        count_resources
          (generate_cell_pucch_res_list get max_res n1 n2 p01 p2 bwp max_syms) .FORMAT_1) =
      false := by
  obtain ⟨r1, r2, e, f1, f2, o⟩ := generate_shape get max_res n1 n2 p01 p2 bwp max_syms
  refine ⟨⟨r1, r2, e, f1, f2⟩, ?_, ?_⟩
  · intro k r hk
    rw [e] at hk
    exact cell_ids_in_order_get _ o k r hk
  · rw [e]
    exact f2_among_first_of_shape r1 r2 f1 f2

/-- Witness of C13: the list for three Format 1 and six Format 2 resources on 52 PRBs
holds nine resources, none of its first three of Format 2. -/
theorem generated_list_is_ordered_witness :
    f2_among_first
      (generate_cell_pucch_res_list (fun _ _ _ => 1) 128 3 6
        (.f1 { occ_supported := false, nof_cyc_shifts := 1, intraslot_freq_hopping := false,
               nof_symbols := 14 })
        { nof_symbols := 2, max_nof_rbs := 1, max_payload_bits := none, max_code_rate := 2,
          intraslot_freq_hopping := false } 52 14)
      (count_resources
          (generate_cell_pucch_res_list (fun _ _ _ => 1) 128 3 6
            (.f1 { occ_supported := false, nof_cyc_shifts := 1,
                   intraslot_freq_hopping := false, nof_symbols := 14 })
            { nof_symbols := 2, max_nof_rbs := 1, max_payload_bits := none,
              max_code_rate := 2, intraslot_freq_hopping := false } 52 14) .FORMAT_0 +
        count_resources
          (generate_cell_pucch_res_list (fun _ _ _ => 1) 128 3 6
            (.f1 { occ_supported := false, nof_cyc_shifts := 1,
                   intraslot_freq_hopping := false, nof_symbols := 14 })
            { nof_symbols := 2, max_nof_rbs := 1, max_payload_bits := none,
              max_code_rate := 2, intraslot_freq_hopping := false } 52 14) .FORMAT_1) =
      false ∧
    (generate_cell_pucch_res_list (fun _ _ _ => 1) 128 3 6
      (.f1 { occ_supported := false, nof_cyc_shifts := 1, intraslot_freq_hopping := false,
             nof_symbols := 14 })
      { nof_symbols := 2, max_nof_rbs := 1, max_payload_bits := none, max_code_rate := 2,
        intraslot_freq_hopping := false } 52 14).length = 9 :=
  ⟨(generated_list_is_ordered (fun _ _ _ => 1) 128 3 6
    (.f1 { occ_supported := false, nof_cyc_shifts := 1, intraslot_freq_hopping := false,
           nof_symbols := 14 })
    { nof_symbols := 2, max_nof_rbs := 1, max_payload_bits := none, max_code_rate := 2,
      intraslot_freq_hopping := false } 52 14).2.2, rfl⟩

/-- C19: `generate_cell_pucch_res_list` returns an empty list whenever
`pucch_parameters_validator` returns an error for the same arguments: on Format 0 or
Format 2 intra-slot hopping with one symbol, on a Format 2 resource of more than 16
PRBs, and on a PRB usage that reaches the limit. -/
theorem generate_empty_on_validator_error (get : Nat → Nat → Nat → Nat)
    (max_res n1 n2 : Nat) (p01 : pucch_f0_f1_params) (p2 : pucch_f2_params)
    (bwp max_syms : Nat) :
    (∀ e, pucch_parameters_validator get n1 n2 p01 p2 bwp max_syms = .error e →
      generate_cell_pucch_res_list get max_res n1 n2 p01 p2 bwp max_syms = []) ∧
    (∀ f0 : pucch_f0_params, p01 = .f0 f0 → f0.intraslot_freq_hopping = true →
      f0.nof_symbols = 1 →
      generate_cell_pucch_res_list get max_res n1 n2 p01 p2 bwp max_syms = []) ∧
    (p2.intraslot_freq_hopping = true → p2.nof_symbols = 1 →
      generate_cell_pucch_res_list get max_res n1 n2 p01 p2 bwp max_syms = []) ∧
    (f2_max_rbs get p2 > FORMAT2_MAX_NPRB →
      generate_cell_pucch_res_list get max_res n1 n2 p01 p2 bwp max_syms = []) ∧
    (∀ rbs, nof_f0_f1_rbs n1 p01 max_syms = .ok rbs →
      prb_usage_reaches_limit (uadd rbs (nof_f2_rbs get n2 p2 max_syms)) bwp = true →
      generate_cell_pucch_res_list get max_res n1 n2 p01 p2 bwp max_syms = []) := by
  have main : ∀ e, pucch_parameters_validator get n1 n2 p01 p2 bwp max_syms = .error e →
      generate_cell_pucch_res_list get max_res n1 n2 p01 p2 bwp max_syms = [] := by
    intro e he
    simp [generate_cell_pucch_res_list, he]
  have iserr : ∀ x : Except String Unit, (∀ u, x ≠ .ok u) → ∃ e, x = .error e := by
    intro x hx
    cases x with
    | error e => exact ⟨e, rfl⟩
    | ok u => exact absurd rfl (hx u)
  refine ⟨main, ?_, ?_, ?_, ?_⟩
  · intro f0 hp hh hs
    obtain ⟨e, he⟩ := iserr (pucch_parameters_validator get n1 n2 p01 p2 bwp max_syms) (by
      intro u
      simp [pucch_parameters_validator, nof_f0_f1_rbs, hp, hh, hs])
    exact main e he
  · intro hh hs
    obtain ⟨e, he⟩ := iserr (pucch_parameters_validator get n1 n2 p01 p2 bwp max_syms) (by
      intro u
      unfold pucch_parameters_validator
      cases nof_f0_f1_rbs n1 p01 max_syms with
      | error e => simp
      | ok r => simp [hh, hs])
    exact main e he
  · intro hm
    obtain ⟨e, he⟩ := iserr (pucch_parameters_validator get n1 n2 p01 p2 bwp max_syms) (by
      intro u
      unfold pucch_parameters_validator
      cases nof_f0_f1_rbs n1 p01 max_syms with
      | error e => simp
      | ok r =>
        simp only [hm, if_true]
        split <;> simp)
    exact main e he
  · intro rbs hr hu
    obtain ⟨e, he⟩ := iserr (pucch_parameters_validator get n1 n2 p01 p2 bwp max_syms) (by
      intro u
      unfold pucch_parameters_validator
      simp only [hr, hu, if_true]
      split
      · simp
      · split <;> simp)
    exact main e he

/-- Witness of C19: Format 2 with intra-slot hopping on one symbol gives an empty
list. -/
theorem generate_empty_on_validator_error_witness :
    generate_cell_pucch_res_list (fun _ _ _ => 1) 128 3 6
      (.f1 { occ_supported := false, nof_cyc_shifts := 1, intraslot_freq_hopping := false,
             nof_symbols := 14 })
      { nof_symbols := 1, max_nof_rbs := 1, max_payload_bits := none, max_code_rate := 2,
        intraslot_freq_hopping := true } 52 14 = [] :=
  (generate_empty_on_validator_error (fun _ _ _ => 1) 128 3 6
    (.f1 { occ_supported := false, nof_cyc_shifts := 1, intraslot_freq_hopping := false,
           nof_symbols := 14 })
    { nof_symbols := 1, max_nof_rbs := 1, max_payload_bits := none, max_code_rate := 2,
      intraslot_freq_hopping := true } 52 14).2.2.1 rfl rfl

/-! ## Evaluations of the validator and the builder -/

/-- C14: `pucch_parameters_validator` rejects a configuration whose PUCCH PRBs are
exactly 60% of the BWP PRBs, although its comment and its message speak of more than
60%: for 3 Format 1 and 21 Format 2 resources on a BWP of 10 PRBs the hopping checks
and the Format 2 PRB limit pass, the PUCCH needs 3 + 3 = 6 PRBs, and the result is the
error on the PRB usage. -/
theorem validator_rejects_exactly_sixty_percent (get : Nat → Nat → Nat → Nat) :
    nof_f0_f1_rbs 3
        (.f1 { occ_supported := false, nof_cyc_shifts := 1, intraslot_freq_hopping := false,
               nof_symbols := 14 }) 14 = .ok 3 ∧
    nof_f2_rbs get 21
        { nof_symbols := 2, max_nof_rbs := 1, max_payload_bits := none, max_code_rate := 2,
          intraslot_freq_hopping := false } 14 = 3 ∧
    (3 + 3) * 100 = 60 * 10 ∧
    pucch_parameters_validator get 3 21
        (.f1 { occ_supported := false, nof_cyc_shifts := 1, intraslot_freq_hopping := false,
               nof_symbols := 14 })
        { nof_symbols := 2, max_nof_rbs := 1, max_payload_bits := none, max_code_rate := 2,
          intraslot_freq_hopping := false } 10 14 =
      .error ("With the given parameters, the number of PRBs for PUCCH exceeds the 60% " ++
        "of the BWP PRBs") :=
  ⟨rfl, rfl, rfl, rfl⟩

/-- C16: `ue_pucch_config_builder` returns true although the UE requests more Format 1
resources than the cell list has. The cell list of the generator for two Format 1 and
two Format 2 resources holds 2 Format 1 resources; with one Format 1 resource for HARQ
and 3 for SR the request is for 1 + 3 = 4, the validation computes `2 - 3` on
`unsigned` values, which wraps to 4294967295, so it returns 2 and the builder
succeeds. The Format 2 parameters have no payload size, so that the helper for the
number of PRBs is not called. -/
theorem builder_accepts_sr_request_over_cell_resources :
    (generate_cell_pucch_res_list (fun _ _ _ => 1) 128 2 2
        (.f1 { occ_supported := false, nof_cyc_shifts := 1, intraslot_freq_hopping := false,
               nof_symbols := 14 })
        { nof_symbols := 2, max_nof_rbs := 1, max_payload_bits := none, max_code_rate := 2,
          intraslot_freq_hopping := false } 52 14).map (fun r => r.format) =
      [.FORMAT_1, .FORMAT_1, .FORMAT_2, .FORMAT_2] ∧
    2 < 1 + 3 ∧
    usub 2 3 = 4294967295 ∧
    cell_res_list_and_params_validator
      (generate_cell_pucch_res_list (fun _ _ _ => 1) 128 2 2
        (.f1 { occ_supported := false, nof_cyc_shifts := 1, intraslot_freq_hopping := false,
               nof_symbols := 14 })
        { nof_symbols := 2, max_nof_rbs := 1, max_payload_bits := none, max_code_rate := 2,
          intraslot_freq_hopping := false } 52 14) 1 1 1 3 0 = 2 ∧
    (ue_pucch_config_builder
      { pucch_cfg := some { pucch_res_set_0 := { pucch_res_set_id := 0, pucch_res_id_list := [] },
                            pucch_res_set_1 := { pucch_res_set_id := 1, pucch_res_id_list := [] },
                            pucch_res_list := [],
                            sr_res_list := [{ pucch_res_id := { cell_res_id := 0,
                                                                ue_res_id := 0 } }] },
        csi_meas_cfg := none }
      (generate_cell_pucch_res_list (fun _ _ _ => 1) 128 2 2
        (.f1 { occ_supported := false, nof_cyc_shifts := 1, intraslot_freq_hopping := false,
               nof_symbols := 14 })
        { nof_symbols := 2, max_nof_rbs := 1, max_payload_bits := none, max_code_rate := 2,
          intraslot_freq_hopping := false } 52 14) 0 0 0 1 1 1 3 0).map (fun r => r.1) =
      some true :=
  ⟨rfl, by decide, rfl, rfl, rfl⟩

/-- C18: with a Format 0 cell list and CSI configured, a successful call of
`ue_pucch_config_builder` leaves 2 resource IDs in set 0 and 1 in set 1, not
`nof_ue_pucch_f0_f1_res_harq + 2 = 4` and `nof_ue_pucch_f2_res_harq + 2 = 3`. The cell
list of the generator holds 2 Format 0 and 4 Format 2 resources; with 3 resources for
SR the validation computes `2 - 3` on `unsigned` values and accepts, and the builder
reads its first HARQ resource at index 2, a Format 2 resource, so that it reserves
nothing. The Format 2 parameters have no payload size, so that the helper for the
number of PRBs is not called. -/
theorem builder_format_0_sets_without_reserved :
    (generate_cell_pucch_res_list (fun _ _ _ => 1) 128 2 4
        (.f0 { nof_symbols := 2, intraslot_freq_hopping := false })
        { nof_symbols := 2, max_nof_rbs := 1, max_payload_bits := none, max_code_rate := 2,
          intraslot_freq_hopping := false } 52 14).map (fun r => r.format) =
      [.FORMAT_0, .FORMAT_0, .FORMAT_2, .FORMAT_2, .FORMAT_2, .FORMAT_2] ∧
    (ue_pucch_config_builder
      { pucch_cfg := some { pucch_res_set_0 := { pucch_res_set_id := 0, pucch_res_id_list := [] },
                            pucch_res_set_1 := { pucch_res_set_id := 1, pucch_res_id_list := [] },
                            pucch_res_list := [],
                            sr_res_list := [{ pucch_res_id := { cell_res_id := 0,
                                                                ue_res_id := 0 } }] },
        csi_meas_cfg := some { csi_report_cfg_list :=
          [{ report_cfg_type := .periodic_or_semi_persistent_report_on_pucch
               [{ pucch_res_id := { cell_res_id := 0, ue_res_id := 0 } }] }] } }
      (generate_cell_pucch_res_list (fun _ _ _ => 1) 128 2 4
        (.f0 { nof_symbols := 2, intraslot_freq_hopping := false })
        { nof_symbols := 2, max_nof_rbs := 1, max_payload_bits := none, max_code_rate := 2,
          intraslot_freq_hopping := false } 52 14) 1 0 0 2 1 2 3 1).map
      (fun r => (r.1, r.2.pucch_cfg.map (fun p =>
        (p.pucch_res_set_0.pucch_res_id_list.length,
         p.pucch_res_set_1.pucch_res_id_list.length)))) =
      some (true, some (2, 1)) :=
  ⟨rfl, rfl⟩

/-! ## The validation of the cell list by the builder -/

/-- When all checks of `cell_res_list_and_params_validator` pass, the list does not
hold both Format 0 and Format 1 resources, all its resources have Format 0, 1 or 2,
it holds at least 2 resources of Format 0 or 1 and 2 of Format 2, and none of the
first resources, as many as there are of Format 0 and 1, has Format 2. -/
theorem check_ok_props (l : List pucch_resource) (a b c d e n : Nat)
    (h : cell_res_list_and_params_check l a b c d e = .ok n) :
    ¬ (count_resources l .FORMAT_0 ≠ 0 ∧ count_resources l .FORMAT_1 ≠ 0) ∧
    count_resources l .FORMAT_0 + count_resources l .FORMAT_1 + count_resources l .FORMAT_2 =
      l.length ∧
    2 ≤ count_resources l .FORMAT_0 + count_resources l .FORMAT_1 ∧
    2 ≤ count_resources l .FORMAT_2 ∧
    f2_among_first l (count_resources l .FORMAT_0 + count_resources l .FORMAT_1) = false := by
  unfold cell_res_list_and_params_check at h
  simp only at h
  split_ifs at h with h1 h2 h3 h4 h5 h6 h7 h8
  all_goals exact ⟨h3, not_not.1 h4, by omega, by omega, by simpa using h8⟩

/-- A failed check makes `ue_pucch_config_builder` return false with the serving cell
configuration as it was. -/
theorem builder_false_of_check_not_ok (serv_cell_cfg : serving_cell_config)
    (l : List pucch_resource) (du_harq du_sr du_csi a b c d e : Nat)
    (h : ∀ n, cell_res_list_and_params_check l a b c d e ≠ .ok n) :
    ue_pucch_config_builder serv_cell_cfg l du_harq du_sr du_csi a b c d e =
      some (false, serv_cell_cfg) := by
  have hv : cell_res_list_and_params_validator l a b c d e = 0 := by
    unfold cell_res_list_and_params_validator
    cases hc : cell_res_list_and_params_check l a b c d e with
    | error msg => rfl
    | ok n => exact absurd hc (h n)
  unfold ue_pucch_config_builder
  simp only [hv, if_true]

/-- Resources of Format 0, 1 or 2 only: the three counts add up to the length exactly
when every resource has one of the three formats. -/
theorem formats_of_count_sum (l : List pucch_resource)
    (h : count_resources l .FORMAT_0 + count_resources l .FORMAT_1 +
      count_resources l .FORMAT_2 = l.length) :
    ∀ r ∈ l, r.format = .FORMAT_0 ∨ r.format = .FORMAT_1 ∨ r.format = .FORMAT_2 := by
  induction l with
  | nil => simp
  | cons x xs ih =>
    have b0 : count_resources xs .FORMAT_0 + count_resources xs .FORMAT_1 +
        count_resources xs .FORMAT_2 ≤ xs.length := by
      clear ih h
      induction xs with
      | nil => simp [count_resources]
      | cons y ys ihy =>
        simp only [count_resources, List.countP_cons, List.length_cons] at ihy ⊢
        cases hy : y.format <;> simp <;> omega
    simp only [count_resources, List.countP_cons, List.length_cons] at h b0 ih
    intro r hr
    rcases List.mem_cons.1 hr with rfl | hr
    · cases hy : r.format
      · exact Or.inl rfl
      · exact Or.inr (Or.inl rfl)
      · exact Or.inr (Or.inr rfl)
      · simp [hy] at h
        omega
      · simp [hy] at h
        omega
    · apply ih _ r hr
      cases hy : x.format <;> simp [hy] at h <;> omega

/-- The number of Format 0 and Format 1 resources of a list is that of its first `k`
resources plus that of the rest. -/
theorem count_f0_f1_take_drop (l : List pucch_resource) (k : Nat) :
    count_resources l .FORMAT_0 + count_resources l .FORMAT_1 =
      (count_resources (l.take k) .FORMAT_0 + count_resources (l.take k) .FORMAT_1) +
      (count_resources (l.drop k) .FORMAT_0 + count_resources (l.drop k) .FORMAT_1) := by
  have h := List.take_append_drop k l
  have e0 : count_resources l .FORMAT_0 =
      count_resources (l.take k) .FORMAT_0 + count_resources (l.drop k) .FORMAT_0 := by
    conv_lhs => rw [← h]
    simp only [count_resources, List.countP_append]
  have e1 : count_resources l .FORMAT_1 =
      count_resources (l.take k) .FORMAT_1 + count_resources (l.drop k) .FORMAT_1 := by
    conv_lhs => rw [← h]
    simp only [count_resources, List.countP_append]
  omega

/-- A list whose resources all have Format 0 or Format 1 holds as many such resources
as its length. -/
theorem count_f0_f1_of_all (l : List pucch_resource)
    (h : ∀ r ∈ l, r.format = .FORMAT_0 ∨ r.format = .FORMAT_1) :
    count_resources l .FORMAT_0 + count_resources l .FORMAT_1 = l.length := by
  induction l with
  | nil => simp [count_resources]
  | cons r rs ih =>
    have ih2 := ih (fun x hx => h x (List.mem_cons_of_mem _ hx))
    simp only [count_resources] at ih2 ⊢
    rcases h r (List.mem_cons_self _ _) with hf | hf
    · simp [List.countP_cons, hf]
      omega
    · simp [List.countP_cons, hf]
      omega

/-- When all checks pass, no Format 2 resource lies ahead of a Format 0 or Format 1
resource. -/
theorem check_ok_no_f2_ahead (l : List pucch_resource) (a b c d e n : Nat)
    (h : cell_res_list_and_params_check l a b c d e = .ok n)
    (i j : Nat) (r1 r2 : pucch_resource) (hij : i < j) (h1 : l[i]? = some r1)
    (hf1 : r1.format = .FORMAT_2) (h2 : l[j]? = some r2)
    (hf2 : r2.format = .FORMAT_0 ∨ r2.format = .FORMAT_1) : False := by
  obtain ⟨_, hsum, _, _, hfirst⟩ := check_ok_props l a b c d e n h
  have hall := formats_of_count_sum l hsum
  generalize htot : count_resources l .FORMAT_0 + count_resources l .FORMAT_1 = tot
    at hsum hfirst
  have htl : tot ≤ l.length := by omega
  -- the first `tot` resources have Format 0 or Format 1
  have hfront : ∀ r ∈ l.take tot, r.format = .FORMAT_0 ∨ r.format = .FORMAT_1 := by
    intro r hr
    simp only [f2_among_first, List.any_eq_false] at hfirst
    have hn := hfirst r hr
    rcases hall r (List.mem_of_mem_take hr) with h0 | h0 | h0
    · exact Or.inl h0
    · exact Or.inr h0
    · simp [h0] at hn
  have hcf := count_f0_f1_of_all _ hfront
  rw [List.length_take, Nat.min_eq_left htl] at hcf
  have hsplit := count_f0_f1_take_drop l tot
  -- hence the rest has no resource of Format 0 or Format 1
  have hrest : count_resources (l.drop tot) .FORMAT_0 + count_resources (l.drop tot) .FORMAT_1
      = 0 := by omega
  have hjlt : j < l.length := by
    by_contra hge
    rw [List.getElem?_eq_none (by omega)] at h2
    cases h2
  by_cases hj : j < tot
  · -- the resource at `i` is among the first `tot`
    have hmem : r1 ∈ l.take tot := by
      rw [List.mem_iff_getElem?]
      refine ⟨i, ?_⟩
      rw [List.getElem?_take_of_lt (by omega)]
      exact h1
    rcases hfront r1 hmem with h0 | h0 <;> rw [hf1] at h0 <;> cases h0
  · -- the resource at `j` is in the rest
    have hmem : r2 ∈ l.drop tot := by
      rw [List.mem_iff_getElem?]
      refine ⟨j - tot, ?_⟩
      rw [List.getElem?_drop]
      have : tot + (j - tot) = j := by omega
      rw [this]
      exact h2
    have z0 : count_resources (l.drop tot) .FORMAT_0 = 0 := by omega
    have z1 : count_resources (l.drop tot) .FORMAT_1 = 0 := by omega
    simp only [count_resources, List.countP_eq_zero] at z0 z1
    rcases hf2 with h0 | h0
    · exact z0 r2 hmem (by simp [h0])
    · exact z1 r2 hmem (by simp [h0])

/-- C15: if the cell PUCCH resource list holds both Format 0 and Format 1 resources,
or fewer than 2 resources of Format 0 or 1, or fewer than 2 resources of Format 2, or a
Format 2 resource ahead of a Format 0 or Format 1 resource, `ue_pucch_config_builder`
returns false and leaves the serving cell configuration as it was. -/
theorem builder_rejects_malformed_cell_list (serv_cell_cfg : serving_cell_config)
    (res_list : List pucch_resource) (du_harq_set_idx du_sr_res_idx du_csi_res_idx
      nof_ue_pucch_f0_f1_res_harq nof_ue_pucch_f2_res_harq nof_harq_pucch_sets
      nof_cell_pucch_f0_f1_res_sr nof_cell_pucch_f2_res_csi : Nat)
    (h : ((∃ r ∈ res_list, r.format = .FORMAT_0) ∧ (∃ r ∈ res_list, r.format = .FORMAT_1)) ∨
      count_resources res_list .FORMAT_0 + count_resources res_list .FORMAT_1 < 2 ∨
      count_resources res_list .FORMAT_2 < 2 ∨
      (∃ (i j : Nat) (r1 r2 : pucch_resource), i < j ∧ res_list[i]? = some r1 ∧
        r1.format = .FORMAT_2 ∧ res_list[j]? = some r2 ∧
        (r2.format = .FORMAT_0 ∨ r2.format = .FORMAT_1))) :
    ue_pucch_config_builder serv_cell_cfg res_list du_harq_set_idx du_sr_res_idx
      du_csi_res_idx nof_ue_pucch_f0_f1_res_harq nof_ue_pucch_f2_res_harq nof_harq_pucch_sets
      nof_cell_pucch_f0_f1_res_sr nof_cell_pucch_f2_res_csi = some (false, serv_cell_cfg) := by
  apply builder_false_of_check_not_ok
  intro n hok
  obtain ⟨hboth, _, h01, h2, _⟩ := check_ok_props _ _ _ _ _ _ n hok
  rcases h with ⟨⟨r0, hr0, f0⟩, ⟨r1, hr1, f1⟩⟩ | h | h | ⟨i, j, r1, r2, hij, e1, f1, e2, f2⟩
  · apply hboth
    constructor
    · simp only [count_resources, ne_eq, List.countP_eq_zero, not_forall]
      exact ⟨r0, hr0, by simp [f0]⟩
    · simp only [count_resources, ne_eq, List.countP_eq_zero, not_forall]
      exact ⟨r1, hr1, by simp [f1]⟩
  · omega
  · omega
  · exact check_ok_no_f2_ahead _ _ _ _ _ _ n hok i j r1 r2 hij e1 f1 e2 f2

/-- Witness of C15: a cell list with a Format 2 resource ahead of two Format 1
resources. -/
theorem builder_rejects_malformed_cell_list_witness :
    ue_pucch_config_builder
      { pucch_cfg := some { pucch_res_set_0 := { pucch_res_set_id := 0, pucch_res_id_list := [] },
                            pucch_res_set_1 := { pucch_res_set_id := 1, pucch_res_id_list := [] },
                            pucch_res_list := [],
                            sr_res_list := [{ pucch_res_id := { cell_res_id := 0,
                                                                ue_res_id := 0 } }] },
        csi_meas_cfg := none }
      [⟨⟨0, 0⟩, 1, none, .FORMAT_2, .f2_3 ⟨1, 2, 0⟩⟩, ⟨⟨1, 0⟩, 0, none, .FORMAT_1, .f1 ⟨0, 14, 0, 0⟩⟩,
       ⟨⟨2, 0⟩, 51, none, .FORMAT_1, .f1 ⟨0, 14, 0, 0⟩⟩, ⟨⟨3, 0⟩, 1, none, .FORMAT_2, .f2_3 ⟨1, 2, 2⟩⟩]
      0 0 0 1 1 1 1 0 =
    some (false,
      { pucch_cfg := some { pucch_res_set_0 := { pucch_res_set_id := 0, pucch_res_id_list := [] },
                            pucch_res_set_1 := { pucch_res_set_id := 1, pucch_res_id_list := [] },
                            pucch_res_list := [],
                            sr_res_list := [{ pucch_res_id := { cell_res_id := 0,
                                                                ue_res_id := 0 } }] },
        csi_meas_cfg := none }) :=
  builder_rejects_malformed_cell_list _ _ 0 0 0 1 1 1 1 0
    (Or.inr (Or.inr (Or.inr
      ⟨0, 1, ⟨⟨0, 0⟩, 1, none, .FORMAT_2, .f2_3 ⟨1, 2, 0⟩⟩,
        ⟨⟨1, 0⟩, 0, none, .FORMAT_1, .f1 ⟨0, 14, 0, 0⟩⟩, by decide, rfl, rfl, rfl, Or.inr rfl⟩)))

/-! ## The UE resource IDs that the builder assigns -/

theorem ue_ids_in_order_nil : ue_ids_in_order [] := by
  simp [ue_ids_in_order]

theorem ue_ids_in_order_append (l : List pucch_resource) (r : pucch_resource)
    (hl : ue_ids_in_order l) (hr : r.res_id.ue_res_id = l.length) :
    ue_ids_in_order (l ++ [r]) := by
  unfold ue_ids_in_order at hl ⊢
  simp [List.range_succ, hl, hr]

theorem ue_ids_in_order_get (l : List pucch_resource) (hl : ue_ids_in_order l)
    (k : Nat) (r : pucch_resource) (hk : l[k]? = some r) : r.res_id.ue_res_id = k := by
  unfold ue_ids_in_order at hl
  have h1 : (l.map (fun r => r.res_id.ue_res_id))[k]? = some r.res_id.ue_res_id := by
    simp [hk]
  rw [hl] at h1
  have hlt : k < l.length := by
    by_contra hge
    rw [List.getElem?_eq_none (by omega)] at hk
    cases hk
  simp [hlt] at h1
  exact h1.symm

theorem length_update_at {α : Type} (f : α → α) (i : Nat) (l : List α) :
    (update_at f i l).length = l.length := by
  induction l generalizing i with
  | nil => cases i <;> rfl
  | cons x xs ih =>
    cases i with
    | zero => rfl
    | succ i => simp [update_at, ih]

theorem map_update_at {α β : Type} (f : α → α) (g : α → β) (hfg : ∀ x, g (f x) = g x)
    (i : Nat) (l : List α) : (update_at f i l).map g = l.map g := by
  induction l generalizing i with
  | nil => cases i <;> rfl
  | cons x xs ih =>
    cases i with
    | zero => simp [update_at, hfg]
    | succ i => simp [update_at, ih]

theorem update_at_last {α : Type} (f : α → α) (l : List α) (x : α) :
    update_at f l.length (l ++ [x]) = l ++ [f x] := by
  induction l with
  | nil => rfl
  | cons y ys ih => simp [update_at, ih]

/-- An update that keeps the UE resource IDs keeps them in order. -/
theorem ue_ids_in_order_update_at (f : pucch_resource → pucch_resource)
    (hf : ∀ r, (f r).res_id.ue_res_id = r.res_id.ue_res_id) (i : Nat)
    (l : List pucch_resource) (hl : ue_ids_in_order l) :
    ue_ids_in_order (update_at f i l) := by
  unfold ue_ids_in_order at hl ⊢
  rw [map_update_at f (fun r => r.res_id.ue_res_id) hf, length_update_at]
  exact hl

theorem add_f0_f1_harq_inv (res_list : List pucch_resource) (offset : Nat)
    (remaining cnt : Nat) (st st2 : builder_state)
    (h : add_f0_f1_harq res_list offset cnt remaining st = some st2) (hi : builder_inv st) :
    builder_inv st2 := by
  induction remaining generalizing cnt st with
  | zero =>
    simp only [add_f0_f1_harq, Option.some.injEq] at h
    exact h ▸ hi
  | succ n ih =>
    simp only [add_f0_f1_harq] at h
    cases hr : res_list[uadd cnt offset]? with
    | none => simp [hr] at h
    | some cell_res =>
      simp only [hr] at h
      refine ih _ _ h ?_
      obtain ⟨h1, h2⟩ := hi
      exact ⟨ue_ids_in_order_append _ _ h1 h2, by simp [h2]⟩

theorem add_f2_harq_inv (res_list : List pucch_resource) (offset : Nat)
    (remaining cnt : Nat) (st st2 : builder_state)
    (h : add_f2_harq res_list offset cnt remaining st = some st2) (hi : builder_inv st) :
    builder_inv st2 := by
  induction remaining generalizing cnt st with
  | zero =>
    simp only [add_f2_harq, Option.some.injEq] at h
    exact h ▸ hi
  | succ n ih =>
    simp only [add_f2_harq] at h
    cases hr : res_list[uadd offset cnt]? with
    | none => simp [hr] at h
    | some cell_res =>
      simp only [hr] at h
      refine ih _ _ h ?_
      obtain ⟨h1, h2⟩ := hi
      exact ⟨ue_ids_in_order_append _ _ h1 h2, by simp [h2]⟩

theorem add_f0_on_csi_inv (is_format_0 : Bool) (st : builder_state) (hi : builder_inv st) :
    builder_inv (add_f0_on_csi is_format_0 st) := by
  unfold add_f0_on_csi
  split
  · obtain ⟨h1, h2⟩ := hi
    exact ⟨ue_ids_in_order_append _ _ h1 h2, by simp [h2]⟩
  · exact hi

theorem add_sr_inv (is_format_0 : Bool) (sr_cell_res : pucch_resource)
    (st st2 : builder_state) (h : add_sr is_format_0 sr_cell_res st = some st2)
    (hi : builder_inv st) : builder_inv st2 := by
  obtain ⟨h1, h2⟩ := hi
  unfold add_sr at h
  cases hs : st.pucch_cfg.sr_res_list with
  | nil => simp [hs] at h
  | cons front rest =>
    simp only [hs] at h
    cases is_format_0 with
    | true =>
      simp only [if_true, Option.some.injEq] at h
      subst h
      refine ⟨?_, ?_⟩
      · simp only [List.length_append, List.length_singleton, Nat.add_sub_cancel]
        rw [update_at_last]
        exact ue_ids_in_order_append _ _ h1 h2
      · simp [h2, length_update_at]
    | false =>
      simp only [Bool.false_eq_true, if_false, Option.some.injEq] at h
      subst h
      exact ⟨ue_ids_in_order_append _ _ h1 h2, by simp [h2]⟩

theorem add_csi_inv (res_list : List pucch_resource) (is_format_0 : Bool)
    (csi_res_idx idx : Nat) (st st2 : builder_state)
    (h : add_csi res_list is_format_0 csi_res_idx idx st = some st2) (hi : builder_inv st) :
    builder_inv st2 := by
  obtain ⟨h1, h2⟩ := hi
  unfold add_csi at h
  cases hc : st.csi_meas_cfg with
  | none =>
    simp only [hc, Option.some.injEq] at h
    exact h ▸ ⟨h1, h2⟩
  | some csi =>
    simp only [hc] at h
    cases hr : res_list[csi_res_idx]? with
    | none => simp [hr] at h
    | some csi_cell_res =>
      simp only [hr] at h
      cases hp : csi_cell_res.format_params with
      | f0 cfg => simp [hp] at h
      | f1 cfg => simp [hp] at h
      | f2_3 cfg =>
        simp only [hp] at h
        cases hset : set_csi_pucch_res_id csi
            { cell_res_id := csi_cell_res.res_id.cell_res_id,
              ue_res_id := st.ue_pucch_res_id } with
        | none => simp [hset] at h
        | some csi2 =>
          simp only [hset] at h
          cases is_format_0 with
          | true =>
            simp only [if_true, Option.some.injEq] at h
            subst h
            refine ⟨?_, ?_⟩
            · refine ue_ids_in_order_update_at _ ?_ _ _ ?_
              · intro r
                rfl
              · simp only [List.length_append, List.length_singleton, Nat.add_sub_cancel]
                rw [update_at_last]
                exact ue_ids_in_order_append _ _ h1 h2
            · simp [h2, length_update_at]
          | false =>
            simp only [Bool.false_eq_true, if_false, Option.some.injEq] at h
            subst h
            exact ⟨ue_ids_in_order_append _ _ h1 h2, by simp [h2]⟩

theorem add_f2_on_sr_inv (is_format_0 : Bool) (sr_cell_res : pucch_resource)
    (st st2 : builder_state) (h : add_f2_on_sr is_format_0 sr_cell_res st = some st2)
    (hi : builder_inv st) : builder_inv st2 := by
  obtain ⟨h1, h2⟩ := hi
  unfold add_f2_on_sr at h
  cases is_format_0 with
  | false =>
    simp only [Bool.false_eq_true, if_false, Option.some.injEq] at h
    exact h ▸ ⟨h1, h2⟩
  | true =>
    simp only [if_true] at h
    cases hp : sr_cell_res.format_params with
    | f0 cfg =>
      simp only [hp, Option.some.injEq] at h
      subst h
      refine ⟨?_, ?_⟩
      · refine ue_ids_in_order_update_at _ ?_ _ _ ?_
        · intro r
          rfl
        · exact ue_ids_in_order_append _ _ h1 (by simp [placeholder_resource, h2])
      · simp [h2, length_update_at]
    | f1 cfg => simp [hp] at h
    | f2_3 cfg => simp [hp] at h

/-- C17: after every call of `ue_pucch_config_builder` that returns true, the entry at
position `k` of the `pucch_res_list` of the UE has `res_id.ue_res_id = k`, for Format 1
and Format 0 cell lists alike and with or without CSI configured. -/
theorem builder_indexes_ue_resources_from_zero (serv_cell_cfg cfg2 : serving_cell_config)
    (res_list : List pucch_resource) (du_harq_set_idx du_sr_res_idx du_csi_res_idx
      nof_ue_pucch_f0_f1_res_harq nof_ue_pucch_f2_res_harq nof_harq_pucch_sets
      nof_cell_pucch_f0_f1_res_sr nof_cell_pucch_f2_res_csi : Nat)
    (h : ue_pucch_config_builder serv_cell_cfg res_list du_harq_set_idx du_sr_res_idx
      du_csi_res_idx nof_ue_pucch_f0_f1_res_harq nof_ue_pucch_f2_res_harq nof_harq_pucch_sets
      nof_cell_pucch_f0_f1_res_sr nof_cell_pucch_f2_res_csi = some (true, cfg2)) :
    ∃ pucch_cfg, cfg2.pucch_cfg = some pucch_cfg ∧
      ∀ (k : Nat) (r : pucch_resource), pucch_cfg.pucch_res_list[k]? = some r →
        r.res_id.ue_res_id = k := by
  unfold ue_pucch_config_builder at h
  simp only at h
  split at h
  · simp at h
  · cases hp : serv_cell_cfg.pucch_cfg with
    | none => simp [hp] at h
    | some pucch_cfg =>
      simp only [hp] at h
      split at h
      · simp at h
      · split at h
        · simp at h
        · rename_i first hfirst
          simp only [Option.map_eq_some', Option.bind_eq_some, Prod.mk.injEq, true_and] at h
          obtain ⟨st5, ⟨st1, h1, hsr⟩, hcfg⟩ := h
          split at hsr
          · simp at hsr
          · rename_i sr_cell_res hsrres
            simp only [Option.bind_eq_some] at hsr
            obtain ⟨st2, h2, st3, h3, st4, h4, h5⟩ := hsr
            have i0 : builder_inv
                { pucch_cfg :=
                    { pucch_cfg with
                      pucch_res_list := [],
                      pucch_res_set_0 := { pucch_res_set_id := 0, pucch_res_id_list := [] },
                      pucch_res_set_1 := { pucch_res_set_id := 1, pucch_res_id_list := [] } },
                  ue_pucch_res_id := 0, csi_meas_cfg := serv_cell_cfg.csi_meas_cfg } :=
              ⟨ue_ids_in_order_nil, rfl⟩
            have i1 := add_f0_f1_harq_inv _ _ _ _ _ _ h1 i0
            have i2 := add_sr_inv _ _ _ _ h2 (add_f0_on_csi_inv _ _ i1)
            have i3 := add_f2_harq_inv _ _ _ _ _ _ h3 i2
            have i4 := add_csi_inv _ _ _ _ _ _ h4 i3
            have i5 := add_f2_on_sr_inv _ _ _ _ h5 i4
            subst hcfg
            exact ⟨st5.pucch_cfg, rfl, fun k r hk => ue_ids_in_order_get _ i5.1 k r hk⟩

/-- Witness of C17: the builder on the cell list of the generator for two Format 1 and
two Format 2 resources, with one resource of each format for HARQ, one Format 1
resource for SR and no CSI, gives the UE the resources with the cell resource IDs 0, 1
and 2 at the positions 0, 1 and 2. -/
theorem builder_indexes_ue_resources_from_zero_witness :
    ∃ pucch_cfg,
      some ({ pucch_res_set_0 := { pucch_res_set_id := 0,
                                   pucch_res_id_list := [{ cell_res_id := 0, ue_res_id := 0 }] },
              pucch_res_set_1 := { pucch_res_set_id := 1,
                                   pucch_res_id_list := [{ cell_res_id := 2, ue_res_id := 2 }] },
              pucch_res_list :=
                [⟨⟨0, 0⟩, 0, none, .FORMAT_1, .f1 ⟨0, 14, 0, 0⟩⟩,
                 ⟨⟨1, 1⟩, 51, none, .FORMAT_1, .f1 ⟨0, 14, 0, 0⟩⟩,
                 ⟨⟨2, 2⟩, 1, none, .FORMAT_2, .f2_3 ⟨1, 2, 0⟩⟩],
              sr_res_list := [{ pucch_res_id := { cell_res_id := 1, ue_res_id := 1 } }] } :
            pucch_config) = some pucch_cfg ∧
      ∀ (k : Nat) (r : pucch_resource), pucch_cfg.pucch_res_list[k]? = some r →
        r.res_id.ue_res_id = k :=
  builder_indexes_ue_resources_from_zero
    { pucch_cfg := some { pucch_res_set_0 := { pucch_res_set_id := 0, pucch_res_id_list := [] },
                          pucch_res_set_1 := { pucch_res_set_id := 1, pucch_res_id_list := [] },
                          pucch_res_list := [],
                          sr_res_list := [{ pucch_res_id := { cell_res_id := 0,
                                                              ue_res_id := 0 } }] },
      csi_meas_cfg := none }
    { pucch_cfg := some
        { pucch_res_set_0 := { pucch_res_set_id := 0,
                               pucch_res_id_list := [{ cell_res_id := 0, ue_res_id := 0 }] },
          pucch_res_set_1 := { pucch_res_set_id := 1,
                               pucch_res_id_list := [{ cell_res_id := 2, ue_res_id := 2 }] },
          pucch_res_list :=
            [⟨⟨0, 0⟩, 0, none, .FORMAT_1, .f1 ⟨0, 14, 0, 0⟩⟩,
             ⟨⟨1, 1⟩, 51, none, .FORMAT_1, .f1 ⟨0, 14, 0, 0⟩⟩,
             ⟨⟨2, 2⟩, 1, none, .FORMAT_2, .f2_3 ⟨1, 2, 0⟩⟩],
          sr_res_list := [{ pucch_res_id := { cell_res_id := 1, ue_res_id := 1 } }] },
      csi_meas_cfg := none }
    (generate_cell_pucch_res_list (fun _ _ _ => 1) 128 2 2
      (.f1 { occ_supported := false, nof_cyc_shifts := 1, intraslot_freq_hopping := false,
             nof_symbols := 14 })
      { nof_symbols := 2, max_nof_rbs := 1, max_payload_bits := none, max_code_rate := 2,
        intraslot_freq_hopping := false } 52 14)
    0 0 0 1 1 1 1 0 rfl

/-! ## The number of resources of the generated list -/

theorem candidates_length {β : Type} (c : Nat → List β) (L : Nat)
    (hL : ∀ i, (c i).length = L) (start count : Nat) :
    (candidates c start count).length = count * L := by
  induction count generalizing start with
  | zero => simp [candidates]
  | succ n ih =>
    simp only [candidates, List.length_append, hL, ih]
    rw [Nat.succ_mul]
    omega

theorem mem_candidates {β : Type} (c : Nat → List β) (start count : Nat) (g : β)
    (h : g ∈ candidates c start count) : ∃ i, start ≤ i ∧ i < start + count ∧ g ∈ c i := by
  induction count generalizing start with
  | zero => simp [candidates] at h
  | succ n ih =>
    simp only [candidates, List.mem_append] at h
    rcases h with h | h
    · exact ⟨start, le_refl _, by omega, h⟩
    · obtain ⟨i, h1, h2, h3⟩ := ih _ h
      exact ⟨i, by omega, by omega, h3⟩

theorem sym_candidates_length {β : Type} (nof_symbols max_nof_symbols : Nat)
    (c : interval → List β) (L : Nat) (hL : ∀ s, (c s).length = L) :
    (sym_candidates nof_symbols max_nof_symbols c).length = max_nof_symbols / nof_symbols * L :=
  candidates_length _ L (fun _ => hL _) _ _

theorem sym_candidates_length_single {β : Type} (nof_symbols max_nof_symbols : Nat)
    (f : interval → β) :
    (sym_candidates nof_symbols max_nof_symbols (fun s => [f s])).length =
      max_nof_symbols / nof_symbols := by
  rw [sym_candidates_length _ _ _ 1 (fun _ => by rfl)]
  omega

theorem mem_sym_candidates {β : Type} (nof_symbols max_nof_symbols : Nat)
    (c : interval → List β) (g : β) (h : g ∈ sym_candidates nof_symbols max_nof_symbols c) :
    ∃ s, g ∈ c s := by
  obtain ⟨i, _, _, hi⟩ := mem_candidates _ _ _ g h
  exact ⟨_, hi⟩

theorem occ_cs_candidates_length (nof_occ_css : Nat) (symbols prbs : interval)
    (hop : Option interval) :
    (occ_cs_candidates nof_occ_css symbols prbs hop).length = nof_occ_css := by
  unfold occ_cs_candidates
  rw [candidates_length _ 1 (fun _ => by rfl)]
  omega

theorem mem_occ_cs_candidates (nof_occ_css : Nat) (symbols prbs : interval)
    (hop : Option interval) (g : pucch_grant)
    (h : g ∈ occ_cs_candidates nof_occ_css symbols prbs hop) :
    g.prbs = prbs ∧ g.occ_cs_idx.isSome = true := by
  obtain ⟨i, _, _, hi⟩ := mem_candidates _ _ _ g h
  simp only [List.mem_singleton] at hi
  subst hi
  exact ⟨rfl, rfl⟩

theorem f0_candidates_length (params : pucch_f0_params) (bwp max_syms : Nat) :
    (f0_candidates params bwp max_syms).length = f0_capacity params bwp max_syms := by
  unfold f0_candidates f0_capacity
  by_cases hop : params.intraslot_freq_hopping = true
  · simp only [hop, if_true]
    exact candidates_length _ _
      (fun _ => sym_candidates_length _ _ _ 2 (fun _ => by rfl)) _ _
  · simp only [hop, Bool.false_eq_true, if_false]
    refine candidates_length _ _ (fun _ => ?_) _ _
    rw [List.length_append, sym_candidates_length_single, sym_candidates_length_single]

theorem f1_candidates_length (params : pucch_f1_params) (bwp nof_occ_css max_syms : Nat) :
    (f1_candidates params bwp nof_occ_css max_syms).length =
      f1_capacity params bwp nof_occ_css max_syms := by
  unfold f1_candidates f1_capacity
  by_cases hop : params.intraslot_freq_hopping = true
  · simp only [hop, if_true]
    refine candidates_length _ _ (fun _ => ?_) _ _
    refine sym_candidates_length _ _ _ _ (fun _ => ?_)
    rw [List.length_append, occ_cs_candidates_length, occ_cs_candidates_length]
  · simp only [hop, Bool.false_eq_true, if_false]
    refine candidates_length _ _ (fun _ => ?_) _ _
    rw [List.length_append,
      sym_candidates_length _ _ _ nof_occ_css (fun _ => occ_cs_candidates_length _ _ _ _),
      sym_candidates_length _ _ _ nof_occ_css (fun _ => occ_cs_candidates_length _ _ _ _),
      Nat.mul_add]

theorem f2_candidates_length (params : pucch_f2_params) (m bwp max_syms : Nat) :
    (f2_candidates params m bwp max_syms).length = f2_capacity params m bwp max_syms := by
  unfold f2_candidates f2_capacity
  by_cases hop : params.intraslot_freq_hopping = true
  · simp only [hop, if_true]
    exact candidates_length _ _
      (fun _ => sym_candidates_length _ _ _ 2 (fun _ => by rfl)) _ _
  · simp only [hop, Bool.false_eq_true, if_false]
    refine candidates_length _ _ (fun _ => ?_) _ _
    rw [List.length_append, sym_candidates_length_single, sym_candidates_length_single]

/-- Subtraction of `unsigned` values without wrap-around. -/
theorem usub_eq_sub (a b : Nat) (hb : b ≤ a) (ha : a < 4294967296) : usub a b = a - b := by
  unfold usub
  omega

/-- The PRBs on the upper side that mirror a PRB index of the loop over `rb_idx` lie
above the centre of the BWP. -/
theorem hi_prbs_start_gt (bwp rb_idx : Nat) (hb : 2 ≤ bwp) (hb2 : bwp < 4294967296)
    (hr : rb_idx < usub (bwp / 2) 1) : (hi_prbs bwp 1 rb_idx).start > bwp / 2 := by
  unfold hi_prbs
  simp only
  unfold usub at hr ⊢
  omega

/-- The bounds of the loop of `compute_f2_res` over `rb_idx`: the PRBs on the lower
side end below the centre of the BWP and their mirror starts above it. -/
theorem f2_rb_idx_bounds (bwp m i : Nat) (hb2 : bwp < 4294967296) (hm1 : 1 ≤ m)
    (hm2 : m ≤ bwp / 2) (hi : i < stride_count (usub (bwp / 2) m) m) :
    i * m < usub (bwp / 2) m ∧ (hi_prbs bwp m (i * m)).start > bwp / 2 := by
  have hB : usub (bwp / 2) m = bwp / 2 - m := usub_eq_sub _ _ hm2 (by omega)
  rw [hB] at hi ⊢
  unfold stride_count at hi
  have h1 : (i + 1) * m ≤ bwp / 2 - m + m - 1 := (Nat.le_div_iff_mul_le (by omega)).1 hi
  rw [Nat.succ_mul] at h1
  have hlt : i * m < bwp / 2 - m := by omega
  refine ⟨hlt, ?_⟩
  unfold hi_prbs
  simp only
  rw [usub_eq_sub bwp m (by omega) hb2, usub_eq_sub (bwp - m) (i * m) (by omega) (by omega)]
  omega

theorem f0_candidates_mergeable (params : pucch_f0_params) (bwp max_syms : Nat)
    (hb : 2 ≤ bwp) (hb2 : bwp < 4294967296) :
    ∀ g ∈ f0_candidates params bwp max_syms, g.mergeable_f0_f1 bwp false := by
  intro g hg
  refine ⟨?_, by simp⟩
  unfold f0_candidates at hg
  by_cases hop : params.intraslot_freq_hopping = true
  · simp only [hop, if_true] at hg
    obtain ⟨i, _, hi, hg⟩ := mem_candidates _ _ _ g hg
    obtain ⟨s, hg⟩ := mem_sym_candidates _ _ _ g hg
    simp only [List.mem_append, List.mem_singleton] at hg
    rcases hg with rfl | rfl
    · exact Or.inl (by simpa using hi)
    · exact Or.inr (hi_prbs_start_gt bwp i hb hb2 (by simpa using hi))
  · simp only [hop, Bool.false_eq_true, if_false] at hg
    obtain ⟨i, _, hi, hg⟩ := mem_candidates _ _ _ g hg
    rcases List.mem_append.1 hg with hg | hg
    · obtain ⟨s, hg⟩ := mem_sym_candidates _ _ _ g hg
      simp only [List.mem_singleton] at hg
      subst hg
      exact Or.inl (by simpa using hi)
    · obtain ⟨s, hg⟩ := mem_sym_candidates _ _ _ g hg
      simp only [List.mem_singleton] at hg
      subst hg
      exact Or.inr (hi_prbs_start_gt bwp i hb hb2 (by simpa using hi))

theorem f1_candidates_mergeable (params : pucch_f1_params) (bwp nof_occ_css max_syms : Nat)
    (hb : 2 ≤ bwp) (hb2 : bwp < 4294967296) :
    ∀ g ∈ f1_candidates params bwp nof_occ_css max_syms, g.mergeable_f0_f1 bwp true := by
  intro g hg
  unfold f1_candidates at hg
  by_cases hop : params.intraslot_freq_hopping = true
  · simp only [hop, if_true] at hg
    obtain ⟨i, _, hi, hg⟩ := mem_candidates _ _ _ g hg
    obtain ⟨s, hg⟩ := mem_sym_candidates _ _ _ g hg
    rcases List.mem_append.1 hg with hg | hg
    · obtain ⟨e, o⟩ := mem_occ_cs_candidates _ _ _ _ g hg
      exact ⟨Or.inl (by rw [e]; simpa using hi), fun _ => o⟩
    · obtain ⟨e, o⟩ := mem_occ_cs_candidates _ _ _ _ g hg
      exact ⟨Or.inr (by rw [e]; exact hi_prbs_start_gt bwp i hb hb2 (by simpa using hi)),
        fun _ => o⟩
  · simp only [hop, Bool.false_eq_true, if_false] at hg
    obtain ⟨i, _, hi, hg⟩ := mem_candidates _ _ _ g hg
    rcases List.mem_append.1 hg with hg | hg
    · obtain ⟨s, hg⟩ := mem_sym_candidates _ _ _ g hg
      obtain ⟨e, o⟩ := mem_occ_cs_candidates _ _ _ _ g hg
      exact ⟨Or.inl (by rw [e]; simpa using hi), fun _ => o⟩
    · obtain ⟨s, hg⟩ := mem_sym_candidates _ _ _ g hg
      obtain ⟨e, o⟩ := mem_occ_cs_candidates _ _ _ _ g hg
      exact ⟨Or.inr (by rw [e]; exact hi_prbs_start_gt bwp i hb hb2 (by simpa using hi)),
        fun _ => o⟩

theorem f2_candidates_mergeable (params : pucch_f2_params) (m bwp max_syms : Nat)
    (hb2 : bwp < 4294967296) (hm1 : 1 ≤ m) (hm2 : m ≤ bwp / 2) :
    ∀ g ∈ f2_candidates params m bwp max_syms, g.mergeable_f2 bwp := by
  intro g hg
  unfold f2_candidates at hg
  have low : ∀ i, i < stride_count (usub (bwp / 2) m) m →
      i * m < usub (bwp / 2) (i * m + m - i * m) := by
    intro i hi
    have : i * m + m - i * m = m := by omega
    rw [this]
    exact (f2_rb_idx_bounds bwp m i hb2 hm1 hm2 hi).1
  by_cases hop : params.intraslot_freq_hopping = true
  · simp only [hop, if_true] at hg
    obtain ⟨i, _, hi, hg⟩ := mem_candidates _ _ _ g hg
    obtain ⟨s, hg⟩ := mem_sym_candidates _ _ _ g hg
    simp only [List.mem_append, List.mem_singleton] at hg
    rcases hg with rfl | rfl
    · exact Or.inl (low i (by simpa using hi))
    · exact Or.inr (f2_rb_idx_bounds bwp m i hb2 hm1 hm2 (by simpa using hi)).2
  · simp only [hop, Bool.false_eq_true, if_false] at hg
    obtain ⟨i, _, hi, hg⟩ := mem_candidates _ _ _ g hg
    rcases List.mem_append.1 hg with hg | hg
    · obtain ⟨s, hg⟩ := mem_sym_candidates _ _ _ g hg
      simp only [List.mem_singleton] at hg
      subst hg
      exact Or.inl (low i (by simpa using hi))
    · obtain ⟨s, hg⟩ := mem_sym_candidates _ _ _ g hg
      simp only [List.mem_singleton] at hg
      subst hg
      exact Or.inr (f2_rb_idx_bounds bwp m i hb2 hm1 hm2 (by simpa using hi)).2

theorem update_occupancy_some (bwp : Nat) (g : pucch_grant) (low hi : Nat)
    (hg : g.prbs.start < usub (bwp / 2) 1 ∨ g.prbs.start > bwp / 2) :
    ∃ occ, update_occupancy bwp g low hi = some occ := by
  unfold update_occupancy
  by_cases c1 : g.prbs.start < usub (bwp / 2) 1
  · simp only [c1, if_true]
    exact ⟨_, rfl⟩
  · have c2 : g.prbs.start > bwp / 2 := hg.resolve_left c1
    simp only [c1, if_false, c2, if_true]
    exact ⟨_, rfl⟩

theorem merge_f0_step_some (bwp : Nat) (g : pucch_grant) (hg : g.mergeable_f0_f1 bwp false)
    (st : List pucch_resource × Nat × Nat) : ∃ st2, merge_f0_step bwp g st = some st2 := by
  obtain ⟨occ, ho⟩ := update_occupancy_some bwp g st.2.1 st.2.2 hg.1
  unfold merge_f0_step
  simp only [ho]
  exact ⟨_, rfl⟩

theorem merge_f1_step_some (cs bwp : Nat) (g : pucch_grant) (hg : g.mergeable_f0_f1 bwp true)
    (st : List pucch_resource × Nat × Nat) :
    ∃ st2, merge_f1_step cs bwp g st = some st2 := by
  obtain ⟨occ, ho⟩ := update_occupancy_some bwp g st.2.1 st.2.2 hg.1
  obtain ⟨idx, hidx⟩ := Option.isSome_iff_exists.1 (hg.2 rfl)
  unfold merge_f1_step
  simp only [ho, hidx]
  exact ⟨_, rfl⟩

theorem merge_f2_step_some (bwp low hi : Nat) (g : pucch_grant) (hg : g.mergeable_f2 bwp)
    (l : List pucch_resource) : ∃ l2, merge_f2_step bwp low hi g l = some l2 := by
  unfold merge_f2_step
  by_cases c1 : g.prbs.start < usub (bwp / 2) g.prbs.length
  · simp only [c1, if_true]
    exact ⟨_, rfl⟩
  · have c2 : g.prbs.start > bwp / 2 := hg.resolve_left c1
    simp only [c1, if_false, c2, if_true]
    exact ⟨_, rfl⟩

/-- The merge of grants that do not lie at the centre of the BWP holds one Format 0
or Format 1 resource per grant of the first list and one Format 2 resource per grant
of the second. -/
theorem merge_of_mergeable (l1 l2 : List pucch_grant) (nof_cs : Option Nat) (bwp : Nat)
    (h1 : ∀ g ∈ l1, g.mergeable_f0_f1 bwp nof_cs.isSome)
    (h2 : ∀ g ∈ l2, g.mergeable_f2 bwp) :
    ∃ r1 r2, merge_f0_f1_f2_resource_lists l1 l2 nof_cs bwp = r1 ++ r2 ∧
      r1.length = l1.length ∧ r2.length = l2.length ∧
      (∀ r ∈ r1, r.format = .FORMAT_0 ∨ r.format = .FORMAT_1) ∧
      (∀ r ∈ r2, r.format = .FORMAT_2) := by
  unfold merge_f0_f1_f2_resource_lists
  cases nof_cs with
  | none =>
    obtain ⟨st, hst⟩ := for_each_or_return_some (merge_f0_step bwp) l1
      (fun g hg st => merge_f0_step_some bwp g (h1 g hg) st) ([], 0, 0)
    obtain ⟨rl, low, hi⟩ := st
    obtain ⟨res, hres⟩ := for_each_or_return_some (merge_f2_step bwp low hi) l2
      (fun g hg st => merge_f2_step_some bwp low hi g (h2 g hg) st) rl
    obtain ⟨a1, e1, n1, f1, _⟩ := merge_f0_loop_spec bwp l1 [] 0 0 _ hst
    obtain ⟨a2, e2, n2, f2, _⟩ := merge_f2_loop_spec bwp low hi l2 rl res hres
    simp only [List.nil_append] at e1
    have hst2 : merge_f0_loop bwp l1 ([], 0, 0) = some (rl, low, hi) := hst
    have hres2 : merge_f2_loop bwp low hi l2 rl = some res := hres
    simp only [hst2, hres2]
    exact ⟨a1, a2, by rw [e2, e1], n1, n2, fun r hr => Or.inl (f1 r hr), f2⟩
  | some cs =>
    obtain ⟨st, hst⟩ := for_each_or_return_some (merge_f1_step cs bwp) l1
      (fun g hg st => merge_f1_step_some cs bwp g (h1 g hg) st) ([], 0, 0)
    obtain ⟨rl, low, hi⟩ := st
    obtain ⟨res, hres⟩ := for_each_or_return_some (merge_f2_step bwp low hi) l2
      (fun g hg st => merge_f2_step_some bwp low hi g (h2 g hg) st) rl
    obtain ⟨a1, e1, n1, f1, _⟩ := merge_f1_loop_spec cs bwp l1 [] 0 0 _ hst
    obtain ⟨a2, e2, n2, f2, _⟩ := merge_f2_loop_spec bwp low hi l2 rl res hres
    simp only [List.nil_append] at e1
    have hst2 : merge_f1_loop cs bwp l1 ([], 0, 0) = some (rl, low, hi) := hst
    have hres2 : merge_f2_loop bwp low hi l2 rl = some res := hres
    simp only [hst2, hres2]
    exact ⟨a1, a2, by rw [e2, e1], n1, n2, fun r hr => Or.inr (f1 r hr), f2⟩

/-- The counts of a list of Format 0 or Format 1 resources followed by Format 2
resources. -/
theorem counts_of_shape (r1 r2 : List pucch_resource)
    (h1 : ∀ r ∈ r1, r.format = .FORMAT_0 ∨ r.format = .FORMAT_1)
    (h2 : ∀ r ∈ r2, r.format = .FORMAT_2) :
    count_resources (r1 ++ r2) .FORMAT_0 + count_resources (r1 ++ r2) .FORMAT_1 = r1.length ∧
    count_resources (r1 ++ r2) .FORMAT_2 = r2.length := by
  have c0 : count_resources r2 .FORMAT_0 = 0 := by
    simp only [count_resources, List.countP_eq_zero]
    intro r hr
    simp [h2 r hr]
  have c1 : count_resources r2 .FORMAT_1 = 0 := by
    simp only [count_resources, List.countP_eq_zero]
    intro r hr
    simp [h2 r hr]
  have c2 : count_resources r1 .FORMAT_2 = 0 := by
    simp only [count_resources, List.countP_eq_zero]
    intro r hr
    rcases h1 r hr with hf | hf <;> simp [hf]
  have c3 : count_resources r2 .FORMAT_2 = r2.length := by
    simp only [count_resources, List.countP_eq_length]
    intro r hr
    simp [h2 r hr]
  have csum := count_f0_f1_of_all r1 h1
  simp only [count_resources, List.countP_append] at c0 c1 c2 c3 csum ⊢
  omega

/-- An accepted configuration has a Format 2 resource of at most 16 PRBs. -/
theorem validator_ok_f2_max_rbs (get : Nat → Nat → Nat → Nat) (n1 n2 : Nat)
    (p01 : pucch_f0_f1_params) (p2 : pucch_f2_params) (bwp max_syms : Nat)
    (hv : pucch_parameters_validator get n1 n2 p01 p2 bwp max_syms = .ok ()) :
    f2_max_rbs get p2 ≤ FORMAT2_MAX_NPRB := by
  unfold pucch_parameters_validator at hv
  cases hr : nof_f0_f1_rbs n1 p01 max_syms with
  | error e => simp [hr] at hv
  | ok r =>
    simp only [hr] at hv
    split_ifs at hv with c1 c2 c3
    omega

/-- The grants for Format 0 or Format 1 of `generate_cell_pucch_res_list`: as many as
requested when the loops go through that many, none of them at the centre of the
BWP. -/
theorem f0_f1_grants_spec (n1 : Nat) (p01 : pucch_f0_f1_params) (bwp max_syms : Nat)
    (hb : 0 < n1 → 2 ≤ bwp) (hb2 : bwp < 4294967296)
    (hc : n1 ≤ f0_f1_capacity p01 bwp max_syms) :
    (f0_f1_grants n1 p01 bwp max_syms).1.length = n1 ∧
    ∀ g ∈ (f0_f1_grants n1 p01 bwp max_syms).1,
      g.mergeable_f0_f1 bwp
        (if p01.has_f0 = true then none else some (f0_f1_grants n1 p01 bwp max_syms).2).isSome := by
  by_cases hn : 0 < n1
  · cases p01 with
    | f0 p =>
      simp only [f0_f1_grants, gt_iff_lt, hn, if_true, pucch_f0_f1_params.has_f0,
        Option.isSome_none]
      rw [compute_f0_res_eq_take n1 p bwp max_syms hn]
      constructor
      · rw [List.length_take, f0_candidates_length]
        exact Nat.min_eq_left hc
      · intro g hg
        exact f0_candidates_mergeable p bwp max_syms (hb hn) hb2 g (List.mem_of_mem_take hg)
    | f1 p =>
      simp only [f0_f1_grants, gt_iff_lt, hn, if_true, pucch_f0_f1_params.has_f0,
        Bool.false_eq_true, if_false, Option.isSome_some]
      rw [compute_f1_res_eq_take n1 p bwp _ max_syms hn]
      constructor
      · rw [List.length_take, f1_candidates_length]
        exact Nat.min_eq_left hc
      · intro g hg
        exact f1_candidates_mergeable p bwp _ max_syms (hb hn) hb2 g (List.mem_of_mem_take hg)
  · have h0 : n1 = 0 := by omega
    subst h0
    cases p01 <;> simp [f0_f1_grants]

/-- Counterexample of C12: for one Format 2 resource of 12 PRBs on a BWP of 24 PRBs
`pucch_parameters_validator` accepts the arguments (12 PRBs are 50% of the BWP) and
`0 + 1` does not exceed 128, but the loop of `compute_f2_res` over `rb_idx` has the
bound `24 / 2 - 12 = 0`, and `generate_cell_pucch_res_list` returns an empty list, with
no Format 2 resource. The Format 2 parameters have no payload size, so that the helper
for the number of PRBs is not called. -/
theorem generate_misses_requested_number :
    pucch_parameters_validator (fun _ _ _ => 1) 0 1
      (.f1 { occ_supported := false, nof_cyc_shifts := 1, intraslot_freq_hopping := false,
             nof_symbols := 14 })
      { nof_symbols := 2, max_nof_rbs := 12, max_payload_bits := none, max_code_rate := 2,
        intraslot_freq_hopping := false } 24 14 = .ok () ∧
    0 + 1 ≤ 128 ∧
    generate_cell_pucch_res_list (fun _ _ _ => 1) 128 0 1
      (.f1 { occ_supported := false, nof_cyc_shifts := 1, intraslot_freq_hopping := false,
             nof_symbols := 14 })
      { nof_symbols := 2, max_nof_rbs := 12, max_payload_bits := none, max_code_rate := 2,
        intraslot_freq_hopping := false } 24 14 = [] ∧
    count_resources
      (generate_cell_pucch_res_list (fun _ _ _ => 1) 128 0 1
        (.f1 { occ_supported := false, nof_cyc_shifts := 1, intraslot_freq_hopping := false,
               nof_symbols := 14 })
        { nof_symbols := 2, max_nof_rbs := 12, max_payload_bits := none, max_code_rate := 2,
          intraslot_freq_hopping := false } 24 14) .FORMAT_2 ≠ 1 :=
  ⟨rfl, by decide, rfl, by decide⟩

/-- C12, amended: whenever `pucch_parameters_validator` accepts the arguments,
`nof_res_f0_f1 + nof_res_f2` does not exceed `MAX_NOF_CELL_PUCCH_RESOURCES`, the BWP
has fewer than 2^32 PRBs and at least 2 when Format 0 or Format 1 resources are
requested, a requested Format 2 resource has between 1 and `bwp_size_rbs / 2` PRBs,
and the requested numbers do not exceed the numbers of grants that the loops of
`compute_f0_res` or `compute_f1_res` and of `compute_f2_res` go through, the list that
`generate_cell_pucch_res_list` returns has `nof_res_f0_f1` resources of Format 0 or
Format 1, `nof_res_f2` resources of Format 2, and no other resource. -/
theorem generate_returns_requested_numbers (get : Nat → Nat → Nat → Nat)
    (MAX_NOF_CELL_PUCCH_RESOURCES nof_res_f0_f1 nof_res_f2 : Nat)
    (f0_f1_params : pucch_f0_f1_params) (f2_params : pucch_f2_params)
    (bwp_size_rbs max_nof_symbols : Nat)
    (hv : pucch_parameters_validator get nof_res_f0_f1 nof_res_f2 f0_f1_params f2_params
      bwp_size_rbs max_nof_symbols = .ok ())
    (hmax : nof_res_f0_f1 + nof_res_f2 ≤ MAX_NOF_CELL_PUCCH_RESOURCES)
    (hbwp : bwp_size_rbs < 4294967296)
    (hb : 0 < nof_res_f0_f1 → 2 ≤ bwp_size_rbs)
    (hm : 0 < nof_res_f2 →
      1 ≤ f2_max_rbs get f2_params ∧ f2_max_rbs get f2_params ≤ bwp_size_rbs / 2)
    (hc1 : nof_res_f0_f1 ≤ f0_f1_capacity f0_f1_params bwp_size_rbs max_nof_symbols)
    (hc2 : nof_res_f2 ≤
      f2_capacity f2_params (f2_max_rbs get f2_params) bwp_size_rbs max_nof_symbols) :
    count_resources
        (generate_cell_pucch_res_list get MAX_NOF_CELL_PUCCH_RESOURCES nof_res_f0_f1
          nof_res_f2 f0_f1_params f2_params bwp_size_rbs max_nof_symbols) .FORMAT_0 +
      count_resources
        (generate_cell_pucch_res_list get MAX_NOF_CELL_PUCCH_RESOURCES nof_res_f0_f1
          nof_res_f2 f0_f1_params f2_params bwp_size_rbs max_nof_symbols) .FORMAT_1 =
      nof_res_f0_f1 ∧
    count_resources
        (generate_cell_pucch_res_list get MAX_NOF_CELL_PUCCH_RESOURCES nof_res_f0_f1
          nof_res_f2 f0_f1_params f2_params bwp_size_rbs max_nof_symbols) .FORMAT_2 =
      nof_res_f2 ∧
    (generate_cell_pucch_res_list get MAX_NOF_CELL_PUCCH_RESOURCES nof_res_f0_f1
      nof_res_f2 f0_f1_params f2_params bwp_size_rbs max_nof_symbols).length =
      nof_res_f0_f1 + nof_res_f2 := by
  obtain ⟨len1, mg1⟩ := f0_f1_grants_spec nof_res_f0_f1 f0_f1_params bwp_size_rbs
    max_nof_symbols hb hbwp hc1
  have f2spec :
      (if nof_res_f2 > 0 then
          compute_f2_res get nof_res_f2 f2_params bwp_size_rbs max_nof_symbols
        else []).length = nof_res_f2 ∧
      ∀ g ∈ (if nof_res_f2 > 0 then
          compute_f2_res get nof_res_f2 f2_params bwp_size_rbs max_nof_symbols
        else []), g.mergeable_f2 bwp_size_rbs := by
    by_cases hn : 0 < nof_res_f2
    · simp only [gt_iff_lt, hn, if_true]
      rw [compute_f2_res_eq_take get nof_res_f2 f2_params bwp_size_rbs max_nof_symbols hn
        (validator_ok_f2_max_rbs get _ _ _ _ _ _ hv)]
      constructor
      · rw [List.length_take, f2_candidates_length]
        exact Nat.min_eq_left hc2
      · intro g hg
        exact f2_candidates_mergeable f2_params _ bwp_size_rbs max_nof_symbols hbwp
          (hm hn).1 (hm hn).2 g (List.mem_of_mem_take hg)
    · have h0 : nof_res_f2 = 0 := by omega
      subst h0
      simp
  obtain ⟨len2, mg2⟩ := f2spec
  obtain ⟨r1, r2, e, n1, n2, f1, f2⟩ := merge_of_mergeable _ _ _ bwp_size_rbs mg1 mg2
  have hgen : generate_cell_pucch_res_list get MAX_NOF_CELL_PUCCH_RESOURCES nof_res_f0_f1
      nof_res_f2 f0_f1_params f2_params bwp_size_rbs max_nof_symbols = r1 ++ r2 := by
    unfold generate_cell_pucch_res_list
    simp only [hv, e]
    rw [if_neg]
    rw [List.length_append, n1, n2, len1, len2]
    omega
  rw [hgen]
  obtain ⟨c1, c2⟩ := counts_of_shape r1 r2 f1 f2
  refine ⟨?_, ?_, ?_⟩
  · rw [c1, n1, len1]
  · rw [c2, n2, len2]
  · rw [List.length_append, n1, n2, len1, len2]

/-- Witness of C12, amended: three Format 1 and six Format 2 resources on a BWP of 52
PRBs. -/
theorem generate_returns_requested_numbers_witness :
    count_resources
        (generate_cell_pucch_res_list (fun _ _ _ => 1) 128 3 6
          (.f1 { occ_supported := false, nof_cyc_shifts := 1, intraslot_freq_hopping := false,
                 nof_symbols := 14 })
          { nof_symbols := 2, max_nof_rbs := 1, max_payload_bits := none, max_code_rate := 2,
            intraslot_freq_hopping := false } 52 14) .FORMAT_0 +
      count_resources
        (generate_cell_pucch_res_list (fun _ _ _ => 1) 128 3 6
          (.f1 { occ_supported := false, nof_cyc_shifts := 1, intraslot_freq_hopping := false,
                 nof_symbols := 14 })
          { nof_symbols := 2, max_nof_rbs := 1, max_payload_bits := none, max_code_rate := 2,
            intraslot_freq_hopping := false } 52 14) .FORMAT_1 = 3 ∧
    count_resources
        (generate_cell_pucch_res_list (fun _ _ _ => 1) 128 3 6
          (.f1 { occ_supported := false, nof_cyc_shifts := 1, intraslot_freq_hopping := false,
                 nof_symbols := 14 })
          { nof_symbols := 2, max_nof_rbs := 1, max_payload_bits := none, max_code_rate := 2,
            intraslot_freq_hopping := false } 52 14) .FORMAT_2 = 6 ∧
    (generate_cell_pucch_res_list (fun _ _ _ => 1) 128 3 6
      (.f1 { occ_supported := false, nof_cyc_shifts := 1, intraslot_freq_hopping := false,
             nof_symbols := 14 })
      { nof_symbols := 2, max_nof_rbs := 1, max_payload_bits := none, max_code_rate := 2,
        intraslot_freq_hopping := false } 52 14).length = 3 + 6 :=
  generate_returns_requested_numbers (fun _ _ _ => 1) 128 3 6
    (.f1 { occ_supported := false, nof_cyc_shifts := 1, intraslot_freq_hopping := false,
           nof_symbols := 14 })
    { nof_symbols := 2, max_nof_rbs := 1, max_payload_bits := none, max_code_rate := 2,
      intraslot_freq_hopping := false } 52 14
    rfl (by decide) (by decide) (fun _ => by decide) (fun _ => by decide) (by decide)
    (by decide)

/-! ## The sizes of the resource sets for a Format 0 cell list -/

theorem add_f0_f1_harq_sets (res_list : List pucch_resource) (offset : Nat)
    (remaining cnt : Nat) (st st2 : builder_state)
    (h : add_f0_f1_harq res_list offset cnt remaining st = some st2) :
    st2.pucch_cfg.pucch_res_set_0.pucch_res_id_list.length =
      st.pucch_cfg.pucch_res_set_0.pucch_res_id_list.length + remaining ∧
    st2.pucch_cfg.pucch_res_set_1 = st.pucch_cfg.pucch_res_set_1 ∧
    st2.csi_meas_cfg = st.csi_meas_cfg := by
  induction remaining generalizing cnt st with
  | zero =>
    simp only [add_f0_f1_harq, Option.some.injEq] at h
    subst h
    exact ⟨rfl, rfl, rfl⟩
  | succ n ih =>
    simp only [add_f0_f1_harq] at h
    cases hr : res_list[uadd cnt offset]? with
    | none => simp [hr] at h
    | some cell_res =>
      simp only [hr] at h
      obtain ⟨h0, h1, hc⟩ := ih _ _ h
      refine ⟨?_, h1, hc⟩
      rw [h0]
      simp only [List.length_append, List.length_singleton]
      omega

theorem add_f2_harq_sets (res_list : List pucch_resource) (offset : Nat)
    (remaining cnt : Nat) (st st2 : builder_state)
    (h : add_f2_harq res_list offset cnt remaining st = some st2) :
    st2.pucch_cfg.pucch_res_set_1.pucch_res_id_list.length =
      st.pucch_cfg.pucch_res_set_1.pucch_res_id_list.length + remaining ∧
    st2.pucch_cfg.pucch_res_set_0 = st.pucch_cfg.pucch_res_set_0 ∧
    st2.csi_meas_cfg = st.csi_meas_cfg := by
  induction remaining generalizing cnt st with
  | zero =>
    simp only [add_f2_harq, Option.some.injEq] at h
    subst h
    exact ⟨rfl, rfl, rfl⟩
  | succ n ih =>
    simp only [add_f2_harq] at h
    cases hr : res_list[uadd offset cnt]? with
    | none => simp [hr] at h
    | some cell_res =>
      simp only [hr] at h
      obtain ⟨h0, h1, hc⟩ := ih _ _ h
      refine ⟨?_, h1, hc⟩
      rw [h0]
      simp only [List.length_append, List.length_singleton]
      omega

theorem add_f0_on_csi_sets (st : builder_state) :
    (add_f0_on_csi true st).pucch_cfg.pucch_res_set_0.pucch_res_id_list.length =
      st.pucch_cfg.pucch_res_set_0.pucch_res_id_list.length +
        (if st.csi_meas_cfg.isSome then 1 else 0) ∧
    (add_f0_on_csi true st).pucch_cfg.pucch_res_set_1 = st.pucch_cfg.pucch_res_set_1 ∧
    (add_f0_on_csi true st).csi_meas_cfg = st.csi_meas_cfg := by
  unfold add_f0_on_csi
  cases hc : st.csi_meas_cfg.isSome with
  | true => simp
  | false => simp

theorem add_sr_sets (sr_cell_res : pucch_resource) (st st2 : builder_state)
    (h : add_sr true sr_cell_res st = some st2) :
    st2.pucch_cfg.pucch_res_set_0.pucch_res_id_list.length =
      st.pucch_cfg.pucch_res_set_0.pucch_res_id_list.length + 1 ∧
    st2.pucch_cfg.pucch_res_set_1 = st.pucch_cfg.pucch_res_set_1 ∧
    st2.csi_meas_cfg = st.csi_meas_cfg := by
  unfold add_sr at h
  cases hs : st.pucch_cfg.sr_res_list with
  | nil => simp [hs] at h
  | cons front rest =>
    simp only [hs, if_true, Option.some.injEq] at h
    subst h
    exact ⟨by simp, rfl, rfl⟩

theorem add_csi_sets (res_list : List pucch_resource) (csi_res_idx idx : Nat)
    (st st2 : builder_state) (h : add_csi res_list true csi_res_idx idx st = some st2) :
    st2.pucch_cfg.pucch_res_set_1.pucch_res_id_list.length =
      st.pucch_cfg.pucch_res_set_1.pucch_res_id_list.length +
        (if st.csi_meas_cfg.isSome then 1 else 0) ∧
    st2.pucch_cfg.pucch_res_set_0 = st.pucch_cfg.pucch_res_set_0 ∧
    st2.csi_meas_cfg.isSome = st.csi_meas_cfg.isSome := by
  unfold add_csi at h
  cases hc : st.csi_meas_cfg with
  | none =>
    simp only [hc, Option.some.injEq] at h
    subst h
    simp [hc]
  | some csi =>
    simp only [hc] at h
    cases hr : res_list[csi_res_idx]? with
    | none => simp [hr] at h
    | some csi_cell_res =>
      simp only [hr] at h
      cases hp : csi_cell_res.format_params with
      | f0 cfg => simp [hp] at h
      | f1 cfg => simp [hp] at h
      | f2_3 cfg =>
        simp only [hp] at h
        cases hset : set_csi_pucch_res_id csi
            { cell_res_id := csi_cell_res.res_id.cell_res_id,
              ue_res_id := st.ue_pucch_res_id } with
        | none => simp [hset] at h
        | some csi2 =>
          simp only [hset, if_true, Option.some.injEq] at h
          subst h
          simp

theorem add_f2_on_sr_sets (sr_cell_res : pucch_resource) (st st2 : builder_state)
    (h : add_f2_on_sr true sr_cell_res st = some st2) :
    st2.pucch_cfg.pucch_res_set_1.pucch_res_id_list.length =
      st.pucch_cfg.pucch_res_set_1.pucch_res_id_list.length + 1 ∧
    st2.pucch_cfg.pucch_res_set_0 = st.pucch_cfg.pucch_res_set_0 := by
  unfold add_f2_on_sr at h
  simp only [if_true] at h
  cases hp : sr_cell_res.format_params with
  | f0 cfg =>
    simp only [hp, Option.some.injEq] at h
    subst h
    exact ⟨by simp, rfl⟩
  | f1 cfg => simp [hp] at h
  | f2_3 cfg => simp [hp] at h

/-- When the validation of the cell list passes for a list with a Format 0 resource,
at most 6 resources of each kind are requested for HARQ. -/
theorem check_ok_format_0_le_six (l : List pucch_resource) (a b c d e n : Nat)
    (h : cell_res_list_and_params_check l a b c d e = .ok n)
    (hf : ∃ r ∈ l, r.format = .FORMAT_0) : a ≤ 6 ∧ b ≤ 6 := by
  have hany : l.any (fun res => res.format == .FORMAT_0) = true := by
    obtain ⟨r, hr, f⟩ := hf
    simp only [List.any_eq_true]
    exact ⟨r, hr, by simp [f]⟩
  unfold cell_res_list_and_params_check at h
  simp only [hany, Bool.true_and, decide_eq_true_eq] at h
  split_ifs at h with h1 h2
  all_goals omega

/-- The sizes of the resource sets when the builder finds a Format 0 resource at the
first index of the resources for HARQ: after a call that returns true, set 0 holds
`nof_ue_pucch_f0_f1_res_harq + 2` resource IDs and set 1 holds
`nof_ue_pucch_f2_res_harq + 2` with CSI configured, one fewer each without, and
neither set holds more than 8. -/
theorem builder_format_0_set_sizes (serv_cell_cfg cfg2 : serving_cell_config)
    (res_list : List pucch_resource) (du_harq_set_idx du_sr_res_idx du_csi_res_idx
      nof_ue_pucch_f0_f1_res_harq nof_ue_pucch_f2_res_harq nof_harq_pucch_sets
      nof_cell_pucch_f0_f1_res_sr nof_cell_pucch_f2_res_csi : Nat) (first : pucch_resource)
    (h : ue_pucch_config_builder serv_cell_cfg res_list du_harq_set_idx du_sr_res_idx
      du_csi_res_idx nof_ue_pucch_f0_f1_res_harq nof_ue_pucch_f2_res_harq nof_harq_pucch_sets
      nof_cell_pucch_f0_f1_res_sr nof_cell_pucch_f2_res_csi = some (true, cfg2))
    (hfirst : res_list[umul (du_harq_set_idx % nof_harq_pucch_sets)
      nof_ue_pucch_f0_f1_res_harq]? = some first)
    (hformat : first.format = .FORMAT_0) :
    ∃ pucch_cfg, cfg2.pucch_cfg = some pucch_cfg ∧
      pucch_cfg.pucch_res_set_0.pucch_res_id_list.length =
        nof_ue_pucch_f0_f1_res_harq + (if serv_cell_cfg.csi_meas_cfg.isSome then 2 else 1) ∧
      pucch_cfg.pucch_res_set_1.pucch_res_id_list.length =
        nof_ue_pucch_f2_res_harq + (if serv_cell_cfg.csi_meas_cfg.isSome then 2 else 1) ∧
      pucch_cfg.pucch_res_set_0.pucch_res_id_list.length ≤ 8 ∧
      pucch_cfg.pucch_res_set_1.pucch_res_id_list.length ≤ 8 := by
  have hsix : nof_ue_pucch_f0_f1_res_harq ≤ 6 ∧ nof_ue_pucch_f2_res_harq ≤ 6 := by
    cases hc : cell_res_list_and_params_check res_list nof_ue_pucch_f0_f1_res_harq
        nof_ue_pucch_f2_res_harq nof_harq_pucch_sets nof_cell_pucch_f0_f1_res_sr
        nof_cell_pucch_f2_res_csi with
    | error msg =>
      have := builder_false_of_check_not_ok serv_cell_cfg res_list du_harq_set_idx du_sr_res_idx
        du_csi_res_idx _ _ _ _ _ (fun n hn => by rw [hc] at hn; cases hn)
      rw [this] at h
      simp at h
    | ok n =>
      exact check_ok_format_0_le_six _ _ _ _ _ _ n hc
        ⟨first, List.mem_iff_getElem?.2 ⟨_, hfirst⟩, hformat⟩
  unfold ue_pucch_config_builder at h
  simp only at h
  split at h
  · simp at h
  · cases hp : serv_cell_cfg.pucch_cfg with
    | none => simp [hp] at h
    | some pucch_cfg =>
      simp only [hp] at h
      split at h
      · simp at h
      · simp only [hfirst, hformat, beq_self_eq_true] at h
        simp only [Option.map_eq_some', Option.bind_eq_some, Prod.mk.injEq, true_and] at h
        obtain ⟨st5, ⟨st1, h1, hsr⟩, hcfg⟩ := h
        split at hsr
        · simp at hsr
        · rename_i sr_cell_res hsrres
          simp only [Option.bind_eq_some] at hsr
          obtain ⟨st2, h2, st3, h3, st4, h4, h5⟩ := hsr
          obtain ⟨a0, a1, ac⟩ := add_f0_f1_harq_sets _ _ _ _ _ _ h1
          obtain ⟨b0, b1, bc⟩ := add_f0_on_csi_sets st1
          obtain ⟨c0, c1, cc⟩ := add_sr_sets _ _ _ h2
          obtain ⟨d1, d0, dc⟩ := add_f2_harq_sets _ _ _ _ _ _ h3
          obtain ⟨e1, e0, ec⟩ := add_csi_sets _ _ _ _ _ h4
          obtain ⟨f1, f0⟩ := add_f2_on_sr_sets _ _ _ h5
          subst hcfg
          have hcsi3 : st3.csi_meas_cfg = serv_cell_cfg.csi_meas_cfg := by
            rw [dc, cc, bc, ac]
          have hcsi1 : st1.csi_meas_cfg = serv_cell_cfg.csi_meas_cfg := ac
          have s0 : st5.pucch_cfg.pucch_res_set_0.pucch_res_id_list.length =
              nof_ue_pucch_f0_f1_res_harq +
                (if serv_cell_cfg.csi_meas_cfg.isSome then 2 else 1) := by
            rw [f0, e0, d0, c0, b0, a0, hcsi1]
            simp only [List.length_nil]
            split <;> omega
          have s1 : st5.pucch_cfg.pucch_res_set_1.pucch_res_id_list.length =
              nof_ue_pucch_f2_res_harq +
                (if serv_cell_cfg.csi_meas_cfg.isSome then 2 else 1) := by
            rw [f1, e1, d1, c1, b1, a1, hcsi3]
            simp only [List.length_nil]
            split <;> omega
          refine ⟨st5.pucch_cfg, rfl, s0, s1, ?_, ?_⟩
          · rw [s0]
            split <;> omega
          · rw [s1]
            split <;> omega

/-! ## Requests over the resources of the cell, without wrap-around -/

/-- When all checks of `cell_res_list_and_params_validator` pass, the requested
numbers are within the differences that the validator computes on `unsigned`
values. -/
theorem check_ok_available (l : List pucch_resource) (a b c d e n : Nat)
    (h : cell_res_list_and_params_check l a b c d e = .ok n) :
    a ≤ usub (count_resources l .FORMAT_0 + count_resources l .FORMAT_1) d ∧
    b ≤ usub (count_resources l .FORMAT_2) e := by
  unfold cell_res_list_and_params_check at h
  simp only at h
  split_ifs at h with h1 h2 h3 h4 h5 h6 h7 h8
  all_goals omega

/-- Where the subtractions of the validator do not wrap around (the resources for SR
and CSI are not more than the list has), `ue_pucch_config_builder` returns false on a
request over the resources of the cell list and leaves the serving cell configuration
as it was. -/
theorem builder_rejects_request_without_wrap (serv_cell_cfg : serving_cell_config)
    (res_list : List pucch_resource) (du_harq_set_idx du_sr_res_idx du_csi_res_idx
      nof_ue_pucch_f0_f1_res_harq nof_ue_pucch_f2_res_harq nof_harq_pucch_sets
      nof_cell_pucch_f0_f1_res_sr nof_cell_pucch_f2_res_csi : Nat)
    (hlen : res_list.length < 4294967296)
    (hsr : nof_cell_pucch_f0_f1_res_sr ≤
      count_resources res_list .FORMAT_0 + count_resources res_list .FORMAT_1)
    (hcsi : nof_cell_pucch_f2_res_csi ≤ count_resources res_list .FORMAT_2)
    (h : nof_ue_pucch_f0_f1_res_harq + nof_cell_pucch_f0_f1_res_sr >
        count_resources res_list .FORMAT_0 + count_resources res_list .FORMAT_1 ∨
      nof_ue_pucch_f2_res_harq + nof_cell_pucch_f2_res_csi >
        count_resources res_list .FORMAT_2) :
    ue_pucch_config_builder serv_cell_cfg res_list du_harq_set_idx du_sr_res_idx
      du_csi_res_idx nof_ue_pucch_f0_f1_res_harq nof_ue_pucch_f2_res_harq nof_harq_pucch_sets
      nof_cell_pucch_f0_f1_res_sr nof_cell_pucch_f2_res_csi = some (false, serv_cell_cfg) := by
  apply builder_false_of_check_not_ok
  intro n hok
  obtain ⟨_, hsum, _, _, _⟩ := check_ok_props _ _ _ _ _ _ n hok
  obtain ⟨h1, h2⟩ := check_ok_available _ _ _ _ _ _ n hok
  rw [usub_eq_sub _ _ hsr (by omega)] at h1
  rw [usub_eq_sub _ _ hcsi (by omega)] at h2
  omega

end srs_du

end srsran

namespace srsran

namespace srs_cu_cp

/-! ## The release routine on an empty command -/

/-- The run of a logic at its launch is the run of its coroutine logic: the frame that
`run_body` leaves behind stands suspended before the coroutine logic of what the run of
the logic has left, or at the final suspension point when the run has left nothing. -/
theorem run_body_of_run_at_launch {R : Type} (p : srsgnb.promise_type R)
    (logic : routine_logic R) :
    (srsgnb.coro_frame.run_body p logic.coro).1.point =
      match logic.run_at_launch.2 with
      | some rest => .suspended rest.coro
      | none => .final_suspended := by
  induction logic with
  | result r => rfl
  | exchange call answers_at_once rest ih =>
    cases answers_at_once with
    | true =>
      simp only [routine_logic.coro, srsgnb.coro_frame.run_body, if_true,
        routine_logic.run_at_launch]
      exact ih
    | false => rfl

/-- The task that the launch of a logic returns stands where the run of the logic at
launch stopped. -/
theorem launched_task_of_run_at_launch {R : Type} (logic : routine_logic R) :
    (srsgnb.promise_type.get_return_object logic.coro).handle.map (fun f => f.point) =
      some (match logic.run_at_launch.2 with
        | some rest => .suspended rest.coro
        | none => .final_suspended) := by
  have h := run_body_of_run_at_launch { continuation := .null, result := none } logic
  simp only [srsgnb.promise_type.get_return_object, Option.map_some']
  rw [← h]
  rfl

/-- A logic has performed no call when its launch returns exactly when its coroutine
logic returns the result without any await expression. -/
theorem exchanges_at_launch_eq_nil_iff {R : Type} (logic : routine_logic R) :
    logic.exchanges_at_launch = [] ↔ ∃ r, logic.coro = .coro_return r := by
  cases logic with
  | result r => exact ⟨fun _ => ⟨r, rfl⟩, fun _ => rfl⟩
  | exchange call answers_at_once rest =>
    constructor
    · intro h
      cases answers_at_once <;>
        simp [routine_logic.exchanges_at_launch, routine_logic.run_at_launch] at h
    · rintro ⟨r, h⟩
      simp [routine_logic.coro] at h

/-- C11: for every PDU session resource release command with zero release items, the
release routine completes at launch: the task is ready without any further event, its
result holds no released PDU session, which the test reads as a failure, and the run
of the routine has performed no bearer context or UE context exchange. -/
theorem empty_release_command_completes_at_launch
    (command : cu_cp_pdu_session_resource_release_command)
    (bearer_context_answers_at_once ue_context_answers_at_once : Bool)
    (h : command.release_items = []) :
    (start_pdu_session_resource_release_routine command bearer_context_answers_at_once
      ue_context_answers_at_once).ready = true ∧
    (start_pdu_session_resource_release_routine command bearer_context_answers_at_once
      ue_context_answers_at_once).get = some { released_pdu_sessions := [] } ∧
    was_pdu_session_resource_release_successful
      (start_pdu_session_resource_release_routine command bearer_context_answers_at_once
        ue_context_answers_at_once) = false ∧
    (pdu_session_resource_release_routine command bearer_context_answers_at_once
      ue_context_answers_at_once).exchanges_at_launch = [] := by
  have hlogic : pdu_session_resource_release_routine command
      bearer_context_answers_at_once ue_context_answers_at_once =
      .result { released_pdu_sessions := [] } := by
    unfold pdu_session_resource_release_routine
    rw [if_pos h]
  unfold start_pdu_session_resource_release_routine
  rw [hlogic]
  exact ⟨rfl, rfl, rfl, rfl⟩

/-- Witness of C11: the empty command of the test, with the UE index set. -/
theorem empty_release_command_completes_at_launch_witness :
    (start_pdu_session_resource_release_routine { ue_index := 0, release_items := [] }
      true true).ready = true ∧
    (start_pdu_session_resource_release_routine { ue_index := 0, release_items := [] }
      true true).get = some { released_pdu_sessions := [] } ∧
    was_pdu_session_resource_release_successful
      (start_pdu_session_resource_release_routine { ue_index := 0, release_items := [] }
        true true) = false ∧
    (pdu_session_resource_release_routine { ue_index := 0, release_items := [] }
      true true).exchanges_at_launch = [] :=
  empty_release_command_completes_at_launch { ue_index := 0, release_items := [] } true true rfl

end srs_cu_cp

end srsran

namespace srsran

namespace srs_du

/-! ## Evaluations of the generator and of the builder at the bounds of the BWP -/

/-- C27: `generate_cell_pucch_res_list` places a Format 2 resource on top of a Format 1
resource and outside the BWP. For one Format 1 resource and two Format 2 resources of
14 PRBs with intra-slot hopping on a BWP of 27 PRBs the validator accepts the
arguments (1 + 14 = 15 PRBs of 27), the bound `27 / 2 - 14` of the loop over `rb_idx`
wraps around, and the merge takes the Format 2 grant at PRB 13 for a grant on the lower
side: the list holds the Format 1 resource at PRB 0 and a Format 2 resource whose first
hop is at the PRBs 14 to 27, past the 27 PRBs of the BWP, and whose second hop is at the
PRBs 0 to 13. The Format 2 parameters have no payload size, so that the helper for the
number of PRBs is not called. -/
theorem generate_places_f2_on_f1 :
    pucch_parameters_validator (fun _ _ _ => 1) 1 2
      (.f1 { occ_supported := false, nof_cyc_shifts := 1, intraslot_freq_hopping := false,
             nof_symbols := 14 })
      { nof_symbols := 2, max_nof_rbs := 14, max_payload_bits := none, max_code_rate := 2,
        intraslot_freq_hopping := true } 27 14 = .ok () ∧
    usub (27 / 2) 14 = 4294967295 ∧
    generate_cell_pucch_res_list (fun _ _ _ => 1) 128 1 2
      (.f1 { occ_supported := false, nof_cyc_shifts := 1, intraslot_freq_hopping := false,
             nof_symbols := 14 })
      { nof_symbols := 2, max_nof_rbs := 14, max_payload_bits := none, max_code_rate := 2,
        intraslot_freq_hopping := true } 27 14 =
      [{ res_id := { cell_res_id := 0, ue_res_id := 0 }, starting_prb := 0,
         second_hop_prb := none, format := .FORMAT_1,
         format_params := .f1 { initial_cyclic_shift := 0, nof_symbols := 14,
                                starting_sym_idx := 0, time_domain_occ := 0 } },
       { res_id := { cell_res_id := 1, ue_res_id := 0 }, starting_prb := 1,
         second_hop_prb := some 13, format := .FORMAT_2,
         format_params := .f2_3 { nof_prbs := 14, nof_symbols := 2, starting_sym_idx := 0 } },
       { res_id := { cell_res_id := 2, ue_res_id := 0 }, starting_prb := 14,
         second_hop_prb := some 0, format := .FORMAT_2,
         format_params := .f2_3 { nof_prbs := 14, nof_symbols := 2, starting_sym_idx := 0 } }] ∧
    14 + 14 > 27 :=
  ⟨rfl, rfl, rfl, by decide⟩

/-- C29: `generate_cell_pucch_res_list` returns a resource past the symbol budget. For
13 Format 2 resources of 2 symbols without intra-slot hopping and `max_nof_symbols =
12`, the loop for the upper side of the BWP runs up to the symbol 14 instead of
`max_nof_symbols`: the resource at position 12 of the list starts at the symbol 12 and
has 2 symbols, and `12 + 2 > 12`. The Format 2 parameters have no payload size, so
that the helper for the number of PRBs is not called. -/
theorem generate_exceeds_symbol_budget :
    (generate_cell_pucch_res_list (fun _ _ _ => 1) 128 0 13
      (.f1 { occ_supported := false, nof_cyc_shifts := 1, intraslot_freq_hopping := false,
             nof_symbols := 12 })
      { nof_symbols := 2, max_nof_rbs := 1, max_payload_bits := none, max_code_rate := 2,
        intraslot_freq_hopping := false } 52 12)[12]? =
      some { res_id := { cell_res_id := 12, ue_res_id := 0 }, starting_prb := 51,
             second_hop_prb := none, format := .FORMAT_2,
             format_params := .f2_3 { nof_prbs := 1, nof_symbols := 2,
                                      starting_sym_idx := 12 } } ∧
    12 + 2 > 12 :=
  ⟨rfl, by decide⟩

/-- C30: `ue_pucch_config_builder` reads the cell list past its end although the
preconditions hold. The cell list of the generator holds 3 Format 1 and 3 Format 2
resources; with 2 resources of each format for HARQ, `nof_harq_pucch_sets = 2^31`, one
resource for SR and one for CSI, the products `2 * 2^31` of the validation wrap around
to 0 on `unsigned` values, so that the validation returns 3; with `du_harq_set_idx = 5`
the first index that the builder reads is `(5 % 2^31) * 2 = 10`, not below the size 6
of the list, and the call has no defined result. The Format 2 parameters have no
payload size, so that the helper for the number of PRBs is not called. -/
theorem builder_reads_past_cell_list :
    (generate_cell_pucch_res_list (fun _ _ _ => 1) 128 3 3
      (.f1 { occ_supported := false, nof_cyc_shifts := 1, intraslot_freq_hopping := false,
             nof_symbols := 14 })
      { nof_symbols := 2, max_nof_rbs := 1, max_payload_bits := none, max_code_rate := 2,
        intraslot_freq_hopping := false } 52 14).map (fun r => r.format) =
      [.FORMAT_1, .FORMAT_1, .FORMAT_1, .FORMAT_2, .FORMAT_2, .FORMAT_2] ∧
    umul 2 2147483648 = 0 ∧
    cell_res_list_and_params_validator
      (generate_cell_pucch_res_list (fun _ _ _ => 1) 128 3 3
        (.f1 { occ_supported := false, nof_cyc_shifts := 1, intraslot_freq_hopping := false,
               nof_symbols := 14 })
        { nof_symbols := 2, max_nof_rbs := 1, max_payload_bits := none, max_code_rate := 2,
          intraslot_freq_hopping := false } 52 14) 2 2 2147483648 1 1 = 3 ∧
    (1 ≤ 2147483648 ∧ 1 ≤ 3 ∧ 0 < 1) ∧
    umul (5 % 2147483648) 2 = 10 ∧
    ue_pucch_config_builder
      { pucch_cfg := some { pucch_res_set_0 := { pucch_res_set_id := 0, pucch_res_id_list := [] },
                            pucch_res_set_1 := { pucch_res_set_id := 1, pucch_res_id_list := [] },
                            pucch_res_list := [],
                            sr_res_list := [{ pucch_res_id := { cell_res_id := 0,
                                                                ue_res_id := 0 } }] },
        csi_meas_cfg := some { csi_report_cfg_list :=
          [{ report_cfg_type := .periodic_or_semi_persistent_report_on_pucch
               [{ pucch_res_id := { cell_res_id := 0, ue_res_id := 0 } }] }] } }
      (generate_cell_pucch_res_list (fun _ _ _ => 1) 128 3 3
        (.f1 { occ_supported := false, nof_cyc_shifts := 1, intraslot_freq_hopping := false,
               nof_symbols := 14 })
        { nof_symbols := 2, max_nof_rbs := 1, max_payload_bits := none, max_code_rate := 2,
          intraslot_freq_hopping := false } 52 14) 5 0 0 2 2 2147483648 1 1 = none :=
  ⟨rfl, rfl, rfl, by decide, rfl, rfl⟩

end srs_du

end srsran

namespace srsran

namespace srs_du

/-! ## The indices at which the builder reads the cell list -/

/-- When all checks of `cell_res_list_and_params_validator` pass, the products that the
validator computes on `unsigned` values are within the differences it computes, and
the returned number is the number of Format 0 and Format 1 resources. -/
theorem check_ok_enough (l : List pucch_resource) (a b c d e n : Nat)
    (h : cell_res_list_and_params_check l a b c d e = .ok n) :
    umul a c ≤ usub (count_resources l .FORMAT_0 + count_resources l .FORMAT_1) d ∧
    umul b c ≤ usub (count_resources l .FORMAT_2) e ∧
    n = count_resources l .FORMAT_0 + count_resources l .FORMAT_1 := by
  unfold cell_res_list_and_params_check at h
  simp only at h
  split_ifs at h with h1 h2 h3 h4 h5 h6 h7 h8 h9
  all_goals
    simp only [Except.ok.injEq] at h
    refine ⟨by omega, by omega, ?_⟩
    omega

/-- When all checks pass, the resources at the positions below the number of Format 0
and Format 1 resources have Format 0 or Format 1, and the resources at the other
positions have Format 2. -/
theorem check_ok_formats (l : List pucch_resource) (a b c d e n : Nat)
    (h : cell_res_list_and_params_check l a b c d e = .ok n) (k : Nat) (hk : k < l.length) :
    ∃ r, l[k]? = some r ∧
      (k < count_resources l .FORMAT_0 + count_resources l .FORMAT_1 →
        r.format = .FORMAT_0 ∨ r.format = .FORMAT_1) ∧
      (count_resources l .FORMAT_0 + count_resources l .FORMAT_1 ≤ k →
        r.format = .FORMAT_2) := by
  obtain ⟨_, hsum, _, _, hfirst⟩ := check_ok_props l a b c d e n h
  have hall := formats_of_count_sum l hsum
  refine ⟨l[k], List.getElem?_eq_getElem hk, ?_, ?_⟩
  · intro hlt
    have hmem : l[k] ∈ l.take (count_resources l .FORMAT_0 + count_resources l .FORMAT_1) := by
      rw [List.mem_iff_getElem?]
      refine ⟨k, ?_⟩
      rw [List.getElem?_take_of_lt hlt]
      exact List.getElem?_eq_getElem hk
    simp only [f2_among_first, List.any_eq_false] at hfirst
    have hn := hfirst _ hmem
    rcases hall _ (List.getElem_mem hk) with h0 | h0 | h0
    · exact Or.inl h0
    · exact Or.inr h0
    · simp [h0] at hn
  · intro hge
    by_contra hne
    have hmid : l[k].format = .FORMAT_0 ∨ l[k].format = .FORMAT_1 := by
      rcases hall _ (List.getElem_mem hk) with h0 | h0 | h0
      · exact Or.inl h0
      · exact Or.inr h0
      · exact absurd h0 hne
    -- a Format 2 resource would lie ahead of it, among the first resources
    have htot : count_resources l .FORMAT_0 + count_resources l .FORMAT_1 ≤ l.length := by omega
    have hfront : ∀ r ∈ l.take (count_resources l .FORMAT_0 + count_resources l .FORMAT_1),
        r.format = .FORMAT_0 ∨ r.format = .FORMAT_1 := by
      intro r hr
      simp only [f2_among_first, List.any_eq_false] at hfirst
      have hn := hfirst r hr
      rcases hall r (List.mem_of_mem_take hr) with h0 | h0 | h0
      · exact Or.inl h0
      · exact Or.inr h0
      · simp [h0] at hn
    have hcf := count_f0_f1_of_all _ hfront
    rw [List.length_take, Nat.min_eq_left htot] at hcf
    have hsplit := count_f0_f1_take_drop l
      (count_resources l .FORMAT_0 + count_resources l .FORMAT_1)
    have hmem : l[k] ∈ l.drop (count_resources l .FORMAT_0 + count_resources l .FORMAT_1) := by
      rw [List.mem_iff_getElem?]
      refine ⟨k - (count_resources l .FORMAT_0 + count_resources l .FORMAT_1), ?_⟩
      rw [List.getElem?_drop]
      have : count_resources l .FORMAT_0 + count_resources l .FORMAT_1 +
          (k - (count_resources l .FORMAT_0 + count_resources l .FORMAT_1)) = k := by omega
      rw [this]
      exact List.getElem?_eq_getElem hk
    have z0 : count_resources
        (l.drop (count_resources l .FORMAT_0 + count_resources l .FORMAT_1)) .FORMAT_0 = 0 := by
      omega
    have z1 : count_resources
        (l.drop (count_resources l .FORMAT_0 + count_resources l .FORMAT_1)) .FORMAT_1 = 0 := by
      omega
    simp only [count_resources, List.countP_eq_zero] at z0 z1
    rcases hmid with h0 | h0
    · exact z0 _ hmem (by simp [h0])
    · exact z1 _ hmem (by simp [h0])

/-- Where the products of the validator do not wrap around, every index at which
`ue_pucch_config_builder` reads the cell list is below the size of the list, under the
preconditions that the validation passes, there is at least one set, the resources for
SR and CSI are not more than the list has, and the SR and CSI indices are below their
numbers; the indices for HARQ in set 0 and for SR select resources of Format 0 or
Format 1, and the indices for HARQ in set 1 and for CSI select resources of Format 2. -/
theorem builder_indices_without_wrap (res_list : List pucch_resource)
    (du_harq_set_idx du_sr_res_idx du_csi_res_idx nof_ue_pucch_f0_f1_res_harq
      nof_ue_pucch_f2_res_harq nof_harq_pucch_sets nof_cell_pucch_f0_f1_res_sr
      nof_cell_pucch_f2_res_csi tot_nof_cell_f0_f1_res : Nat)
    (hok : cell_res_list_and_params_check res_list nof_ue_pucch_f0_f1_res_harq
      nof_ue_pucch_f2_res_harq nof_harq_pucch_sets nof_cell_pucch_f0_f1_res_sr
      nof_cell_pucch_f2_res_csi = .ok tot_nof_cell_f0_f1_res)
    (hsets : 1 ≤ nof_harq_pucch_sets)
    (hsr : nof_cell_pucch_f0_f1_res_sr ≤
      count_resources res_list .FORMAT_0 + count_resources res_list .FORMAT_1)
    (hcsi : nof_cell_pucch_f2_res_csi ≤ count_resources res_list .FORMAT_2)
    (hdsr : du_sr_res_idx < nof_cell_pucch_f0_f1_res_sr)
    (hdcsi : du_csi_res_idx < nof_cell_pucch_f2_res_csi)
    (hlen : res_list.length < 4294967296)
    (hw1 : nof_ue_pucch_f0_f1_res_harq * nof_harq_pucch_sets < 4294967296)
    (hw2 : nof_ue_pucch_f2_res_harq * nof_harq_pucch_sets < 4294967296) :
    (∀ ue_f1_cnt, ue_f1_cnt < nof_ue_pucch_f0_f1_res_harq →
      ∃ r, res_list[uadd ue_f1_cnt
          (umul (du_harq_set_idx % nof_harq_pucch_sets) nof_ue_pucch_f0_f1_res_harq)]? =
            some r ∧
        (r.format = .FORMAT_0 ∨ r.format = .FORMAT_1)) ∧
    (∃ r, res_list[uadd (umul nof_ue_pucch_f0_f1_res_harq nof_harq_pucch_sets)
        du_sr_res_idx]? = some r ∧
      (r.format = .FORMAT_0 ∨ r.format = .FORMAT_1)) ∧
    (∀ ue_f2_cnt, ue_f2_cnt < nof_ue_pucch_f2_res_harq →
      ∃ r, res_list[uadd
          (uadd tot_nof_cell_f0_f1_res
            (umul (du_harq_set_idx % nof_harq_pucch_sets) nof_ue_pucch_f2_res_harq))
          ue_f2_cnt]? = some r ∧
        r.format = .FORMAT_2) ∧
    (∃ r, res_list[uadd
        (uadd tot_nof_cell_f0_f1_res (umul nof_ue_pucch_f2_res_harq nof_harq_pucch_sets))
        du_csi_res_idx]? = some r ∧
      r.format = .FORMAT_2) := by
  obtain ⟨_, hsum, _, _, _⟩ := check_ok_props _ _ _ _ _ _ _ hok
  obtain ⟨e1, e2, etot⟩ := check_ok_enough _ _ _ _ _ _ _ hok
  rw [usub_eq_sub _ _ hsr (by omega)] at e1
  rw [usub_eq_sub _ _ hcsi (by omega)] at e2
  have hq : du_harq_set_idx % nof_harq_pucch_sets + 1 ≤ nof_harq_pucch_sets :=
    Nat.mod_lt _ (by omega)
  have hq1 : (du_harq_set_idx % nof_harq_pucch_sets) * nof_ue_pucch_f0_f1_res_harq +
      nof_ue_pucch_f0_f1_res_harq ≤ nof_ue_pucch_f0_f1_res_harq * nof_harq_pucch_sets := by
    have := Nat.mul_le_mul_left nof_ue_pucch_f0_f1_res_harq hq
    rw [Nat.mul_add, Nat.mul_one, Nat.mul_comm nof_ue_pucch_f0_f1_res_harq
      (du_harq_set_idx % nof_harq_pucch_sets)] at this
    exact this
  have hq2 : (du_harq_set_idx % nof_harq_pucch_sets) * nof_ue_pucch_f2_res_harq +
      nof_ue_pucch_f2_res_harq ≤ nof_ue_pucch_f2_res_harq * nof_harq_pucch_sets := by
    have := Nat.mul_le_mul_left nof_ue_pucch_f2_res_harq hq
    rw [Nat.mul_add, Nat.mul_one, Nat.mul_comm nof_ue_pucch_f2_res_harq
      (du_harq_set_idx % nof_harq_pucch_sets)] at this
    exact this
  unfold umul at e1 e2 ⊢
  unfold uadd
  rw [Nat.mod_eq_of_lt hw1] at e1 ⊢
  rw [Nat.mod_eq_of_lt hw2] at e2 ⊢
  rw [Nat.mod_eq_of_lt (show (du_harq_set_idx % nof_harq_pucch_sets) *
    nof_ue_pucch_f0_f1_res_harq < 4294967296 by omega)]
  rw [Nat.mod_eq_of_lt (show (du_harq_set_idx % nof_harq_pucch_sets) *
    nof_ue_pucch_f2_res_harq < 4294967296 by omega)]
  subst etot
  refine ⟨?_, ?_, ?_, ?_⟩
  · intro cnt hcnt
    rw [Nat.mod_eq_of_lt (by omega)]
    obtain ⟨r, hr, hf, _⟩ := check_ok_formats _ _ _ _ _ _ _ hok
      (cnt + (du_harq_set_idx % nof_harq_pucch_sets) * nof_ue_pucch_f0_f1_res_harq) (by omega)
    exact ⟨r, hr, hf (by omega)⟩
  · rw [Nat.mod_eq_of_lt (by omega)]
    obtain ⟨r, hr, hf, _⟩ := check_ok_formats _ _ _ _ _ _ _ hok
      (nof_ue_pucch_f0_f1_res_harq * nof_harq_pucch_sets + du_sr_res_idx) (by omega)
    exact ⟨r, hr, hf (by omega)⟩
  · intro cnt hcnt
    rw [Nat.mod_eq_of_lt (show count_resources res_list .FORMAT_0 +
      count_resources res_list .FORMAT_1 + (du_harq_set_idx % nof_harq_pucch_sets) *
      nof_ue_pucch_f2_res_harq < 4294967296 by omega)]
    rw [Nat.mod_eq_of_lt (by omega)]
    obtain ⟨r, hr, _, hf⟩ := check_ok_formats _ _ _ _ _ _ _ hok
      (count_resources res_list .FORMAT_0 + count_resources res_list .FORMAT_1 +
        (du_harq_set_idx % nof_harq_pucch_sets) * nof_ue_pucch_f2_res_harq + cnt) (by omega)
    exact ⟨r, hr, hf (by omega)⟩
  · rw [Nat.mod_eq_of_lt (show count_resources res_list .FORMAT_0 +
      count_resources res_list .FORMAT_1 + nof_ue_pucch_f2_res_harq * nof_harq_pucch_sets <
      4294967296 by omega)]
    rw [Nat.mod_eq_of_lt (by omega)]
    obtain ⟨r, hr, _, hf⟩ := check_ok_formats _ _ _ _ _ _ _ hok
      (count_resources res_list .FORMAT_0 + count_resources res_list .FORMAT_1 +
        nof_ue_pucch_f2_res_harq * nof_harq_pucch_sets + du_csi_res_idx) (by omega)
    exact ⟨r, hr, hf (by omega)⟩

end srs_du

end srsran

namespace srsran

namespace srs_du

/-! ## The Format 1 grants are pairwise distinct -/

/-- The values of a loop are pairwise distinct under a key when the key tells the
iteration and the values of each iteration are pairwise distinct. -/
theorem nodup_map_candidates {β κ : Type} (c : Nat → List β) (key : β → κ) (tag : κ → Nat)
    (start count : Nat)
    (htag : ∀ i, start ≤ i → i < start + count → ∀ x ∈ c i, tag (key x) = i)
    (hnd : ∀ i, start ≤ i → i < start + count → ((c i).map key).Nodup) :
    ((candidates c start count).map key).Nodup := by
  induction count generalizing start with
  | zero => simp [candidates]
  | succ n ih =>
    simp only [candidates, List.map_append]
    rw [List.nodup_append]
    refine ⟨hnd start (le_refl _) (by omega), ?_, ?_⟩
    · exact ih (start + 1) (fun i h1 h2 => htag i (by omega) (by omega))
        (fun i h1 h2 => hnd i (by omega) (by omega))
    · intro k hk1 hk2
      obtain ⟨x, hx, rfl⟩ := List.mem_map.1 hk1
      obtain ⟨y, hy, hxy⟩ := List.mem_map.1 hk2
      obtain ⟨i, hi1, hi2, hyi⟩ := mem_candidates _ _ _ y hy
      have t1 := htag start (le_refl _) (by omega) x hx
      have t2 := htag i (by omega) (by omega) y hyi
      rw [hxy] at t2
      omega

/-- The grants of the loop over the symbols are pairwise distinct when the grants of
each symbol range lie on the range and are pairwise distinct. -/
theorem nodup_map_sym_candidates (nof_symbols max_nof_symbols : Nat)
    (c : interval → List pucch_grant) (hsym : ∀ s, ∀ x ∈ c s, x.symbols = s)
    (hnd : ∀ s, ((c s).map pucch_grant.f1_key).Nodup) :
    ((sym_candidates nof_symbols max_nof_symbols c).map pucch_grant.f1_key).Nodup := by
  unfold sym_candidates
  refine nodup_map_candidates _ _ (fun k => k.2.1 / nof_symbols) _ _ ?_ (fun i _ _ => hnd _)
  intro i _ hi x hx
  have hs := hsym _ x hx
  simp only [pucch_grant.f1_key, hs]
  have hpos : 0 < nof_symbols := by
    rcases Nat.eq_zero_or_pos nof_symbols with h0 | h0
    · rw [h0, Nat.div_zero] at hi
      omega
    · exact h0
  exact Nat.mul_div_cancel i hpos

/-- The grants of the loop over the OCC-CS index lie on the symbols and PRBs of the
loop and carry an OCC-CS index below the number of indices. -/
theorem mem_occ_cs_candidates_fields (nof_occ_css : Nat) (symbols prbs : interval)
    (hop : Option interval) (g : pucch_grant)
    (h : g ∈ occ_cs_candidates nof_occ_css symbols prbs hop) :
    g.symbols = symbols ∧ g.prbs = prbs ∧ ∃ idx, g.occ_cs_idx = some idx ∧ idx < nof_occ_css := by
  obtain ⟨i, _, hi, hg⟩ := mem_candidates _ _ _ g h
  simp only [List.mem_singleton] at hg
  subst hg
  exact ⟨rfl, rfl, i, rfl, by omega⟩

theorem nodup_map_occ_cs_candidates (nof_occ_css : Nat) (symbols prbs : interval)
    (hop : Option interval) :
    ((occ_cs_candidates nof_occ_css symbols prbs hop).map pucch_grant.f1_key).Nodup := by
  unfold occ_cs_candidates
  refine nodup_map_candidates _ _ (fun k => k.2.2.getD 0) _ _ ?_ ?_
  · intro i _ _ x hx
    simp only [List.mem_singleton] at hx
    subst hx
    rfl
  · intro i _ _
    simp

/-- Two lists of grants on different PRBs are pairwise distinct together. -/
theorem nodup_map_append_of_prbs (l1 l2 : List pucch_grant) (p1 p2 : Nat) (hp : p1 ≠ p2)
    (h1 : ∀ g ∈ l1, g.prbs.start = p1) (h2 : ∀ g ∈ l2, g.prbs.start = p2)
    (n1 : (l1.map pucch_grant.f1_key).Nodup) (n2 : (l2.map pucch_grant.f1_key).Nodup) :
    ((l1 ++ l2).map pucch_grant.f1_key).Nodup := by
  rw [List.map_append, List.nodup_append]
  refine ⟨n1, n2, ?_⟩
  intro k hk1 hk2
  obtain ⟨x, hx, rfl⟩ := List.mem_map.1 hk1
  obtain ⟨y, hy, hxy⟩ := List.mem_map.1 hk2
  have e1 := h1 x hx
  have e2 := h2 y hy
  have : y.prbs.start = x.prbs.start := congrArg Prod.fst hxy
  omega

/-- The PRB on the upper side that mirrors `rb_idx` tells `rb_idx`. -/
theorem rb_idx_of_hi_prb (bwp rb_idx : Nat) (hb : 2 ≤ bwp) (hb2 : bwp < 4294967296)
    (hr : rb_idx < usub (bwp / 2) 1) :
    rb_idx_of_prb bwp (hi_prbs bwp 1 rb_idx).start = rb_idx ∧
    (hi_prbs bwp 1 rb_idx).start ≠ rb_idx := by
  have hgt := hi_prbs_start_gt bwp rb_idx hb hb2 hr
  have hval : (hi_prbs bwp 1 rb_idx).start = bwp - 1 - rb_idx := by
    unfold hi_prbs
    simp only
    unfold usub at hr ⊢
    omega
  unfold rb_idx_of_prb
  rw [hval] at hgt ⊢
  unfold usub at hr
  constructor
  · rw [if_neg (by omega)]
    omega
  · omega

theorem rb_idx_of_low_prb (bwp rb_idx : Nat) (hb : 2 ≤ bwp) (hb2 : bwp < 4294967296)
    (hr : rb_idx < usub (bwp / 2) 1) : rb_idx_of_prb bwp rb_idx = rb_idx := by
  unfold rb_idx_of_prb
  unfold usub at hr
  rw [if_pos (by omega)]

/-- The Format 1 grants that `compute_f1_res` can emplace differ pairwise in the PRB,
the first symbol or the OCC-CS index. -/
theorem f1_candidates_nodup (params : pucch_f1_params) (bwp nof_occ_css max_syms : Nat)
    (hb : 2 ≤ bwp) (hb2 : bwp < 4294967296) :
    ((f1_candidates params bwp nof_occ_css max_syms).map pucch_grant.f1_key).Nodup := by
  unfold f1_candidates
  by_cases hop : params.intraslot_freq_hopping = true
  · simp only [hop, if_true]
    refine nodup_map_candidates _ _ (fun k => rb_idx_of_prb bwp k.1) _ _ ?_ ?_
    · intro i _ hi x hx
      have hi2 : i < usub (bwp / 2) 1 := by simpa using hi
      obtain ⟨s, hx⟩ := mem_sym_candidates _ _ _ x hx
      rcases List.mem_append.1 hx with hx | hx
      · obtain ⟨_, e, _⟩ := mem_occ_cs_candidates_fields _ _ _ _ x hx
        simp only [pucch_grant.f1_key, e]
        exact rb_idx_of_low_prb bwp i hb hb2 hi2
      · obtain ⟨_, e, _⟩ := mem_occ_cs_candidates_fields _ _ _ _ x hx
        simp only [pucch_grant.f1_key, e]
        exact (rb_idx_of_hi_prb bwp i hb hb2 hi2).1
    · intro i _ hi
      have hi2 : i < usub (bwp / 2) 1 := by simpa using hi
      refine nodup_map_sym_candidates _ _ _ ?_ ?_
      · intro s x hx
        rcases List.mem_append.1 hx with hx | hx
        · exact (mem_occ_cs_candidates_fields _ _ _ _ x hx).1
        · exact (mem_occ_cs_candidates_fields _ _ _ _ x hx).1
      · intro s
        refine nodup_map_append_of_prbs _ _ i (hi_prbs bwp 1 i).start
          (rb_idx_of_hi_prb bwp i hb hb2 hi2).2.symm ?_ ?_
          (nodup_map_occ_cs_candidates _ _ _ _) (nodup_map_occ_cs_candidates _ _ _ _)
        · intro g hg
          rw [(mem_occ_cs_candidates_fields _ _ _ _ g hg).2.1]
        · intro g hg
          rw [(mem_occ_cs_candidates_fields _ _ _ _ g hg).2.1]
  · simp only [hop, Bool.false_eq_true, if_false]
    refine nodup_map_candidates _ _ (fun k => rb_idx_of_prb bwp k.1) _ _ ?_ ?_
    · intro i _ hi x hx
      have hi2 : i < usub (bwp / 2) 1 := by simpa using hi
      rcases List.mem_append.1 hx with hx | hx
      · obtain ⟨s, hx⟩ := mem_sym_candidates _ _ _ x hx
        obtain ⟨_, e, _⟩ := mem_occ_cs_candidates_fields _ _ _ _ x hx
        simp only [pucch_grant.f1_key, e]
        exact rb_idx_of_low_prb bwp i hb hb2 hi2
      · obtain ⟨s, hx⟩ := mem_sym_candidates _ _ _ x hx
        obtain ⟨_, e, _⟩ := mem_occ_cs_candidates_fields _ _ _ _ x hx
        simp only [pucch_grant.f1_key, e]
        exact (rb_idx_of_hi_prb bwp i hb hb2 hi2).1
    · intro i _ hi
      have hi2 : i < usub (bwp / 2) 1 := by simpa using hi
      refine nodup_map_append_of_prbs _ _ i (hi_prbs bwp 1 i).start
        (rb_idx_of_hi_prb bwp i hb hb2 hi2).2.symm ?_ ?_ ?_ ?_
      · intro g hg
        obtain ⟨s, hg⟩ := mem_sym_candidates _ _ _ g hg
        rw [(mem_occ_cs_candidates_fields _ _ _ _ g hg).2.1]
      · intro g hg
        obtain ⟨s, hg⟩ := mem_sym_candidates _ _ _ g hg
        rw [(mem_occ_cs_candidates_fields _ _ _ _ g hg).2.1]
      · exact nodup_map_sym_candidates _ _ _
          (fun s x hx => (mem_occ_cs_candidates_fields _ _ _ _ x hx).1)
          (fun s => nodup_map_occ_cs_candidates _ _ _ _)
      · exact nodup_map_sym_candidates _ _ _
          (fun s x hx => (mem_occ_cs_candidates_fields _ _ _ _ x hx).1)
          (fun s => nodup_map_occ_cs_candidates _ _ _ _)

end srs_du

end srsran

namespace srsran

namespace srs_du

/-! ## The Format 1 resources are pairwise distinct -/

/-- A loop whose body appends one element with a key that the iterated value tells
appends the keys of the iterated values. -/
theorem for_each_or_return_keys {α σ β κ : Type} (body : α → σ → Option σ)
    (proj : σ → List β) (key : β → κ) (kf : α → κ)
    (hstep : ∀ x st st2, body x st = some st2 →
      ∃ r, proj st2 = proj st ++ [r] ∧ key r = kf x)
    (xs : List α) (st st2 : σ) (h : for_each_or_return body xs st = some st2) :
    (proj st2).map key = (proj st).map key ++ xs.map kf := by
  induction xs generalizing st with
  | nil =>
    simp only [for_each_or_return, Option.some.injEq] at h
    subst h
    simp
  | cons x xs ih =>
    simp only [for_each_or_return] at h
    cases hb : body x st with
    | none => simp [hb] at h
    | some s1 =>
      simp only [hb] at h
      obtain ⟨r, e1, k1⟩ := hstep x st s1 hb
      rw [ih s1 h, e1]
      simp [k1]

/-- The step of the merge for a Format 1 grant appends a resource whose combination is
the one that the key of the grant tells. -/
theorem merge_f1_step_key (cs bwp : Nat) (g : pucch_grant)
    (st st2 : List pucch_resource × Nat × Nat) (h : merge_f1_step cs bwp g st = some st2) :
    ∃ r, st2.1 = st.1 ++ [r] ∧ r.f1_key = f1_key_of_grant_key cs g.f1_key := by
  unfold merge_f1_step at h
  cases hu : update_occupancy bwp g st.2.1 st.2.2 with
  | none => simp [hu] at h
  | some occ =>
    cases ho : g.occ_cs_idx with
    | none => simp [hu, ho] at h
    | some idx =>
      simp only [hu, ho, Option.some.injEq] at h
      subst h
      refine ⟨_, rfl, ?_⟩
      simp [pucch_resource.f1_key, f1_key_of_grant_key, pucch_grant.f1_key, ho]

/-- The divisors of 12, the values of `format1_cp_step_to_uint`. -/
theorem dvd_twelve (n : Nat) (h : n ∣ 12) :
    n = 1 ∨ n = 2 ∨ n = 3 ∨ n = 4 ∨ n = 6 ∨ n = 12 := by
  have hle : n ≤ 12 := Nat.le_of_dvd (by decide) h
  interval_cases n <;> omega

/-- The OCC-CS index tells the initial cyclic shift and the time domain OCC apart: two
indices with the same cyclic shift and the same OCC are equal, for a number of cyclic
shifts that divides 12. -/
theorem occ_cs_index_injective (nof_css i j : Nat) (hcss : nof_css ∣ 12)
    (hi : i < 268435456) (hj : j < 268435456)
    (h1 : occ_cs_index_to_cyclic_shift i nof_css = occ_cs_index_to_cyclic_shift j nof_css)
    (h2 : occ_cs_index_to_occ i nof_css = occ_cs_index_to_occ j nof_css) : i = j := by
  have hstep : 12 / nof_css ≤ 12 := Nat.div_le_self _ _
  have hi2 : i * (12 / nof_css) < 4294967296 :=
    lt_of_le_of_lt (Nat.mul_le_mul_left i hstep) (by omega)
  have hj2 : j * (12 / nof_css) < 4294967296 :=
    lt_of_le_of_lt (Nat.mul_le_mul_left j hstep) (by omega)
  unfold occ_cs_index_to_cyclic_shift umul at h1
  unfold occ_cs_index_to_occ at h2
  simp only at h1
  rw [Nat.mod_eq_of_lt hi2, Nat.mod_eq_of_lt hj2] at h1
  rcases dvd_twelve nof_css hcss with h | h | h | h | h | h
  all_goals
    subst h
    simp only [Nat.reduceDiv] at h1
    omega

/-- In a list whose first part has pairwise distinct combinations and whose second
part has none, two resources at different positions do not share a combination. -/
theorem f1_keys_distinct_of_parts (r1 r2 : List pucch_resource)
    (hnd : (r1.map pucch_resource.f1_key).Nodup) (hnone : ∀ r ∈ r2, r.f1_key = none)
    (i j : Nat) (x y : pucch_resource) (hij : i < j) (hx : (r1 ++ r2)[i]? = some x)
    (hy : (r1 ++ r2)[j]? = some y) (k : Nat × Nat × Nat × Nat) (hk : x.f1_key = some k) :
    y.f1_key ≠ some k := by
  by_cases hj : j < r1.length
  · rw [List.getElem?_append_left (by omega)] at hx
    rw [List.getElem?_append_left hj] at hy
    have h := List.nodup_iff_getElem?_ne_getElem?.1 hnd i j hij (by simpa using hj)
    intro hyk
    apply h
    simp [hx, hy, hk, hyk]
  · rw [List.getElem?_append_right (by omega)] at hy
    have hmem : y ∈ r2 := List.mem_iff_getElem?.2 ⟨_, hy⟩
    rw [hnone y hmem]
    simp

end srs_du

end srsran

namespace srsran

namespace srs_du

/-! ## Accepted Format 1 parameters on a BWP of fewer than 2 PRBs -/

/-- The quotient rounded up is at most the dividend. -/
theorem ceil_div_le (a b : Nat) : ceil_div a b ≤ a := by
  unfold ceil_div
  rcases Nat.eq_zero_or_pos b with h0 | h0
  · rw [h0, Nat.div_zero]
    omega
  · have h1 : a + b - 1 < (a + 1) * b := by
      have : a ≤ a * b := Nat.le_mul_of_pos_right a h0
      rw [Nat.add_mul, Nat.one_mul]
      omega
    have := (Nat.div_lt_iff_lt_mul h0).2 h1
    omega

/-- The quotient rounded up of a positive number is positive. -/
theorem ceil_div_pos (a b : Nat) (ha : 0 < a) (hb : 0 < b) : 0 < ceil_div a b := by
  unfold ceil_div
  exact Nat.div_pos (by omega) hb

/-- The number of PRBs that the validator computes for Format 2 is below 2^29 for
fewer than 2^24 resources of at most 16 PRBs. -/
theorem nof_f2_rbs_lt (get : Nat → Nat → Nat → Nat) (n2 : Nat) (p2 : pucch_f2_params)
    (max_syms : Nat) (hn2 : n2 < 16777216) (hm : f2_max_rbs get p2 ≤ 16) :
    nof_f2_rbs get n2 p2 max_syms < 536870912 := by
  unfold nof_f2_rbs
  simp only
  have h1 := ceil_div_le n2 (max_syms / p2.nof_symbols)
  have h2 : umul (ceil_div n2 (max_syms / p2.nof_symbols)) (f2_max_rbs get p2) ≤
      16777216 * 16 := by
    unfold umul
    exact le_trans (Nat.mod_le _ _) (Nat.mul_le_mul (by omega) hm)
  generalize umul (ceil_div n2 (max_syms / p2.nof_symbols)) (f2_max_rbs get p2) = rbs at h2
  split
  · unfold umul ceil_div
    omega
  · omega

/-- When the validator accepts Format 1 parameters for a BWP of fewer than 2 PRBs,
`generate_cell_pucch_res_list` has no Format 1 grant, for parameters within their
types and fewer than 2^24 requested resources. -/
theorem f1_grants_nil_of_small_bwp (get : Nat → Nat → Nat → Nat) (n1 n2 : Nat)
    (p : pucch_f1_params) (p2 : pucch_f2_params) (bwp max_syms : Nat)
    (hv : pucch_parameters_validator get n1 n2 (.f1 p) p2 bwp max_syms = .ok ())
    (hbwp : bwp < 2) (hn1 : n1 < 16777216) (hn2 : n2 < 16777216)
    (hsym : p.nof_symbols ≤ 14) (hmax : max_syms ≤ 14) (hcss : p.nof_cyc_shifts ≤ 12) :
    (f0_f1_grants n1 (.f1 p) bwp max_syms).1 = [] := by
  by_cases hn : 0 < n1
  swap
  · have h0 : n1 = 0 := by omega
    subst h0
    simp [f0_f1_grants]
  simp only [f0_f1_grants, gt_iff_lt, hn, if_true]
  rw [compute_f1_res_eq_take n1 p bwp _ max_syms hn]
  have hm := validator_ok_f2_max_rbs get _ _ _ _ _ _ hv
  have hr2 := nof_f2_rbs_lt get n2 p2 max_syms hn2 hm
  unfold pucch_parameters_validator at hv
  simp only [nof_f0_f1_rbs] at hv
  -- the number of cyclic shifts, of OCC codes and of symbol ranges
  have hocc : (if p.occ_supported = true then format1_symb_to_spreading_factor p.nof_symbols
      else 1) ≤ 7 := by
    unfold format1_symb_to_spreading_factor
    split <;> omega
  have hq : max_syms / p.nof_symbols ≤ 14 := le_trans (Nat.div_le_self _ _) hmax
  generalize (if p.occ_supported = true then format1_symb_to_spreading_factor p.nof_symbols
      else 1) = occ at hocc hv ⊢
  generalize nof_f2_rbs get n2 p2 max_syms = rbs2 at hr2 hv
  have hlen := f1_candidates_length p bwp (umul p.nof_cyc_shifts occ) max_syms
  unfold f1_capacity at hlen
  have hoc : occ * p.nof_cyc_shifts ≤ 7 * 12 := Nat.mul_le_mul hocc hcss
  have hco : p.nof_cyc_shifts * occ = occ * p.nof_cyc_shifts := Nat.mul_comm _ _
  have hper : occ * p.nof_cyc_shifts * (max_syms / p.nof_symbols) ≤ 7 * 12 * 14 :=
    Nat.mul_le_mul hoc hq
  have e1 : umul occ p.nof_cyc_shifts = occ * p.nof_cyc_shifts := by
    unfold umul
    exact Nat.mod_eq_of_lt (by omega)
  have e2 : umul p.nof_cyc_shifts occ = occ * p.nof_cyc_shifts := by
    unfold umul
    rw [hco]
    exact Nat.mod_eq_of_lt (by omega)
  have e3 : umul (occ * p.nof_cyc_shifts) (max_syms / p.nof_symbols) =
      occ * p.nof_cyc_shifts * (max_syms / p.nof_symbols) := by
    unfold umul
    exact Nat.mod_eq_of_lt (by omega)
  rw [e1, e3] at hv
  rw [e2] at hlen ⊢
  rcases Nat.eq_zero_or_pos (occ * p.nof_cyc_shifts * (max_syms / p.nof_symbols)) with hz | hpos
  · -- no grant per PRB index
    have hz2 : max_syms / p.nof_symbols * (occ * p.nof_cyc_shifts + occ * p.nof_cyc_shifts)
        = 0 := by
      rcases Nat.mul_eq_zero.1 hz with h | h
      · rw [h, Nat.add_zero, Nat.mul_zero]
      · rw [h, Nat.zero_mul]
    rw [hz2, Nat.mul_zero] at hlen
    rw [List.length_eq_zero.1 hlen]
    exact List.take_nil
  · -- at least one PRB for Format 1: the validator rejects the parameters
    exfalso
    have hr1 := ceil_div_pos n1 _ hn hpos
    have hr1le := ceil_div_le n1 (occ * p.nof_cyc_shifts * (max_syms / p.nof_symbols))
    generalize hrbs : ceil_div n1 (occ * p.nof_cyc_shifts * (max_syms / p.nof_symbols)) = rbs
      at hr1 hr1le hv
    have hx : 1 ≤ (if p.intraslot_freq_hopping = true then umul (ceil_div rbs 2) 2 else rbs) ∧
        (if p.intraslot_freq_hopping = true then umul (ceil_div rbs 2) 2 else rbs) ≤
          rbs + 1 := by
      split
      · unfold umul ceil_div
        omega
      · omega
    generalize (if p.intraslot_freq_hopping = true then umul (ceil_div rbs 2) 2 else rbs) =
      rbs1 at hx hv
    cases hu : prb_usage_reaches_limit (uadd rbs1 rbs2) bwp with
    | true =>
      simp only [hu, if_true] at hv
      split_ifs at hv
    | false =>
      unfold prb_usage_reaches_limit uadd at hu
      split_ifs at hu with hb0
      · simp only [ne_eq, decide_not, Bool.not_eq_false', decide_eq_true_eq] at hu
        omega
      · simp only [decide_eq_false_iff_not] at hu
        omega

end srs_du

end srsran

namespace srsran

namespace srs_du

/-! ## Claim on the Format 1 resources of the generated list -/

/-- Every Format 1 grant of the loops has an OCC-CS index below the number of
combinations. -/
theorem mem_f1_candidates_occ (params : pucch_f1_params) (bwp nof_occ_css max_syms : Nat)
    (g : pucch_grant) (hg : g ∈ f1_candidates params bwp nof_occ_css max_syms) :
    ∃ idx, g.occ_cs_idx = some idx ∧ idx < nof_occ_css := by
  unfold f1_candidates at hg
  by_cases hop : params.intraslot_freq_hopping = true
  · simp only [hop, if_true] at hg
    obtain ⟨i, _, _, hg⟩ := mem_candidates _ _ _ g hg
    obtain ⟨s, hg⟩ := mem_sym_candidates _ _ _ g hg
    rcases List.mem_append.1 hg with hg | hg
    · exact (mem_occ_cs_candidates_fields _ _ _ _ g hg).2.2
    · exact (mem_occ_cs_candidates_fields _ _ _ _ g hg).2.2
  · simp only [hop, Bool.false_eq_true, if_false] at hg
    obtain ⟨i, _, _, hg⟩ := mem_candidates _ _ _ g hg
    rcases List.mem_append.1 hg with hg | hg
    · obtain ⟨s, hg⟩ := mem_sym_candidates _ _ _ g hg
      exact (mem_occ_cs_candidates_fields _ _ _ _ g hg).2.2
    · obtain ⟨s, hg⟩ := mem_sym_candidates _ _ _ g hg
      exact (mem_occ_cs_candidates_fields _ _ _ _ g hg).2.2

/-- The step of the merge for a Format 1 grant appends a resource with Format 1
parameters. -/
theorem merge_f1_step_params (cs bwp : Nat) (g : pucch_grant)
    (st st2 : List pucch_resource × Nat × Nat) (h : merge_f1_step cs bwp g st = some st2) :
    ∃ r, st2.1 = st.1 ++ [r] ∧ ∃ cfg, r.format_params = .f1 cfg := by
  unfold merge_f1_step at h
  cases hu : update_occupancy bwp g st.2.1 st.2.2 with
  | none => simp [hu] at h
  | some occ =>
    cases ho : g.occ_cs_idx with
    | none => simp [hu, ho] at h
    | some idx =>
      simp only [hu, ho, Option.some.injEq] at h
      subst h
      exact ⟨_, rfl, _, rfl⟩

/-- The step of the merge for a Format 2 grant appends a resource of Format 2, which
has no Format 1 combination. -/
theorem merge_f2_step_format_key (bwp low hi : Nat) (g : pucch_grant)
    (l l2 : List pucch_resource) (h : merge_f2_step bwp low hi g l = some l2) :
    ∃ r, l2 = l ++ [r] ∧ (r.format = .FORMAT_2 ∧ r.f1_key = none) := by
  unfold merge_f2_step at h
  by_cases c1 : g.prbs.start < usub (bwp / 2) g.prbs.length
  · simp only [c1, if_true, Option.some.injEq] at h
    subst h
    exact ⟨_, rfl, rfl, rfl⟩
  · simp only [c1, if_false] at h
    by_cases c2 : g.prbs.start > bwp / 2
    · simp only [c2, if_true, Option.some.injEq] at h
      subst h
      exact ⟨_, rfl, rfl, rfl⟩
    · simp [c2] at h

/-- The merge of Format 1 grants is empty, or it holds the resources of the Format 1
grants, which have Format 1 parameters and the combinations that the keys of the grants
tell, followed by resources of Format 2. -/
theorem merge_f1_parts (l1 l2 : List pucch_grant) (cs bwp : Nat) :
    merge_f0_f1_f2_resource_lists l1 l2 (some cs) bwp = [] ∨
    ∃ r1 r2, merge_f0_f1_f2_resource_lists l1 l2 (some cs) bwp = r1 ++ r2 ∧
      r1.map pucch_resource.f1_key =
        l1.map (fun g => f1_key_of_grant_key cs g.f1_key) ∧
      (∀ r ∈ r1, ∃ cfg, r.format_params = .f1 cfg) ∧
      (∀ r ∈ r2, r.format = .FORMAT_2 ∧ r.f1_key = none) := by
  unfold merge_f0_f1_f2_resource_lists
  simp only
  cases h1 : merge_f1_loop cs bwp l1 ([], 0, 0) with
  | none => exact Or.inl rfl
  | some st =>
    obtain ⟨rl, low, hi⟩ := st
    simp only
    cases h2 : merge_f2_loop bwp low hi l2 rl with
    | none => exact Or.inl rfl
    | some res =>
      right
      unfold merge_f1_loop at h1
      unfold merge_f2_loop at h2
      have k1 := for_each_or_return_keys (merge_f1_step cs bwp) (fun st => st.1)
        pucch_resource.f1_key (fun g => f1_key_of_grant_key cs g.f1_key)
        (fun x st st2 hb => merge_f1_step_key cs bwp x st st2 hb) l1 _ _ h1
      obtain ⟨a1, e1, _, p1⟩ := for_each_or_return_appends (merge_f1_step cs bwp)
        (fun st => st.1) (fun r => ∃ cfg, r.format_params = .f1 cfg)
        (fun x st st2 hb => merge_f1_step_params cs bwp x st st2 hb) l1 _ _ h1
      obtain ⟨added, e2, _, p2⟩ := for_each_or_return_appends (merge_f2_step bwp low hi)
        (fun l => l) (fun r => r.format = .FORMAT_2 ∧ r.f1_key = none)
        (fun x st st2 hb => merge_f2_step_format_key bwp low hi x st st2 hb) l2 _ _ h2
      simp only [List.map_nil, List.nil_append] at k1 e1
      refine ⟨rl, added, e2, k1, ?_, p2⟩
      rw [e1]
      exact p1

/-- The combinations that the merge computes for the Format 1 grants of the generator
are pairwise distinct. -/
theorem f1_grants_keys_nodup (n1 : Nat) (p : pucch_f1_params) (bwp max_syms : Nat)
    (hcss : p.nof_cyc_shifts ∣ 12) (hsym : p.nof_symbols ≤ 14) (hbwp : bwp < 4294967296)
    (hb : (f0_f1_grants n1 (.f1 p) bwp max_syms).1 = [] ∨ 2 ≤ bwp) :
    ((f0_f1_grants n1 (.f1 p) bwp max_syms).1.map
      (fun g => f1_key_of_grant_key (f0_f1_grants n1 (.f1 p) bwp max_syms).2 g.f1_key)).Nodup := by
  rcases hb with hnil | hb
  · rw [hnil]
    exact List.nodup_nil
  by_cases hn : 0 < n1
  swap
  · have h0 : n1 = 0 := by omega
    subst h0
    simp [f0_f1_grants]
  simp only [f0_f1_grants, gt_iff_lt, hn, if_true]
  rw [compute_f1_res_eq_take n1 p bwp _ max_syms hn]
  have hocc : (if p.occ_supported = true then format1_symb_to_spreading_factor p.nof_symbols
      else 1) ≤ 7 := by
    unfold format1_symb_to_spreading_factor
    split <;> omega
  generalize (if p.occ_supported = true then format1_symb_to_spreading_factor p.nof_symbols
      else 1) = occ at hocc ⊢
  have hcss_le : p.nof_cyc_shifts ≤ 12 := Nat.le_of_dvd (by decide) hcss
  have hnocc : umul p.nof_cyc_shifts occ ≤ 12 * 7 := by
    unfold umul
    exact le_trans (Nat.mod_le _ _) (Nat.mul_le_mul hcss_le hocc)
  generalize umul p.nof_cyc_shifts occ = nocc at hnocc ⊢
  have hnd := f1_candidates_nodup p bwp nocc max_syms hb hbwp
  have hsub : List.Sublist (((f1_candidates p bwp nocc max_syms).take n1).map pucch_grant.f1_key)
      ((f1_candidates p bwp nocc max_syms).map pucch_grant.f1_key) :=
    (List.take_sublist _ _).map _
  have hnd2 := hnd.sublist hsub
  have hcomp : ((f1_candidates p bwp nocc max_syms).take n1).map
      (fun g => f1_key_of_grant_key p.nof_cyc_shifts g.f1_key) =
      (((f1_candidates p bwp nocc max_syms).take n1).map pucch_grant.f1_key).map
        (f1_key_of_grant_key p.nof_cyc_shifts) := by
    rw [List.map_map]
    rfl
  rw [hcomp]
  refine List.Nodup.map_on ?_ hnd2
  intro k1 hk1 k2 hk2 heq
  obtain ⟨g1, hg1, rfl⟩ := List.mem_map.1 hk1
  obtain ⟨g2, hg2, rfl⟩ := List.mem_map.1 hk2
  obtain ⟨i1, ho1, hi1⟩ := mem_f1_candidates_occ p bwp nocc max_syms g1 (List.mem_of_mem_take hg1)
  obtain ⟨i2, ho2, hi2⟩ := mem_f1_candidates_occ p bwp nocc max_syms g2 (List.mem_of_mem_take hg2)
  simp only [f1_key_of_grant_key, pucch_grant.f1_key, ho1, ho2, Option.map_some',
    Option.some.injEq, Prod.mk.injEq] at heq ⊢
  obtain ⟨e1, e2, e3, e4⟩ := heq
  exact ⟨e1, e2, occ_cs_index_injective p.nof_cyc_shifts i1 i2 hcss (by omega) (by omega) e3 e4⟩

/-- The list generated for Format 1 parameters is empty, or the parameters are accepted
and the list is the merge of the grants. -/
theorem generate_f1_nil_or_merge (get : Nat → Nat → Nat → Nat) (MAX n1 n2 : Nat)
    (p : pucch_f1_params) (p2 : pucch_f2_params) (bwp max_syms : Nat) :
    generate_cell_pucch_res_list get MAX n1 n2 (.f1 p) p2 bwp max_syms = [] ∨
    (pucch_parameters_validator get n1 n2 (.f1 p) p2 bwp max_syms = .ok () ∧
      generate_cell_pucch_res_list get MAX n1 n2 (.f1 p) p2 bwp max_syms =
        merge_f0_f1_f2_resource_lists (f0_f1_grants n1 (.f1 p) bwp max_syms).1
          (if n2 > 0 then compute_f2_res get n2 p2 bwp max_syms else [])
          (some (f0_f1_grants n1 (.f1 p) bwp max_syms).2) bwp) := by
  unfold generate_cell_pucch_res_list
  cases hv : pucch_parameters_validator get n1 n2 (.f1 p) p2 bwp max_syms with
  | error e => exact Or.inl rfl
  | ok u =>
    simp only [pucch_f0_f1_params.has_f0, Bool.false_eq_true, if_false]
    by_cases hlen : (merge_f0_f1_f2_resource_lists (f0_f1_grants n1 (.f1 p) bwp max_syms).1
          (if n2 > 0 then compute_f2_res get n2 p2 bwp max_syms else [])
          (some (f0_f1_grants n1 (.f1 p) bwp max_syms).2) bwp).length > MAX
    · rw [if_pos hlen]
      exact Or.inl rfl
    · rw [if_neg hlen]
      exact Or.inr ⟨trivial, rfl⟩

/-- C28: the generated Format 1 resources are pairwise orthogonal. In the list that
`generate_cell_pucch_res_list` returns for Format 1 parameters, every resource of Format
1 has Format 1 parameters, and two resources of Format 1 at different positions do not
share the combination of `starting_prb`, `starting_sym_idx`, `initial_cyclic_shift` and
`time_domain_occ`. The hypotheses are the ranges of the types of the parameters (the
number of cyclic shifts is 1, 2, 3, 4, 6 or 12, a Format 1 resource has at most 14
symbols, `max_nof_symbols` is at most 14, `bwp_size_rbs` is an `unsigned`) and the range
of the requested numbers in which the float arithmetic of the validator is exact. -/
theorem generated_f1_resources_are_orthogonal (get : Nat → Nat → Nat → Nat)
    (MAX_NOF_CELL_PUCCH_RESOURCES nof_res_f0_f1 nof_res_f2 : Nat)
    (f1_params : pucch_f1_params) (f2_params : pucch_f2_params)
    (bwp_size_rbs max_nof_symbols : Nat)
    (hcss : f1_params.nof_cyc_shifts ∣ 12) (hsym : f1_params.nof_symbols ≤ 14)
    (hmax : max_nof_symbols ≤ 14) (hbwp : bwp_size_rbs < 4294967296)
    (hn1 : nof_res_f0_f1 < 16777216) (hn2 : nof_res_f2 < 16777216)
    (i j : Nat) (x y : pucch_resource) (hij : i ≠ j)
    (hx : (generate_cell_pucch_res_list get MAX_NOF_CELL_PUCCH_RESOURCES nof_res_f0_f1
      nof_res_f2 (.f1 f1_params) f2_params bwp_size_rbs max_nof_symbols)[i]? = some x)
    (hy : (generate_cell_pucch_res_list get MAX_NOF_CELL_PUCCH_RESOURCES nof_res_f0_f1
      nof_res_f2 (.f1 f1_params) f2_params bwp_size_rbs max_nof_symbols)[j]? = some y)
    (hfx : x.format = .FORMAT_1) (hfy : y.format = .FORMAT_1) :
    ∃ cfg1 cfg2, x.format_params = .f1 cfg1 ∧ y.format_params = .f1 cfg2 ∧
      ¬ (x.starting_prb = y.starting_prb ∧ cfg1.starting_sym_idx = cfg2.starting_sym_idx ∧
        cfg1.initial_cyclic_shift = cfg2.initial_cyclic_shift ∧
        cfg1.time_domain_occ = cfg2.time_domain_occ) := by
  -- the property for a list in two parts
  have key : ∀ (r1 r2 : List pucch_resource),
      (r1.map pucch_resource.f1_key).Nodup →
      (∀ r ∈ r1, ∃ cfg, r.format_params = .f1 cfg) →
      (∀ r ∈ r2, r.format = .FORMAT_2 ∧ r.f1_key = none) →
      (r1 ++ r2)[i]? = some x → (r1 ++ r2)[j]? = some y →
      ∃ cfg1 cfg2, x.format_params = .f1 cfg1 ∧ y.format_params = .f1 cfg2 ∧
        ¬ (x.starting_prb = y.starting_prb ∧ cfg1.starting_sym_idx = cfg2.starting_sym_idx ∧
          cfg1.initial_cyclic_shift = cfg2.initial_cyclic_shift ∧
          cfg1.time_domain_occ = cfg2.time_domain_occ) := by
    intro r1 r2 hnd hp1 hp2 hx2 hy2
    have inr1 : ∀ (k : Nat) (z : pucch_resource), (r1 ++ r2)[k]? = some z →
        z.format = .FORMAT_1 → ∃ cfg, z.format_params = .f1 cfg := by
      intro k z hz hfz
      by_cases hk : k < r1.length
      · rw [List.getElem?_append_left hk] at hz
        exact hp1 z (List.mem_iff_getElem?.2 ⟨_, hz⟩)
      · rw [List.getElem?_append_right (by omega)] at hz
        have := (hp2 z (List.mem_iff_getElem?.2 ⟨_, hz⟩)).1
        rw [hfz] at this
        cases this
    obtain ⟨c1, hc1⟩ := inr1 i x hx2 hfx
    obtain ⟨c2, hc2⟩ := inr1 j y hy2 hfy
    refine ⟨c1, c2, hc1, hc2, ?_⟩
    rintro ⟨e1, e2, e3, e4⟩
    have kx : x.f1_key = some (x.starting_prb, c1.starting_sym_idx, c1.initial_cyclic_shift,
        c1.time_domain_occ) := by
      simp [pucch_resource.f1_key, hc1]
    have ky : y.f1_key = some (x.starting_prb, c1.starting_sym_idx, c1.initial_cyclic_shift,
        c1.time_domain_occ) := by
      simp [pucch_resource.f1_key, hc2, e1, e2, e3, e4]
    rcases Nat.lt_or_gt_of_ne hij with hlt | hgt
    · exact f1_keys_distinct_of_parts r1 r2 hnd (fun r hr => (hp2 r hr).2) i j x y hlt hx2 hy2
        _ kx ky
    · exact f1_keys_distinct_of_parts r1 r2 hnd (fun r hr => (hp2 r hr).2) j i y x hgt hy2 hx2
        _ ky kx
  -- the generated list
  rcases generate_f1_nil_or_merge get MAX_NOF_CELL_PUCCH_RESOURCES nof_res_f0_f1 nof_res_f2
      f1_params f2_params bwp_size_rbs max_nof_symbols with hnil | ⟨hv, hgen⟩
  · rw [hnil] at hx
    simp at hx
  rw [hgen] at hx hy
  rcases merge_f1_parts (f0_f1_grants nof_res_f0_f1 (.f1 f1_params) bwp_size_rbs
      max_nof_symbols).1
    (if nof_res_f2 > 0 then
      compute_f2_res get nof_res_f2 f2_params bwp_size_rbs max_nof_symbols else [])
    (f0_f1_grants nof_res_f0_f1 (.f1 f1_params) bwp_size_rbs max_nof_symbols).2
    bwp_size_rbs with hnil | ⟨r1, r2, e, hk, hp1, hp2⟩
  · rw [hnil] at hx
    simp at hx
  · rw [e] at hx hy
    refine key r1 r2 ?_ hp1 hp2 hx hy
    rw [hk]
    refine f1_grants_keys_nodup nof_res_f0_f1 f1_params bwp_size_rbs max_nof_symbols hcss
      hsym hbwp ?_
    by_cases hb : 2 ≤ bwp_size_rbs
    · exact Or.inr hb
    · left
      exact f1_grants_nil_of_small_bwp get nof_res_f0_f1 nof_res_f2 f1_params f2_params
        bwp_size_rbs max_nof_symbols hv (by omega) hn1 hn2 hsym hmax
        (Nat.le_of_dvd (by decide) hcss)

end srs_du

end srsran

namespace srsran

namespace srs_du

/-- Witness of C28: three Format 1 resources with two cyclic shifts and the orthogonal
cover codes, and two Format 2 resources, on a BWP of 52 PRBs. The resources at the
positions 0 and 2 are at the same PRB, symbol and cyclic shift, and differ in
`time_domain_occ`. -/
theorem generated_f1_resources_are_orthogonal_witness :
    (2 ∣ 12 ∧ 14 ≤ 14 ∧ 14 ≤ 14 ∧ 52 < 4294967296 ∧ 3 < 16777216 ∧ 2 < 16777216 ∧ 0 ≠ 2) ∧
    (generate_cell_pucch_res_list (fun _ _ _ => 1) 128 3 2
      (.f1 { occ_supported := true, nof_cyc_shifts := 2, intraslot_freq_hopping := false,
             nof_symbols := 14 })
      { nof_symbols := 2, max_nof_rbs := 1, max_payload_bits := none, max_code_rate := 2,
        intraslot_freq_hopping := false } 52 14)[0]? =
      some { res_id := { cell_res_id := 0, ue_res_id := 0 }, starting_prb := 0,
             second_hop_prb := none, format := .FORMAT_1,
             format_params := .f1 { initial_cyclic_shift := 0, nof_symbols := 14,
                                    starting_sym_idx := 0, time_domain_occ := 0 } } ∧
    (generate_cell_pucch_res_list (fun _ _ _ => 1) 128 3 2
      (.f1 { occ_supported := true, nof_cyc_shifts := 2, intraslot_freq_hopping := false,
             nof_symbols := 14 })
      { nof_symbols := 2, max_nof_rbs := 1, max_payload_bits := none, max_code_rate := 2,
        intraslot_freq_hopping := false } 52 14)[2]? =
      some { res_id := { cell_res_id := 2, ue_res_id := 0 }, starting_prb := 0,
             second_hop_prb := none, format := .FORMAT_1,
             format_params := .f1 { initial_cyclic_shift := 0, nof_symbols := 14,
                                    starting_sym_idx := 0, time_domain_occ := 1 } } ∧
    ∃ cfg1 cfg2,
      pucch_format_params.f1 { initial_cyclic_shift := 0, nof_symbols := 14,
                               starting_sym_idx := 0, time_domain_occ := 0 } = .f1 cfg1 ∧
      pucch_format_params.f1 { initial_cyclic_shift := 0, nof_symbols := 14,
                               starting_sym_idx := 0, time_domain_occ := 1 } = .f1 cfg2 ∧
      ¬ ((0 : Nat) = 0 ∧ cfg1.starting_sym_idx = cfg2.starting_sym_idx ∧
        cfg1.initial_cyclic_shift = cfg2.initial_cyclic_shift ∧
        cfg1.time_domain_occ = cfg2.time_domain_occ) :=
  ⟨by decide, rfl, rfl,
    generated_f1_resources_are_orthogonal (fun _ _ _ => 1) 128 3 2
      { occ_supported := true, nof_cyc_shifts := 2, intraslot_freq_hopping := false,
        nof_symbols := 14 }
      { nof_symbols := 2, max_nof_rbs := 1, max_payload_bits := none, max_code_rate := 2,
        intraslot_freq_hopping := false } 52 14
      (by decide) (by decide) (by decide) (by decide) (by decide) (by decide) 0 2
      { res_id := { cell_res_id := 0, ue_res_id := 0 }, starting_prb := 0,
        second_hop_prb := none, format := .FORMAT_1,
        format_params := .f1 { initial_cyclic_shift := 0, nof_symbols := 14,
                               starting_sym_idx := 0, time_domain_occ := 0 } }
      { res_id := { cell_res_id := 2, ue_res_id := 0 }, starting_prb := 0,
        second_hop_prb := none, format := .FORMAT_1,
        format_params := .f1 { initial_cyclic_shift := 0, nof_symbols := 14,
                               starting_sym_idx := 0, time_domain_occ := 1 } }
      (by decide) rfl rfl rfl rfl⟩

end srs_du

end srsran
